import Mathlib

/-!
# GPU/Common/TextureDecoder.cpp

A shallow embedding of the block-compressed (DXT1/3/5) decoder, the 16-byte
swizzle transcoder, the alpha-coverage classifiers and the content
fingerprints, followed by the properties established about them.

Conventions of the embedding:

* unsigned machine integers are `Nat`, reduced `% 2 ^ 32` wherever the C++
  expression is evaluated in 32 bits and can exceed it;
* signed `int` parameters that may be negative are `Int`; signed overflow
  (undefined behaviour in C++) is not modelled;
* memory reached through a pointer is a function from the element offset
  relative to that pointer to the stored value; a pointer variable is the
  current offset;
* a counted `for` loop whose body does not leave the loop is `forLoop`;
* the fingerprints read a byte buffer through little-endian 16-bit and 32-bit
  views; the `u16 * u16` product of the fast path, which C++ evaluates in
  `int`, is taken modulo `2 ^ 16` as its store to a `u16` does.
-/

namespace TextureDecoder

/-! ## Loops and memory -/

/-- The loop `for (i = 0; i < n; i++) s = body(i, s)`: the body is run for
`i = 0, 1, ..., n - 1` in that order. -/
def forLoop {σ : Type} : Nat → (Nat → σ → σ) → σ → σ
  | 0, _, s => s
  | n + 1, body, s => body n (forLoop n body s)

/-- A buffer of 32-bit texels (`u32 *`), indexed by the element offset from the
pointer handed to the routine. -/
abbrev TexelBuf := Int → Nat

/-- The store `p[at] = v`. -/
def TexelBuf.write (m : TexelBuf) (pos : Int) (v : Nat) : TexelBuf :=
  fun o => if o = pos then v else m o

/-! ## S3TC / DXT decoder -/

/-- Modelled from the spec: the declaration of `struct DXT1Block` lives in
`GPU/Common/TextureDecoder.h`, which is not part of the sources at hand.
Variant A is 8 bytes: four bytes of 2-bit-per-texel colour indices, one
scanline per byte (`lines[0..3]`), and two 16-bit 5:6:5 colours. -/
structure DXT1Block where
  lines : Nat → Nat
  color1 : Nat
  color2 : Nat

/-- Modelled from the spec: `struct DXT3Block` (declared in the absent
`TextureDecoder.h`). Variant B is the Variant-A colour payload plus 8 bytes of
explicit 4-bit-per-texel alpha, one 16-bit word per scanline. -/
structure DXT3Block where
  color : DXT1Block
  alphaLines : Nat → Nat

/-- Modelled from the spec: `struct DXT5Block` (declared in the absent
`TextureDecoder.h`). Variant C is the Variant-A colour payload plus two 8-bit
alpha endpoints and 6 bytes of 3-bit alpha indices, held as a 32-bit low part
`alphadata2` and a 16-bit high part `alphadata1`. -/
structure DXT5Block where
  color : DXT1Block
  alphadata2 : Nat
  alphadata1 : Nat
  alpha1 : Nat
  alpha2 : Nat

/-- Field widths of a Variant-A block: byte scanlines, 16-bit colours. -/
def DXT1Block.WF (b : DXT1Block) : Prop :=
  (∀ y, y < 4 → b.lines y < 256) ∧ b.color1 < 65536 ∧ b.color2 < 65536

/-- Field widths of a Variant-B block. -/
def DXT3Block.WF (b : DXT3Block) : Prop :=
  b.color.WF ∧ ∀ y, y < 4 → b.alphaLines y < 65536

/-- Field widths of a Variant-C block. -/
def DXT5Block.WF (b : DXT5Block) : Prop :=
  b.color.WF ∧ b.alphadata2 < 2 ^ 32 ∧ b.alphadata1 < 65536 ∧
    b.alpha1 < 256 ∧ b.alpha2 < 256

instance (b : DXT1Block) : Decidable b.WF := by
  unfold DXT1Block.WF; infer_instance

instance (b : DXT3Block) : Decidable b.WF := by
  unfold DXT3Block.WF; infer_instance

instance (b : DXT5Block) : Decidable b.WF := by
  unfold DXT5Block.WF; infer_instance

/-- `makecol(r, g, b, a)`: `(a << 24) | (b << 16) | (g << 8) | r`, returned as
`u32`. -/
def makecol (r g b a : Nat) : Nat :=
  ((a <<< 24) ||| (b <<< 16) ||| (g <<< 8) ||| r) % 2 ^ 32

/-- `mix_2_3(c1, c2)`: `(c1 + c1 + c2) / 3`. -/
def mix_2_3 (c1 c2 : Nat) : Nat :=
  (c1 + c1 + c2) / 3

/-- `DXTDecoder::DecodeColors`: the four entries written to `colors_`, in
order. -/
def DecodeColors (src : DXT1Block) (ignore1bitAlpha : Bool) : List Nat :=
  let c1 := src.color1
  let c2 := src.color2
  let blue1 := (c1 <<< 3) &&& 0xF8
  let blue2 := (c2 <<< 3) &&& 0xF8
  let green1 := (c1 >>> 3) &&& 0xFC
  let green2 := (c2 >>> 3) &&& 0xFC
  let red1 := (c1 >>> 8) &&& 0xF8
  let red2 := (c2 >>> 8) &&& 0xF8
  let alpha := if ignore1bitAlpha then 0 else 255
  let colors0 := makecol red1 green1 blue1 alpha
  let colors1 := makecol red2 green2 blue2 alpha
  if c1 > c2 then
    [colors0, colors1,
      makecol (mix_2_3 red1 red2) (mix_2_3 green1 green2) (mix_2_3 blue1 blue2) alpha,
      makecol (mix_2_3 red2 red1) (mix_2_3 green2 green1) (mix_2_3 blue2 blue1) alpha]
  else
    let red3 := (red1 + red2) / 2
    let green3 := (green1 + green2) / 2
    let blue3 := (blue1 + blue2) / 2
    [colors0, colors1, makecol red3 green3 blue3 alpha, makecol 0 0 0 0]

/-- `lerp8(src, n)`, called with `n` in `1..6`; the result is cast to `u8`. -/
def lerp8 (src : DXT5Block) (n : Nat) : Nat :=
  let alpha1 := (src.alpha1 * ((7 - n) <<< 8)) / 7
  let alpha2 := (src.alpha2 * (n <<< 8)) / 7
  ((alpha1 + alpha2 + 31) >>> 8) % 256

/-- `lerp6(src, n)`, called with `n` in `1..4`; the result is cast to `u8`. -/
def lerp6 (src : DXT5Block) (n : Nat) : Nat :=
  let alpha1 := (src.alpha1 * ((5 - n) <<< 8)) / 5
  let alpha2 := (src.alpha2 * (n <<< 8)) / 5
  ((alpha1 + alpha2 + 31) >>> 8) % 256

/-- `DXTDecoder::DecodeAlphaDXT5`: the eight entries written to `alpha_`. -/
def DecodeAlphaDXT5 (src : DXT5Block) : List Nat :=
  let alpha0 := src.alpha1
  let alpha1 := src.alpha2
  if alpha0 > alpha1 then
    [alpha0, alpha1, lerp8 src 1, lerp8 src 2, lerp8 src 3, lerp8 src 4,
      lerp8 src 5, lerp8 src 6]
  else
    [alpha0, alpha1, lerp6 src 1, lerp6 src 2, lerp6 src 3, lerp6 src 4, 0, 255]

/-- `DXTDecoder::WriteColorsDXT1`. The outer state is the buffer and the moving
pointer `dst`; the inner state is the buffer and `colordata`. -/
def WriteColorsDXT1 (colors_ : List Nat) (dst : TexelBuf) (src : DXT1Block)
    (pitch height : Int) : TexelBuf :=
  (forLoop height.toNat (fun y (st : TexelBuf × Int) =>
    let colordata := src.lines y
    let inner := forLoop 4 (fun x (s : TexelBuf × Nat) =>
      (s.1.write (st.2 + x) (colors_.getD (s.2 &&& 3) 0), s.2 >>> 2)) (st.1, colordata)
    (inner.1, st.2 + pitch)) (dst, 0)).1

/-- `DXTDecoder::WriteColorsDXT3`; `alphadata` is a `u32`, so `alphadata << 28`
is taken modulo `2 ^ 32`. -/
def WriteColorsDXT3 (colors_ : List Nat) (dst : TexelBuf) (src : DXT3Block)
    (pitch height : Int) : TexelBuf :=
  (forLoop height.toNat (fun y (st : TexelBuf × Int) =>
    let colordata := src.color.lines y
    let alphadata := src.alphaLines y
    let inner := forLoop 4 (fun x (s : TexelBuf × Nat × Nat) =>
      (s.1.write (st.2 + x)
          (colors_.getD (s.2.1 &&& 3) 0 ||| ((s.2.2 <<< 28) % 2 ^ 32)),
        s.2.1 >>> 2, s.2.2 >>> 4)) (st.1, colordata, alphadata)
    (inner.1, st.2 + pitch)) (dst, 0)).1

/-- `DXTDecoder::WriteColorsDXT5`; the 48-bit `alphadata` is carried across the
rows. -/
def WriteColorsDXT5 (colors_ alpha_ : List Nat) (dst : TexelBuf) (src : DXT5Block)
    (pitch height : Int) : TexelBuf :=
  let alphadata := (((src.alphadata1 % 2 ^ 16) <<< 32) ||| (src.alphadata2 % 2 ^ 32))
  (forLoop height.toNat (fun y (st : TexelBuf × Int × Nat) =>
    let colordata := src.color.lines y
    let inner := forLoop 4 (fun x (s : TexelBuf × Nat × Nat) =>
      (s.1.write (st.2.1 + x)
          (colors_.getD (s.2.1 &&& 3) 0 ||| ((alpha_.getD (s.2.2 &&& 7) 0 <<< 24) % 2 ^ 32)),
        s.2.1 >>> 2, s.2.2 >>> 3)) (st.1, colordata, st.2.2)
    (inner.1, st.2.1 + pitch, inner.2.2)) (dst, 0, alphadata)).1

/-- `GetDXTTexelColor(src, x, y, alpha)`, for `x`, `y` in `0..3` (the range the
debug assertions require). -/
def GetDXTTexelColor (src : DXT1Block) (x y : Nat) (alpha : Nat) : Nat :=
  let c1 := src.color1
  let c2 := src.color2
  let blue1 := (c1 <<< 3) &&& 0xF8
  let blue2 := (c2 <<< 3) &&& 0xF8
  let green1 := (c1 >>> 3) &&& 0xFC
  let green2 := (c2 >>> 3) &&& 0xFC
  let red1 := (c1 >>> 8) &&& 0xF8
  let red2 := (c2 >>> 8) &&& 0xF8
  let colorIndex := (src.lines y >>> (x * 2)) &&& 3
  if colorIndex = 0 then
    makecol red1 green1 blue1 alpha
  else if colorIndex = 1 then
    makecol red2 green2 blue2 alpha
  else if c1 > c2 then
    if colorIndex = 2 then
      makecol (mix_2_3 red1 red2) (mix_2_3 green1 green2) (mix_2_3 blue1 blue2) alpha
    else
      makecol (mix_2_3 red2 red1) (mix_2_3 green2 green1) (mix_2_3 blue2 blue1) alpha
  else if colorIndex = 3 then
    makecol 0 0 0 0
  else
    let red3 := (red1 + red2) / 2
    let green3 := (green1 + green2) / 2
    let blue3 := (blue1 + blue2) / 2
    makecol red3 green3 blue3 alpha

/-- `GetDXT1Texel`. -/
def GetDXT1Texel (src : DXT1Block) (x y : Nat) : Nat :=
  GetDXTTexelColor src x y 255

/-- `GetDXT3Texel`; `alpha` is a `u32`, so `alpha << 28` is modulo `2 ^ 32`. -/
def GetDXT3Texel (src : DXT3Block) (x y : Nat) : Nat :=
  let color := GetDXTTexelColor src.color x y 0
  let alpha := (src.alphaLines y >>> (x * 4)) &&& 0xF
  color ||| ((alpha <<< 28) % 2 ^ 32)

/-- `GetDXT5Texel`. -/
def GetDXT5Texel (src : DXT5Block) (x y : Nat) : Nat :=
  let color := GetDXTTexelColor src.color x y 0
  let alphadata := (((src.alphadata1 % 2 ^ 16) <<< 32) ||| (src.alphadata2 % 2 ^ 32))
  let alphaIndex := (alphadata >>> (y * 12 + x * 3)) &&& 7
  if alphaIndex = 0 then
    color ||| ((src.alpha1 <<< 24) % 2 ^ 32)
  else if alphaIndex = 1 then
    color ||| ((src.alpha2 <<< 24) % 2 ^ 32)
  else if src.alpha1 > src.alpha2 then
    color ||| ((lerp8 src (alphaIndex - 1) <<< 24) % 2 ^ 32)
  else if alphaIndex = 6 then
    color
  else if alphaIndex = 7 then
    color ||| 0xFF000000
  else
    color ||| ((lerp6 src (alphaIndex - 1) <<< 24) % 2 ^ 32)

/-- `DecodeDXT1Block`. -/
def DecodeDXT1Block (dst : TexelBuf) (src : DXT1Block) (pitch height : Int)
    (ignore1bitAlpha : Bool) : TexelBuf :=
  WriteColorsDXT1 (DecodeColors src ignore1bitAlpha) dst src pitch height

/-- `DecodeDXT3Block`. -/
def DecodeDXT3Block (dst : TexelBuf) (src : DXT3Block) (pitch height : Int) : TexelBuf :=
  WriteColorsDXT3 (DecodeColors src.color true) dst src pitch height

/-- `DecodeDXT5Block`. -/
def DecodeDXT5Block (dst : TexelBuf) (src : DXT5Block) (pitch height : Int) : TexelBuf :=
  WriteColorsDXT5 (DecodeColors src.color true) (DecodeAlphaDXT5 src) dst src pitch height

/-! ## Build configuration -/

/-- The compile-time configuration selecting the SIMD branches: `_M_SSE`,
`PPSSPP_ARCH(ARM_NEON)` (with the run-time flag `cpu_info.bNEON`, consulted by
the alpha classifiers only), or neither. -/
inductive Build where
  | sse : Build
  | neon (bNEON : Bool) : Build
  | generic : Build
  deriving DecidableEq, Repr

/-! ## Swizzle transcoder (`DoSwizzleTex16`, `DoUnswizzleTex16`) -/

/-- A byte buffer, indexed by the byte offset from the pointer handed to the
routine. The tiled and the linear buffers are distinct objects. -/
abbrev ByteBuf := Nat → Nat

/-- The call `memcpy(dst + d, src + s, n)` on two distinct buffers (offsets in
bytes). -/
def memcpy (dst : ByteBuf) (d : Nat) (src : ByteBuf) (s : Nat) (n : Nat) : ByteBuf :=
  fun o => if d ≤ o ∧ o < d + n then src (s + (o - d)) else dst o

/-- A 128-bit register seen as 16 byte lanes (lane `k` for `k < 16`). -/
abbrev Bytes16 := Nat → Nat

/-- The 16-byte load `_mm_load_si128` at byte offset `a`. -/
def mm_load_si128 (m : ByteBuf) (a : Nat) : Bytes16 :=
  fun k => m (a + k)

/-- The 16-byte store `_mm_store_si128` at byte offset `a`. -/
def mm_store_si128 (m : ByteBuf) (a : Nat) (v : Bytes16) : ByteBuf :=
  fun o => if a ≤ o ∧ o < a + 16 then v (o - a) else m o

/-- The 16-byte load `vld1q_u32` at byte offset `a`. -/
def vld1q_u32 (m : ByteBuf) (a : Nat) : Bytes16 :=
  fun k => m (a + k)

/-- The 16-byte store `vst1q_u32` at byte offset `a`. -/
def vst1q_u32 (m : ByteBuf) (a : Nat) (v : Bytes16) : ByteBuf :=
  fun o => if a ≤ o ∧ o < a + 16 then v (o - a) else m o

/-- Loop state of the transcoder: the buffer being written and the two moving
pointers, as byte offsets (`src` into the buffer read, `dest` into the buffer
written). -/
structure Cursor where
  mem : ByteBuf
  src : Nat
  dest : Nat

/-- The scalar branch of `DoSwizzleTex16`. Pointers to `u32` advance by 4 bytes
per element; `pitchBy32 * 8` is a `u32` product. -/
def DoSwizzleTex16_scalar (ysrcp texptr : ByteBuf) (bxc byc : Int) (pitch : Nat) : ByteBuf :=
  let pitchBy32 := pitch >>> 2
  (forLoop byc.toNat (fun _ (row : Cursor) =>
    let r := forLoop bxc.toNat (fun _ (tile : Cursor) =>
      let t := forLoop 8 (fun _ (c : Cursor) =>
        Cursor.mk (memcpy c.mem c.dest ysrcp c.src 16) (c.src + 4 * pitchBy32)
          (c.dest + 4 * 4)) tile
      Cursor.mk t.mem (tile.src + 4 * 4) t.dest) row
    Cursor.mk r.mem (row.src + 4 * (pitchBy32 * 8 % 2 ^ 32)) r.dest)
    (Cursor.mk texptr 0 0)).mem

/-- The `_M_SSE` branch of `DoSwizzleTex16`. Pointers to `__m128i` advance by 16
bytes per element. -/
def DoSwizzleTex16_sse (ysrcp texptr : ByteBuf) (bxc byc : Int) (pitch : Nat) : ByteBuf :=
  let pitchBy32 := pitch >>> 2
  let pitchBy128 := pitch >>> 4
  (forLoop byc.toNat (fun _ (row : Cursor) =>
    let r := forLoop bxc.toNat (fun _ (tile : Cursor) =>
      let t := forLoop 2 (fun _ (c : Cursor) =>
        let temp1 := mm_load_si128 ysrcp c.src
        let src1 := c.src + 16 * pitchBy128
        let temp2 := mm_load_si128 ysrcp src1
        let src2 := src1 + 16 * pitchBy128
        let temp3 := mm_load_si128 ysrcp src2
        let src3 := src2 + 16 * pitchBy128
        let temp4 := mm_load_si128 ysrcp src3
        let src4 := src3 + 16 * pitchBy128
        let m1 := mm_store_si128 c.mem c.dest temp1
        let m2 := mm_store_si128 m1 (c.dest + 16 * 1) temp2
        let m3 := mm_store_si128 m2 (c.dest + 16 * 2) temp3
        let m4 := mm_store_si128 m3 (c.dest + 16 * 3) temp4
        Cursor.mk m4 src4 (c.dest + 16 * 4)) tile
      Cursor.mk t.mem (tile.src + 16) t.dest) row
    Cursor.mk r.mem (row.src + 4 * (pitchBy32 * 8 % 2 ^ 32)) r.dest)
    (Cursor.mk texptr 0 0)).mem

/-- `DoSwizzleTex16(ysrcp, texptr, bxc, byc, pitch)`: returns the contents of
`texptr` afterwards. `ysrcpAddr` is the machine address held by `ysrcp`, which
the SSE build tests for 16-byte alignment. -/
def DoSwizzleTex16 (build : Build) (ysrcpAddr : Nat) (ysrcp texptr : ByteBuf)
    (bxc byc : Int) (pitch : Nat) : ByteBuf :=
  match build with
  | Build.sse =>
    if ysrcpAddr &&& 0xF = 0 ∧ pitch &&& 0xF = 0 then
      DoSwizzleTex16_sse ysrcp texptr bxc byc pitch
    else
      DoSwizzleTex16_scalar ysrcp texptr bxc byc pitch
  | _ => DoSwizzleTex16_scalar ysrcp texptr bxc byc pitch

/-- The scalar branch of `DoUnswizzleTex16`. -/
def DoUnswizzleTex16_scalar (texptr ydestp : ByteBuf) (bxc byc : Int) (pitch : Nat) :
    ByteBuf :=
  let pitchBy32 := pitch >>> 2
  (forLoop byc.toNat (fun _ (row : Cursor) =>
    let r := forLoop bxc.toNat (fun _ (tile : Cursor) =>
      let t := forLoop 8 (fun _ (c : Cursor) =>
        Cursor.mk (memcpy c.mem c.dest texptr c.src 16) (c.src + 4 * 4)
          (c.dest + 4 * pitchBy32)) tile
      Cursor.mk t.mem t.src (tile.dest + 4 * 4)) row
    Cursor.mk r.mem r.src (row.dest + 4 * (pitchBy32 * 8 % 2 ^ 32)))
    (Cursor.mk ydestp 0 0)).mem

/-- The `_M_SSE` branch of `DoUnswizzleTex16`. -/
def DoUnswizzleTex16_sse (texptr ydestp : ByteBuf) (bxc byc : Int) (pitch : Nat) : ByteBuf :=
  let pitchBy32 := pitch >>> 2
  let pitchBy128 := pitch >>> 4
  (forLoop byc.toNat (fun _ (row : Cursor) =>
    let r := forLoop bxc.toNat (fun _ (tile : Cursor) =>
      let t := forLoop 2 (fun _ (c : Cursor) =>
        let temp1 := mm_load_si128 texptr c.src
        let temp2 := mm_load_si128 texptr (c.src + 16 * 1)
        let temp3 := mm_load_si128 texptr (c.src + 16 * 2)
        let temp4 := mm_load_si128 texptr (c.src + 16 * 3)
        let m1 := mm_store_si128 c.mem c.dest temp1
        let dest1 := c.dest + 16 * pitchBy128
        let m2 := mm_store_si128 m1 dest1 temp2
        let dest2 := dest1 + 16 * pitchBy128
        let m3 := mm_store_si128 m2 dest2 temp3
        let dest3 := dest2 + 16 * pitchBy128
        let m4 := mm_store_si128 m3 dest3 temp4
        let dest4 := dest3 + 16 * pitchBy128
        Cursor.mk m4 (c.src + 16 * 4) dest4) tile
      Cursor.mk t.mem t.src (tile.dest + 16)) row
    Cursor.mk r.mem r.src (row.dest + 4 * (pitchBy32 * 8 % 2 ^ 32)))
    (Cursor.mk ydestp 0 0)).mem

/-- The `ARM_NEON` branch of `DoUnswizzleTex16`. -/
def DoUnswizzleTex16_neon (texptr ydestp : ByteBuf) (bxc byc : Int) (pitch : Nat) :
    ByteBuf :=
  let pitchBy32 := pitch >>> 2
  (forLoop byc.toNat (fun _ (row : Cursor) =>
    let r := forLoop bxc.toNat (fun _ (tile : Cursor) =>
      let t := forLoop 2 (fun _ (c : Cursor) =>
        let temp1 := vld1q_u32 texptr c.src
        let temp2 := vld1q_u32 texptr (c.src + 4 * 4)
        let temp3 := vld1q_u32 texptr (c.src + 4 * 8)
        let temp4 := vld1q_u32 texptr (c.src + 4 * 12)
        let m1 := vst1q_u32 c.mem c.dest temp1
        let dest1 := c.dest + 4 * pitchBy32
        let m2 := vst1q_u32 m1 dest1 temp2
        let dest2 := dest1 + 4 * pitchBy32
        let m3 := vst1q_u32 m2 dest2 temp3
        let dest3 := dest2 + 4 * pitchBy32
        let m4 := vst1q_u32 m3 dest3 temp4
        let dest4 := dest3 + 4 * pitchBy32
        Cursor.mk m4 (c.src + 4 * 16) dest4) tile
      Cursor.mk t.mem t.src (tile.dest + 4 * 4)) row
    Cursor.mk r.mem r.src (row.dest + 4 * (pitchBy32 * 8 % 2 ^ 32)))
    (Cursor.mk ydestp 0 0)).mem

/-- `DoUnswizzleTex16(texptr, ydestp, bxc, byc, pitch)`: returns the contents of
`ydestp` afterwards. `ydestpAddr` is the machine address held by `ydestp`. -/
def DoUnswizzleTex16 (build : Build) (ydestpAddr : Nat) (texptr ydestp : ByteBuf)
    (bxc byc : Int) (pitch : Nat) : ByteBuf :=
  match build with
  | Build.sse =>
    if ydestpAddr &&& 0xF = 0 ∧ pitch &&& 0xF = 0 then
      DoUnswizzleTex16_sse texptr ydestp bxc byc pitch
    else
      DoUnswizzleTex16_scalar texptr ydestp bxc byc pitch
  | Build.neon _ =>
    if ydestpAddr &&& 0xF = 0 ∧ pitch &&& 0xF = 0 then
      DoUnswizzleTex16_neon texptr ydestp bxc byc pitch
    else
      DoUnswizzleTex16_scalar texptr ydestp bxc byc pitch
  | Build.generic => DoUnswizzleTex16_scalar texptr ydestp bxc byc pitch

/-! ## Alpha-coverage classifiers (`CheckAlpha...`) -/

/-- Modelled from the spec: `enum CheckAlphaResult` is declared in the absent
`TextureDecoder.h`; the spec gives its two values, FULL (every scanned texel has
maximal alpha) and ANY (some texel has not). -/
inductive CheckAlphaResult where
  | CHECKALPHA_FULL : CheckAlphaResult
  | CHECKALPHA_ANY : CheckAlphaResult
  deriving DecidableEq, Repr

open CheckAlphaResult

/-- The little-endian `u16` view `((const u16 *)pixelData)[t]` of a buffer of
32-bit words: texel `t` is the low half of word `t / 2` when `t` is even and the
high half when `t` is odd. -/
def texel16 (pixelData : TexelBuf) (t : Int) : Nat :=
  (pixelData (t / 2) >>> (16 * (t % 2).toNat)) % 65536

/-- A SIMD register as a function from the lane index to the lane value: four
32-bit lanes (`__m128i`, `uint32x4_t`) or eight 16-bit lanes (`uint16x8_t`).
The classifiers apply only bitwise operations to it. -/
abbrev Vec := Nat → Nat

/-- `_mm_set1_epi32(v)`. -/
def mm_set1_epi32 (v : Nat) : Vec := fun _ => v

/-- `_mm_set1_epi16(v)`, seen in 32-bit lanes: each holds `v` twice. -/
def mm_set1_epi16 (v : Nat) : Vec := fun _ => (v <<< 16) ||| v

/-- `_mm_and_si128`, `vandq_u32`, `vandq_u16`. -/
def Vec.and (a b : Vec) : Vec := fun l => a l &&& b l

/-- `_mm_xor_si128`, `veorq_u32`, `veorq_u16`. -/
def Vec.xor (a b : Vec) : Vec := fun l => a l ^^^ b l

/-- `_mm_or_si128`. -/
def Vec.or (a b : Vec) : Vec := fun l => a l ||| b l

/-- `_mm_srli_si128(v, 4 * k)` on four 32-bit lanes: a right shift by `k` whole
lanes, filling with zero. -/
def mm_srli_si128_lanes (v : Vec) (k : Nat) : Vec :=
  fun l => if l + k < 4 then v (l + k) else 0

/-- `_mm_cvtsi128_si32`: the low 32-bit lane. -/
def mm_cvtsi128_si32 (v : Vec) : Nat := v 0

/-- `CombineSSEBitsToDWORD`. -/
def CombineSSEBitsToDWORD (v : Vec) : Nat :=
  let temp := Vec.or v (mm_srli_si128_lanes v 2)
  let temp := Vec.or temp (mm_srli_si128_lanes temp 1)
  mm_cvtsi128_si32 temp

/-- The aligned load `_mm_load_si128(&p[i])` from a buffer of 32-bit words, where
`i` counts 16-byte vectors from `pixelData`. -/
def mm_load_si128_words (pixelData : TexelBuf) (i : Int) : Vec :=
  fun l => pixelData (4 * i + l)

/-- The row loop shared by the five `CheckAlpha...SSE2` routines, which differ
only in `mask` and in the divisor giving `w4`/`w8` and `stride4`/`stride8`.
`rows` counts the iterations left, `p` is the moving vector pointer, `bits` the
accumulator, which is not reset between rows. -/
def sse2Rows (mask : Vec) (pixelData : TexelBuf) (wv stridev : Int) :
    Nat → Int → Vec → CheckAlphaResult
  | 0, _, _ => CHECKALPHA_FULL
  | rows + 1, p, bits =>
    let bits := forLoop wv.toNat
      (fun i b => Vec.and b (mm_load_si128_words pixelData (p + i))) bits
    let result := Vec.xor bits mask
    if CombineSSEBitsToDWORD result ≠ 0 then CHECKALPHA_ANY
    else sse2Rows mask pixelData wv stridev rows (p + stridev) bits

/-- `CheckAlphaRGBA8888SSE2`. -/
def CheckAlphaRGBA8888SSE2 (pixelData : TexelBuf) (stride w h : Int) : CheckAlphaResult :=
  let mask := mm_set1_epi32 0xFF000000
  let w4 := Int.tdiv w 4
  let stride4 := Int.tdiv stride 4
  sse2Rows mask pixelData w4 stride4 h.toNat 0 mask

/-- `CheckAlphaABGR4444SSE2`. -/
def CheckAlphaABGR4444SSE2 (pixelData : TexelBuf) (stride w h : Int) : CheckAlphaResult :=
  let mask := mm_set1_epi16 0x000F
  let w8 := Int.tdiv w 8
  let stride8 := Int.tdiv stride 8
  sse2Rows mask pixelData w8 stride8 h.toNat 0 mask

/-- `CheckAlphaABGR1555SSE2`. -/
def CheckAlphaABGR1555SSE2 (pixelData : TexelBuf) (stride w h : Int) : CheckAlphaResult :=
  let mask := mm_set1_epi16 0x0001
  let w8 := Int.tdiv w 8
  let stride8 := Int.tdiv stride 8
  sse2Rows mask pixelData w8 stride8 h.toNat 0 mask

/-- `CheckAlphaRGBA4444SSE2`. -/
def CheckAlphaRGBA4444SSE2 (pixelData : TexelBuf) (stride w h : Int) : CheckAlphaResult :=
  let mask := mm_set1_epi16 0xF000
  let w8 := Int.tdiv w 8
  let stride8 := Int.tdiv stride 8
  sse2Rows mask pixelData w8 stride8 h.toNat 0 mask

/-- `CheckAlphaRGBA5551SSE2`. -/
def CheckAlphaRGBA5551SSE2 (pixelData : TexelBuf) (stride w h : Int) : CheckAlphaResult :=
  let mask := mm_set1_epi16 0x8000
  let w8 := Int.tdiv w 8
  let stride8 := Int.tdiv stride 8
  sse2Rows mask pixelData w8 stride8 h.toNat 0 mask

/-- `VectorIsNonZeroNEON`: `(low | high) != 0`, i.e. some lane is non-zero. -/
def VectorIsNonZeroNEON (lanes : Nat) (v : Vec) : Bool :=
  decide (∃ l, l < lanes ∧ v l ≠ 0)

/-- The row loop shared by the five `CheckAlpha...NEON` routines. `elem` is the
element view of the buffer (32-bit words, or 16-bit texels), `lanes` the number
of elements per register; the inner loop `for (i = 0; i < w; i += lanes)` runs
`(w + lanes - 1) / lanes` times for `w >= 0`. -/
def neonRows (mask : Nat) (lanes : Nat) (elem : Int → Nat) (stride w : Int) :
    Nat → Int → Vec → CheckAlphaResult
  | 0, _, _ => CHECKALPHA_FULL
  | rows + 1, p, bits =>
    let bits := forLoop ((w + (lanes - 1)) / lanes).toNat
      (fun k b => Vec.and b (fun l => elem (p + lanes * k + l))) bits
    let result := Vec.xor bits (fun _ => mask)
    if VectorIsNonZeroNEON lanes result then CHECKALPHA_ANY
    else neonRows mask lanes elem stride w rows (p + stride) bits

/-- `CheckAlphaRGBA8888NEON`. -/
def CheckAlphaRGBA8888NEON (pixelData : TexelBuf) (stride w h : Int) : CheckAlphaResult :=
  neonRows 0xFF000000 4 pixelData stride w h.toNat 0 (fun _ => 0xFF000000)

/-- `CheckAlphaABGR4444NEON`. -/
def CheckAlphaABGR4444NEON (pixelData : TexelBuf) (stride w h : Int) : CheckAlphaResult :=
  neonRows 0x000F 8 (texel16 pixelData) stride w h.toNat 0 (fun _ => 0x000F)

/-- `CheckAlphaABGR1555NEON`. -/
def CheckAlphaABGR1555NEON (pixelData : TexelBuf) (stride w h : Int) : CheckAlphaResult :=
  neonRows 0x0001 8 (texel16 pixelData) stride w h.toNat 0 (fun _ => 0x0001)

/-- `CheckAlphaRGBA4444NEON`. -/
def CheckAlphaRGBA4444NEON (pixelData : TexelBuf) (stride w h : Int) : CheckAlphaResult :=
  neonRows 0xF000 8 (texel16 pixelData) stride w h.toNat 0 (fun _ => 0xF000)

/-- `CheckAlphaRGBA5551NEON`. -/
def CheckAlphaRGBA5551NEON (pixelData : TexelBuf) (stride w h : Int) : CheckAlphaResult :=
  neonRows 0x8000 8 (texel16 pixelData) stride w h.toNat 0 (fun _ => 0x8000)

/-- The scalar row loop at the end of every `CheckAlpha...Basic` routine: `n`
words are and-ed into `bits`, which restarts from `mask` on every row, and the
row pointer advances by `step` words. -/
def basicRows (mask : Nat) (pixelData : TexelBuf) (n : Int) (step : Int) :
    Nat → Int → CheckAlphaResult
  | 0, _ => CHECKALPHA_FULL
  | rows + 1, p =>
    let bits := forLoop n.toNat (fun i b => b &&& pixelData (p + i)) mask
    if bits ≠ mask then CHECKALPHA_ANY
    else basicRows mask pixelData n step rows (p + step)

/-- The dispatch at the head of every `CheckAlpha...Basic` routine: with `w` and
`stride` multiples of `align` the SSE2 routine is returned on an SSE build and
the NEON routine on a NEON build whose CPU reports NEON; every other case falls
through to the scalar loop. (`(w & 3) == 0` on a two's-complement `int` is
`w % 4 = 0`.) -/
def simdOrScalar (build : Build) (align : Int) (stride w : Int)
    (sse2 neon scalar : CheckAlphaResult) : CheckAlphaResult :=
  if w % align = 0 ∧ stride % align = 0 then
    match build with
    | Build.sse => sse2
    | Build.neon true => neon
    | _ => scalar
  else scalar

/-- `CheckAlphaRGBA8888Basic`. -/
def CheckAlphaRGBA8888Basic (build : Build) (pixelData : TexelBuf) (stride w h : Int) :
    CheckAlphaResult :=
  simdOrScalar build 4 stride w
    (CheckAlphaRGBA8888SSE2 pixelData stride w h)
    (CheckAlphaRGBA8888NEON pixelData stride w h)
    (basicRows 0xFF000000 pixelData w stride h.toNat 0)

/-- `CheckAlphaABGR4444Basic`. -/
def CheckAlphaABGR4444Basic (build : Build) (pixelData : TexelBuf) (stride w h : Int) :
    CheckAlphaResult :=
  let w2 := Int.tdiv (w + 1) 2
  let stride2 := Int.tdiv (stride + 1) 2
  simdOrScalar build 8 stride w
    (CheckAlphaABGR4444SSE2 pixelData stride w h)
    (CheckAlphaABGR4444NEON pixelData stride w h)
    (basicRows 0x000F000F pixelData w2 stride2 h.toNat 0)

/-- `CheckAlphaABGR1555Basic`. -/
def CheckAlphaABGR1555Basic (build : Build) (pixelData : TexelBuf) (stride w h : Int) :
    CheckAlphaResult :=
  let w2 := Int.tdiv (w + 1) 2
  let stride2 := Int.tdiv (stride + 1) 2
  simdOrScalar build 8 stride w
    (CheckAlphaABGR1555SSE2 pixelData stride w h)
    (CheckAlphaABGR1555NEON pixelData stride w h)
    (basicRows 0x00010001 pixelData w2 stride2 h.toNat 0)

/-- `CheckAlphaRGBA4444Basic`. -/
def CheckAlphaRGBA4444Basic (build : Build) (pixelData : TexelBuf) (stride w h : Int) :
    CheckAlphaResult :=
  let w2 := Int.tdiv (w + 1) 2
  let stride2 := Int.tdiv (stride + 1) 2
  simdOrScalar build 8 stride w
    (CheckAlphaRGBA4444SSE2 pixelData stride w h)
    (CheckAlphaRGBA4444NEON pixelData stride w h)
    (basicRows 0xF000F000 pixelData w2 stride2 h.toNat 0)

/-- `CheckAlphaRGBA5551Basic`. -/
def CheckAlphaRGBA5551Basic (build : Build) (pixelData : TexelBuf) (stride w h : Int) :
    CheckAlphaResult :=
  let w2 := Int.tdiv (w + 1) 2
  let stride2 := Int.tdiv (stride + 1) 2
  simdOrScalar build 8 stride w
    (CheckAlphaRGBA5551SSE2 pixelData stride w h)
    (CheckAlphaRGBA5551NEON pixelData stride w h)
    (basicRows 0x80008000 pixelData w2 stride2 h.toNat 0)

/-! ## Content fingerprint (`QuickTexHash...`) -/

/-- The read `((const u32 *)checkp)[j]` from byte memory, little-endian. -/
def load32 (m : ByteBuf) (j : Nat) : Nat :=
  m (4 * j) % 256 + (m (4 * j + 1) % 256) * 2 ^ 8 + (m (4 * j + 2) % 256) * 2 ^ 16
    + (m (4 * j + 3) % 256) * 2 ^ 24

/-- The read `((const u16 *)checkp)[j]` from byte memory, little-endian. -/
def load16 (m : ByteBuf) (j : Nat) : Nat :=
  m (2 * j) % 256 + (m (2 * j + 1) % 256) * 2 ^ 8

/-- The union `u32x4_u16x8`, held as its eight 16-bit lanes `x16[0..7]`. -/
abbrev U16x8 := Nat → Nat

/-- The member `x32[j]` of the union: lanes `x16[2j]` (low) and `x16[2j+1]`
(high), little-endian. -/
def x32 (v : U16x8) (j : Nat) : Nat :=
  v (2 * j) + v (2 * j + 1) * 2 ^ 16

/-- The store `v.x16[j] = x`. -/
def setX16 (v : U16x8) (j : Nat) (x : Nat) : U16x8 :=
  fun l => if l = j then x else v l

/-- The store `v.x32[j] = x` of a 32-bit value. -/
def setX32 (v : U16x8) (j : Nat) (x : Nat) : U16x8 :=
  fun l => if l = 2 * j then x % 2 ^ 16 else if l = 2 * j + 1 then (x / 2 ^ 16) % 2 ^ 16 else v l

/-- The table `cursor2_initial` of `QuickTexHashNonSSE`. -/
def cursor2_initial : List Nat :=
  [0xc00b, 0x9bd9, 0x4b73, 0xb651, 0x4d9b, 0x4309, 0x0083, 0x0001]

/-- The table `update` of `QuickTexHashNonSSE`. -/
def update : List Nat :=
  [0x2455, 0x2455, 0x2455, 0x2455, 0x2455, 0x2455, 0x2455, 0x2455]

/-- The two unions of the fast path of `QuickTexHashNonSSE`: the accumulator
`cursor` and the multiplier `cursor2`. -/
structure HashState where
  cursor : U16x8
  cursor2 : U16x8

/-- One round of the main loop of the fast path of `QuickTexHashNonSSE`, for the
loop index `i`; `p[i]` is the 16-byte unit `i` of the buffer. The `u16`
product is kept to its low 16 bits, as the store to `const u16 temp` does. -/
def QuickTexHashNonSSE_chunk (checkp : ByteBuf) (i : Nat) (st : HashState) : HashState :=
  let cursor := forLoop 8 (fun j c =>
    let temp := (load16 checkp (8 * (i + 0) + j) * st.cursor2 j) % 2 ^ 16
    setX16 c j ((c j + temp) % 2 ^ 16)) st.cursor
  let cursor := forLoop 4 (fun j c =>
    let c1 := setX32 c j (x32 c j ^^^ load32 checkp (4 * (i + 1) + j))
    setX32 c1 j ((x32 c1 j + load32 checkp (4 * (i + 2) + j)) % 2 ^ 32)) cursor
  let cursor := forLoop 8 (fun j c =>
    let temp := (load16 checkp (8 * (i + 3) + j) * st.cursor2 j) % 2 ^ 16
    setX16 c j (c j ^^^ temp)) cursor
  let cursor2 := forLoop 8 (fun j c2 =>
    setX16 c2 j ((c2 j + update.getD j 0) % 2 ^ 16)) st.cursor2
  HashState.mk cursor cursor2

/-- The fast path of `QuickTexHashNonSSE` up to the end of its main loop
`for (i = 0; i < size / 16; i += 4)`: `cursor` is zero-initialised and
`cursor2` is filled from `cursor2_initial`. -/
def QuickTexHashNonSSE_chunks (checkp : ByteBuf) (size : Nat) : HashState :=
  let cursor : U16x8 := fun _ => 0
  let cursor2 : U16x8 :=
    forLoop 8 (fun j c2 => setX16 c2 j (cursor2_initial.getD j 0)) (fun _ => 0)
  forLoop ((size / 16 + 3) / 4) (fun k (st : HashState) =>
    QuickTexHashNonSSE_chunk checkp (4 * k) st) (HashState.mk cursor cursor2)

/-- The end of the fast path of `QuickTexHashNonSSE`: `cursor2` is added to
`cursor` in 32-bit lanes and the four lanes are summed into `check`. -/
def QuickTexHashNonSSE_fold (st : HashState) : Nat :=
  let cursor := forLoop 4 (fun j c =>
    setX32 c j ((x32 c j + x32 st.cursor2 j) % 2 ^ 32)) st.cursor
  (x32 cursor 0 + x32 cursor 1 + x32 cursor 2 + x32 cursor 3) % 2 ^ 32

/-- The `else` branch of `QuickTexHashNonSSE`: `check += *p++; check ^= *p++`
for `size / 8` rounds. The state is `check` and the word index of `p`. -/
def QuickTexHashNonSSE_fallback (checkp : ByteBuf) (size : Nat) : Nat :=
  (forLoop (size / 8) (fun _ (st : Nat × Nat) =>
    let check := (st.1 + load32 checkp st.2) % 2 ^ 32
    let check := check ^^^ load32 checkp (st.2 + 1)
    (check, st.2 + 2)) (0, 0)).1

/-- `QuickTexHashNonSSE(checkp, size)`; `checkpAddr` is the machine address held
by `checkp`. -/
def QuickTexHashNonSSE (checkpAddr : Nat) (checkp : ByteBuf) (size : Nat) : Nat :=
  if checkpAddr &&& 0xf = 0 ∧ size &&& 0x3f = 0 then
    QuickTexHashNonSSE_fold (QuickTexHashNonSSE_chunks checkp size)
  else
    QuickTexHashNonSSE_fallback checkp size

/-- The `_M_SSE` intrinsics of `QuickTexHashSSE2` act on a `__m128i` held as its
eight 16-bit lanes (lane `l` for `l < 8`; a 32-bit lane `j` is the pair of
lanes `2j`, `2j+1`, little-endian). This one is `_mm_set1_epi32(v)`. -/
def X16.mm_set1_epi32 (v : Nat) : U16x8 :=
  fun l => if l % 2 = 0 then v % 2 ^ 16 else (v / 2 ^ 16) % 2 ^ 16

/-- `_mm_set_epi16(e7, ..., e0)`: the arguments are listed from the highest lane
down to lane 0. -/
def X16.mm_set_epi16 (e7 e6 e5 e4 e3 e2 e1 e0 : Nat) : U16x8 :=
  fun l => [e0, e1, e2, e3, e4, e5, e6, e7].getD l 0

/-- `_mm_set1_epi16(v)`. -/
def X16.mm_set1_epi16 (v : Nat) : U16x8 :=
  fun _ => v % 2 ^ 16

/-- `_mm_load_si128(&p[i])`: the 16-byte unit `i` of the buffer, as eight
little-endian 16-bit lanes. -/
def X16.mm_load_si128 (checkp : ByteBuf) (i : Nat) : U16x8 :=
  fun l => load16 checkp (8 * i + l)

/-- `_mm_mullo_epi16`: the low 16 bits of the product, lane by lane. -/
def X16.mm_mullo_epi16 (a b : U16x8) : U16x8 :=
  fun l => (a l * b l) % 2 ^ 16

/-- `_mm_add_epi16`: wrapping 16-bit addition, lane by lane. -/
def X16.mm_add_epi16 (a b : U16x8) : U16x8 :=
  fun l => (a l + b l) % 2 ^ 16

/-- `_mm_xor_si128`: bitwise exclusive or of the whole register. -/
def X16.mm_xor_si128 (a b : U16x8) : U16x8 :=
  fun l => a l ^^^ b l

/-- `_mm_add_epi32`: wrapping 32-bit addition in each 32-bit lane; the sum of
lane `j` is stored back as 16-bit lanes `2j` (low half) and `2j+1` (high
half). -/
def X16.mm_add_epi32 (a b : U16x8) : U16x8 :=
  fun l =>
    let s := (x32 a (l / 2) + x32 b (l / 2)) % 2 ^ 32
    if l % 2 = 0 then s % 2 ^ 16 else (s / 2 ^ 16) % 2 ^ 16

/-- `_mm_srli_si128(v, bytes)` for an even byte count: the register is shifted
right by `bytes / 2` whole 16-bit lanes, zeros entering from the top. -/
def X16.mm_srli_si128 (v : U16x8) (bytes : Nat) : U16x8 :=
  fun l => if l + bytes / 2 < 8 then v (l + bytes / 2) else 0

/-- `_mm_cvtsi128_si32`: the low 32-bit lane. -/
def X16.mm_cvtsi128_si32 (v : U16x8) : Nat :=
  x32 v 0

/-- One round of the main loop of the fast path of `QuickTexHashSSE2`, for the
loop index `i`; the state holds the registers `cursor` and `cursor2`. -/
def QuickTexHashSSE2_chunk (checkp : ByteBuf) (i : Nat) (st : HashState) : HashState :=
  let update := X16.mm_set1_epi16 0x2455
  let chunk := X16.mm_mullo_epi16 (X16.mm_load_si128 checkp i) st.cursor2
  let cursor := X16.mm_add_epi16 st.cursor chunk
  let cursor := X16.mm_xor_si128 cursor (X16.mm_load_si128 checkp (i + 1))
  let cursor := X16.mm_add_epi32 cursor (X16.mm_load_si128 checkp (i + 2))
  let chunk := X16.mm_mullo_epi16 (X16.mm_load_si128 checkp (i + 3)) st.cursor2
  let cursor := X16.mm_xor_si128 cursor chunk
  let cursor2 := X16.mm_add_epi16 st.cursor2 update
  HashState.mk cursor cursor2

/-- The fast path of `QuickTexHashSSE2` up to the end of its main loop
`for (i = 0; i < size / 16; i += 4)`. -/
def QuickTexHashSSE2_chunks (checkp : ByteBuf) (size : Nat) : HashState :=
  let cursor := X16.mm_set1_epi32 0
  let cursor2 := X16.mm_set_epi16 0x0001 0x0083 0x4309 0x4d9b 0xb651 0x4b73 0x9bd9 0xc00b
  forLoop ((size / 16 + 3) / 4) (fun k (st : HashState) =>
    QuickTexHashSSE2_chunk checkp (4 * k) st) (HashState.mk cursor cursor2)

/-- The end of the fast path of `QuickTexHashSSE2`: `cursor2` is added to
`cursor`, then the four 32-bit lanes are added into the low one, which is
returned. -/
def QuickTexHashSSE2_fold (st : HashState) : Nat :=
  let cursor := X16.mm_add_epi32 st.cursor st.cursor2
  let cursor := X16.mm_add_epi32 cursor (X16.mm_srli_si128 cursor 8)
  let cursor := X16.mm_add_epi32 cursor (X16.mm_srli_si128 cursor 4)
  X16.mm_cvtsi128_si32 cursor

/-- The `else` branch of `QuickTexHashSSE2`: `check += *p++; check ^= *p++` for
`size / 8` rounds. The state is `check` and the word index of `p`. -/
def QuickTexHashSSE2_fallback (checkp : ByteBuf) (size : Nat) : Nat :=
  (forLoop (size / 8) (fun _ (st : Nat × Nat) =>
    let check := (st.1 + load32 checkp st.2) % 2 ^ 32
    let check := check ^^^ load32 checkp (st.2 + 1)
    (check, st.2 + 2)) (0, 0)).1

/-- `QuickTexHashSSE2(checkp, size)`; `checkpAddr` is the machine address held
by `checkp`. -/
def QuickTexHashSSE2 (checkpAddr : Nat) (checkp : ByteBuf) (size : Nat) : Nat :=
  if checkpAddr &&& 0xf = 0 ∧ size &&& 0x3f = 0 then
    QuickTexHashSSE2_fold (QuickTexHashSSE2_chunks checkp size)
  else
    QuickTexHashSSE2_fallback checkp size

/-- State of `QuickTexHashBasic`: `check`, and the indices of the 32-bit words
read so far, in order. -/
structure BasicState where
  check : Nat
  reads : List Nat

/-- The loop `for (i = 0; i < size_u32; i += 4)` of `QuickTexHashBasic`, every
read `p[i + c]` being recorded. -/
def QuickTexHashBasic_run (checkp : ByteBuf) (size : Nat) : BasicState :=
  let size_u32 := size / 4
  forLoop ((size_u32 + 3) / 4) (fun k (st : BasicState) =>
    let i := 4 * k
    let check := (st.check + load32 checkp (i + 0)) % 2 ^ 32
    let check := check ^^^ load32 checkp (i + 1)
    let check := (check + load32 checkp (i + 2)) % 2 ^ 32
    let check := check ^^^ load32 checkp (i + 3)
    BasicState.mk check (st.reads ++ [i + 0, i + 1, i + 2, i + 3])) (BasicState.mk 0 [])

/-- `QuickTexHashBasic(checkp, size)`. -/
def QuickTexHashBasic (checkp : ByteBuf) (size : Nat) : Nat :=
  (QuickTexHashBasic_run checkp size).check

/-- The scanned rectangle: `Q` holds at every element index `y * stride + i`
with `0 <= y < h` and `0 <= i < w`. -/
def RectAll (Q : Int → Prop) (stride w h : Int) : Prop :=
  ∀ y i : Int, 0 ≤ y → y < h → 0 ≤ i → i < w → Q (y * stride + i)

/-! ## Vocabulary of the statements -/

/-- The red channel of a texel as `makecol` packs it: bits 0..7. -/
def chanR (c : Nat) : Nat := c &&& 0xFF

/-- The green channel of a texel as `makecol` packs it: bits 8..15. -/
def chanG (c : Nat) : Nat := (c >>> 8) &&& 0xFF

/-- The blue channel of a texel as `makecol` packs it: bits 16..23. -/
def chanB (c : Nat) : Nat := (c >>> 16) &&& 0xFF

/-- The 8-bit value `DecodeColors` computes as `red1`/`red2` from a 16-bit
endpoint. -/
def expandR (c : Nat) : Nat := (c >>> 8) &&& 0xF8

/-- The 8-bit value `DecodeColors` computes as `green1`/`green2`. -/
def expandG (c : Nat) : Nat := (c >>> 3) &&& 0xFC

/-- The 8-bit value `DecodeColors` computes as `blue1`/`blue2`. -/
def expandB (c : Nat) : Nat := (c <<< 3) &&& 0xF8

/-! ## The transcoder as a grid of 16-byte copies -/

/-- Proof-side view of the transcoder: for every tile row `r`, tile column `c`
and line `n` of the tile, in this order, 16 bytes are copied from offset
`S r c n` of `src` to offset `D r c n` of `dst`. -/
def copyGrid (dst src : ByteBuf) (D S : Nat → Nat → Nat → Nat) (byc bxc : Nat) : ByteBuf :=
  forLoop byc (fun r m => forLoop bxc (fun c m =>
    forLoop 8 (fun n m => memcpy m (D r c n) src (S r c n) 16) m) m) dst

/-- Offset of line `n` of tile `(r, c)` in the linear buffer, for a line step of
`P` bytes and a tile-row step of `RS` bytes. -/
def linOff (P RS : Nat) (r c n : Nat) : Nat := r * RS + c * 16 + n * P

/-- Offset of line `n` of tile `(r, c)` in the tiled buffer. -/
def tilOff (bxc : Nat) (r c n : Nat) : Nat := r * (bxc * 128) + c * 128 + n * 16

/-- The destination blocks of a grid of copies do not overlap. -/
def GridDisjoint (D : Nat → Nat → Nat → Nat) (byc bxc : Nat) : Prop :=
  ∀ r c n r2 c2 n2, r < byc → c < bxc → n < 8 → r2 < byc → c2 < bxc → n2 < 8 →
    (r, c, n) ≠ (r2, c2, n2) → D r c n + 16 ≤ D r2 c2 n2 ∨ D r2 c2 n2 + 16 ≤ D r c n

/-! ## Invariants of the block writer -/

/-- What the rows written so far look like: the pointer has advanced by `n`
rows, and every offset either still holds what `dst` held or holds the palette
entry of one of the texels of these rows. -/
def RowsWritten (colors_ : List Nat) (dst : TexelBuf) (src : DXT1Block) (pitch : Int)
    (n : Nat) (st : TexelBuf × Int) : Prop :=
  st.2 = n * pitch ∧
    ∀ o, st.1 o = dst o ∨ ∃ x y : Nat, x < 4 ∧ y < n ∧ o = y * pitch + x ∧
      st.1 o = colors_.getD ((src.lines y >>> (x * 2)) &&& 3) 0

/-- With a pitch of at least 4 the rows do not overlap: after `n` rows, every
texel of these rows holds its palette entry. -/
def RowsExact (colors_ : List Nat) (src : DXT1Block) (pitch : Int)
    (n : Nat) (st : TexelBuf × Int) : Prop :=
  st.2 = n * pitch ∧
    ∀ x y : Nat, x < 4 → y < n →
      st.1 (y * pitch + x) = colors_.getD ((src.lines y >>> (x * 2)) &&& 3) 0

/-! ## Sample inputs -/

/-- A DXT1 block with a white and a black endpoint whose scanlines all select
palette entry 0. -/
def whiteBlock : DXT1Block := ⟨fun _ => 0, 0xFFFF, 0⟩

/-- A DXT1 block using all four palette entries on every scanline. -/
def sampleDXT1 : DXT1Block := ⟨fun _ => 0xE4, 0xF800, 0x001F⟩

/-- A DXT3 block over `sampleDXT1`. -/
def sampleDXT3 : DXT3Block := ⟨sampleDXT1, fun _ => 0xF731⟩

/-- A DXT5 block over `sampleDXT1`. -/
def sampleDXT5 : DXT5Block := ⟨sampleDXT1, 0x12345678, 0x9ABC, 200, 50⟩

/-- A tiled buffer of two tiles: bytes 1 in the first, bytes 2 in the second. -/
def twoTiles : ByteBuf := fun o => if o < 128 then 1 else 2

/-- A buffer of 16-bit texels whose word 0 holds an opaque texel 0 and a
transparent texel 1; every other word is opaque. -/
def oddWidthBuf : TexelBuf := fun j => if j = 0 then 0x0000FFFF else 0xFFFFFFFF

/-- A buffer of 16-bit texels, all opaque except texel 3 (the high half of word
1). -/
def oddStrideBuf : TexelBuf := fun j => if j = 1 then 0x0000FFFF else 0xFFFFFFFF

/-- A buffer whose texels are all opaque in every format. -/
def opaqueBuf : TexelBuf := fun _ => 0xFFFFFFFF

/-- The alpha byte of a texel: bits 24..31. -/
def chanA (c : Nat) : Nat := (c >>> 24) &&& 0xFF

/-- A DXT1 block with both endpoints black and every colour index 3. -/
def sentinelBlock : DXT1Block := ⟨fun _ => 0xFF, 0, 0⟩

/-- The DXT1 block with `color1 = color2 = 0xFFFF` and index bytes 0. -/
def whiteWhiteBlock : DXT1Block := ⟨fun _ => 0, 0xFFFF, 0xFFFF⟩

/-- A DXT5 block with `alpha1 = 255`, `alpha2 = 0` and all 48 index bits 1. -/
def onesDXT5 : DXT5Block := ⟨sampleDXT1, 0xFFFFFFFF, 0xFFFF, 255, 0⟩

/-- A buffer of zero bytes. -/
def zeroBytes : ByteBuf := fun _ => 0

/-- A buffer of zero bytes except for byte 8, which is 1. -/
def byte8Set : ByteBuf := fun o => if o = 8 then 1 else 0

/-- A tiled buffer whose byte at offset `o` is `o + 1`. -/
def countingBytes : ByteBuf := fun o => o + 1

/-- The first 64 bytes of `countingBytes`, followed by zero bytes. -/
def countingHead : ByteBuf := fun o => if o < 64 then o + 1 else 0

/-- A DXT3 block whose alpha nibbles are all `0xF`. -/
def opaqueDXT3 : DXT3Block := ⟨sampleDXT1, fun _ => 0xFFFF⟩

/-! ## Lemmas: DXT decoder -/

theorem and3_lt (n : Nat) : n &&& 3 < 4 := by
  have := Nat.and_pow_two_sub_one_eq_mod n 2
  simp at this
  omega

theorem and7_lt (n : Nat) : n &&& 7 < 8 := by
  have := Nat.and_pow_two_sub_one_eq_mod n 3
  simp at this
  omega

theorem colors_getD (src : DXT1Block) (flag : Bool) (x y : Nat) :
    (DecodeColors src flag).getD ((src.lines y >>> (x * 2)) &&& 3) 0
      = GetDXTTexelColor src x y (if flag then 0 else 255) := by
  have h := and3_lt (src.lines y >>> (x * 2))
  unfold DecodeColors GetDXTTexelColor
  generalize (src.lines y >>> (x * 2)) &&& 3 = i at h
  interval_cases i <;> by_cases hc : src.color1 > src.color2 <;> simp [hc]

theorem write_eq (m : TexelBuf) (p q : Int) (v : Nat) (h : q = p) : m.write p v q = v := by
  simp [TexelBuf.write, h]

theorem write_other (m : TexelBuf) (p q : Int) (v : Nat) (h : q ≠ p) : m.write p v q = m q := by
  simp [TexelBuf.write, h]

theorem WriteColorsDXT1_texel (colors_ : List Nat) (dst : TexelBuf) (src : DXT1Block)
    (pitch : Int) (hp : 4 ≤ pitch) (x y : Nat) (hx : x < 4) (hy : y < 4) :
    WriteColorsDXT1 colors_ dst src pitch 4 (y * pitch + x)
      = colors_.getD ((src.lines y >>> (x * 2)) &&& 3) 0 := by
  unfold WriteColorsDXT1
  interval_cases y <;> interval_cases x <;>
    simp only [forLoop, Int.toNat_ofNat, ← Nat.shiftRight_add, Nat.shiftRight_zero] <;>
    (repeat (first | rw [write_eq _ _ _ _ (by omega)] | rw [write_other _ _ _ _ (by omega)])) <;>
    (try simp)

theorem WriteColorsDXT3_texel (colors_ : List Nat) (dst : TexelBuf) (src : DXT3Block)
    (pitch : Int) (hp : 4 ≤ pitch) (x y : Nat) (hx : x < 4) (hy : y < 4) :
    WriteColorsDXT3 colors_ dst src pitch 4 (y * pitch + x)
      = (colors_.getD ((src.color.lines y >>> (x * 2)) &&& 3) 0
          ||| (((src.alphaLines y >>> (x * 4)) <<< 28) % 2 ^ 32)) := by
  unfold WriteColorsDXT3
  interval_cases y <;> interval_cases x <;>
    simp only [forLoop, Int.toNat_ofNat, ← Nat.shiftRight_add, Nat.shiftRight_zero] <;>
    (repeat (first | rw [write_eq _ _ _ _ (by omega)] | rw [write_other _ _ _ _ (by omega)])) <;>
    (try simp)

theorem WriteColorsDXT5_texel (colors_ alpha_ : List Nat) (dst : TexelBuf) (src : DXT5Block)
    (pitch : Int) (hp : 4 ≤ pitch) (x y : Nat) (hx : x < 4) (hy : y < 4) :
    WriteColorsDXT5 colors_ alpha_ dst src pitch 4 (y * pitch + x)
      = (colors_.getD ((src.color.lines y >>> (x * 2)) &&& 3) 0
          ||| ((alpha_.getD
                ((((((src.alphadata1 % 2 ^ 16) <<< 32) ||| (src.alphadata2 % 2 ^ 32)))
                  >>> (y * 12 + x * 3)) &&& 7) 0 <<< 24) % 2 ^ 32)) := by
  unfold WriteColorsDXT5
  interval_cases y <;> interval_cases x <;>
    simp only [forLoop, Int.toNat_ofNat, ← Nat.shiftRight_add, Nat.shiftRight_zero] <;>
    (repeat (first | rw [write_eq _ _ _ _ (by omega)] | rw [write_other _ _ _ _ (by omega)])) <;>
    (try simp)

theorem alpha_getD (src : DXT5Block) (color i : Nat) (hi : i < 8) :
    (color ||| (((DecodeAlphaDXT5 src).getD i 0 <<< 24) % 2 ^ 32))
      = (if i = 0 then
          color ||| ((src.alpha1 <<< 24) % 2 ^ 32)
        else if i = 1 then
          color ||| ((src.alpha2 <<< 24) % 2 ^ 32)
        else if src.alpha1 > src.alpha2 then
          color ||| ((lerp8 src (i - 1) <<< 24) % 2 ^ 32)
        else if i = 6 then
          color
        else if i = 7 then
          color ||| 0xFF000000
        else
          color ||| ((lerp6 src (i - 1) <<< 24) % 2 ^ 32)) := by
  unfold DecodeAlphaDXT5
  by_cases hc : src.alpha1 > src.alpha2
  · simp only [hc, if_true]
    interval_cases i <;> simp only [List.getD_cons_succ, List.getD_cons_zero] <;> simp
  · simp only [hc, if_false]
    interval_cases i <;> simp only [List.getD_cons_succ, List.getD_cons_zero] <;> simp

theorem shl28_and (a : Nat) : ((a &&& 0xF) <<< 28) % 2 ^ 32 = (a <<< 28) % 2 ^ 32 := by
  have h := Nat.and_pow_two_sub_one_eq_mod a 4
  norm_num at h
  rw [h, Nat.shiftLeft_eq, Nat.shiftLeft_eq]
  omega

theorem makecol_eq (r g b a : Nat) (hr : r < 256) (hg : g < 256) (hb : b < 256)
    (ha : a < 256) : makecol r g b a = a * 2 ^ 24 + b * 2 ^ 16 + g * 2 ^ 8 + r := by
  unfold makecol
  have h1 : a <<< 24 ||| b <<< 16 = 2 ^ 16 * (a * 2 ^ 8 + b) := by
    have h := Nat.mul_add_lt_is_or (i := 24) (b := b * 2 ^ 16) (by omega) a
    rw [Nat.shiftLeft_eq, Nat.shiftLeft_eq, Nat.mul_comm a, ← h]
    omega
  have h2 : 2 ^ 16 * (a * 2 ^ 8 + b) ||| g <<< 8 = 2 ^ 8 * (a * 2 ^ 16 + b * 2 ^ 8 + g) := by
    have h := Nat.mul_add_lt_is_or (i := 16) (b := g * 2 ^ 8) (by omega) (a * 2 ^ 8 + b)
    rw [Nat.shiftLeft_eq, ← h]
    omega
  have h3 := Nat.mul_add_lt_is_or (i := 8) (b := r) (by omega) (a * 2 ^ 16 + b * 2 ^ 8 + g)
  rw [h1, h2, ← h3]
  omega

theorem chan_makecol (r g b a : Nat) (hr : r < 256) (hg : g < 256) (hb : b < 256)
    (ha : a < 256) :
    chanR (makecol r g b a) = r ∧ chanG (makecol r g b a) = g ∧
      chanB (makecol r g b a) = b := by
  have e8 := fun c => Nat.and_pow_two_sub_one_eq_mod c 8
  norm_num at e8
  simp only [chanR, chanG, chanB, e8, makecol_eq r g b a hr hg hb ha,
    Nat.shiftRight_eq_div_pow]
  omega

/-! ## Bitwise facts -/

theorem and_eq_self_iff_testBit (a m : Nat) :
    a &&& m = m ↔ ∀ i, m.testBit i = true → a.testBit i = true := by
  constructor
  · intro h i hi
    have := congrArg (fun x => x.testBit i) h
    simp only [Nat.testBit_and, hi, Bool.and_true] at this
    exact this
  · intro h
    apply Nat.eq_of_testBit_eq
    intro i
    rw [Nat.testBit_and]
    cases hm : m.testBit i
    · simp
    · simp [h i hm]

theorem and_acc_step (b a m : Nat) (hb : b &&& m = b) :
    b &&& a = m ↔ b = m ∧ a &&& m = m := by
  constructor
  · intro h
    have hbm : b = m := by
      apply Nat.eq_of_testBit_eq
      intro i
      have h1 := congrArg (fun x => x.testBit i) h
      have h2 := congrArg (fun x => x.testBit i) hb
      simp only [Nat.testBit_and] at h1 h2
      cases hbi : b.testBit i <;> cases hmi : m.testBit i <;> simp_all
    refine ⟨hbm, ?_⟩
    rw [Nat.and_comm]
    rw [hbm] at h
    exact h
  · rintro ⟨rfl, h⟩
    rw [Nat.and_comm]
    exact h

theorem or_eq_zero_iff (a b : Nat) : a ||| b = 0 ↔ a = 0 ∧ b = 0 := by
  constructor
  · intro h
    constructor
    · apply Nat.eq_of_testBit_eq
      intro i
      have := congrArg (fun x => x.testBit i) h
      simp only [Nat.testBit_or, Nat.zero_testBit, Bool.or_eq_false_iff] at this
      simp [this.1]
    · apply Nat.eq_of_testBit_eq
      intro i
      have := congrArg (fun x => x.testBit i) h
      simp only [Nat.testBit_or, Nat.zero_testBit, Bool.or_eq_false_iff] at this
      simp [this.2]
  · rintro ⟨rfl, rfl⟩
    rfl

/-! ## The and-accumulation loops -/

theorem forLoop_and_sub (a : Nat → Nat) (m : Nat) (n : Nat) :
    forLoop n (fun i b => b &&& a i) m &&& m = forLoop n (fun i b => b &&& a i) m := by
  induction n with
  | zero => simp [forLoop]
  | succ n ih =>
    simp only [forLoop]
    rw [Nat.and_assoc, Nat.and_comm (a n) m, ← Nat.and_assoc, ih]

theorem forLoop_and_eq (a : Nat → Nat) (m : Nat) (n : Nat) :
    forLoop n (fun i b => b &&& a i) m = m ↔ ∀ i, i < n → a i &&& m = m := by
  induction n with
  | zero => simp [forLoop]
  | succ n ih =>
    simp only [forLoop]
    rw [and_acc_step _ _ _ (forLoop_and_sub a m n), ih]
    constructor
    · rintro ⟨h1, h2⟩ i hi
      rcases Nat.lt_succ_iff_lt_or_eq.mp hi with h | h
      · exact h1 i h
      · rw [h]; exact h2
    · intro h
      exact ⟨fun i hi => h i (Nat.lt_succ_of_lt hi), h n (Nat.lt_succ_self n)⟩

theorem result_eq_iff (a b : CheckAlphaResult)
    (h : a = CHECKALPHA_FULL ↔ b = CHECKALPHA_FULL) : a = b := by
  cases a <;> cases b <;> simp_all

theorem basicRows_full (mask : Nat) (pixelData : TexelBuf) (n step : Int) (rows : Nat)
    (p : Int) :
    basicRows mask pixelData n step rows p = CHECKALPHA_FULL ↔
      ∀ y i : Nat, y < rows → i < n.toNat →
        pixelData (p + y * step + i) &&& mask = mask := by
  induction rows generalizing p with
  | zero => simp [basicRows]
  | succ rows ih =>
    simp only [basicRows]
    by_cases hrow : forLoop n.toNat (fun i b => b &&& pixelData (p + i)) mask = mask
    · simp only [hrow, ne_eq, not_true_eq_false, if_false]
      rw [ih]
      rw [forLoop_and_eq] at hrow
      constructor
      · intro h y i hy hi
        cases y with
        | zero => simpa using hrow i hi
        | succ y =>
          have := h y i (by omega) hi
          rw [← this]
          congr 2
          push_cast
          ring
      · intro h y i hy hi
        have := h (y + 1) i (by omega) hi
        rw [← this]
        congr 2
        push_cast
        ring
    · simp only [hrow, ne_eq, not_false_eq_true, if_true]
      simp only [reduceCtorEq, false_iff]
      intro h
      apply hrow
      rw [forLoop_and_eq]
      intro i hi
      simpa using h 0 i (by omega) hi

theorem forLoop_vec_lane (A : Nat → Vec) (n : Nat) (bits : Vec) (l : Nat) :
    forLoop n (fun i b => Vec.and b (A i)) bits l
      = forLoop n (fun i x => x &&& A i l) (bits l) := by
  induction n with
  | zero => rfl
  | succ n ih => simp only [forLoop, Vec.and, ih]

theorem combine_xor_eq_zero (bits mask : Vec) :
    CombineSSEBitsToDWORD (Vec.xor bits mask) = 0 ↔ ∀ l, l < 4 → bits l = mask l := by
  have e : CombineSSEBitsToDWORD (Vec.xor bits mask)
      = ((bits 0 ^^^ mask 0) ||| (bits 2 ^^^ mask 2))
          ||| ((bits 1 ^^^ mask 1) ||| (bits 3 ^^^ mask 3)) := by
    simp [CombineSSEBitsToDWORD, mm_cvtsi128_si32, Vec.or, mm_srli_si128_lanes, Vec.xor]
  rw [e]
  simp only [or_eq_zero_iff, Nat.xor_eq_zero]
  constructor
  · intro h l hl
    interval_cases l <;> simp_all
  · intro h
    have h0 := h 0 (by omega)
    have h1 := h 1 (by omega)
    have h2 := h 2 (by omega)
    have h3 := h 3 (by omega)
    simp_all

theorem sse2Rows_full (m : Nat) (pixelData : TexelBuf) (wv stridev : Int) (rows : Nat)
    (p : Int) (bits : Vec) (hbits : ∀ l, l < 4 → bits l = m) :
    sse2Rows (fun _ => m) pixelData wv stridev rows p bits = CHECKALPHA_FULL ↔
      ∀ y i l : Nat, y < rows → i < wv.toNat → l < 4 →
        pixelData (4 * (p + y * stridev + i) + l) &&& m = m := by
  induction rows generalizing p bits with
  | zero => simp [sse2Rows]
  | succ rows ih =>
    simp only [sse2Rows]
    have hlane : ∀ l, l < 4 →
        (forLoop wv.toNat (fun i b => Vec.and b (mm_load_si128_words pixelData (p + i))) bits l
            = m ↔ ∀ i, i < wv.toNat → pixelData (4 * (p + i) + l) &&& m = m) := by
      intro l hl
      rw [forLoop_vec_lane, hbits l hl, forLoop_and_eq]
      rfl
    by_cases hrow : CombineSSEBitsToDWORD (Vec.xor
        (forLoop wv.toNat (fun i b => Vec.and b (mm_load_si128_words pixelData (p + i))) bits)
        (fun _ => m)) = 0
    · simp only [hrow, ne_eq, not_true_eq_false, if_false]
      rw [combine_xor_eq_zero] at hrow
      rw [ih _ _ hrow]
      constructor
      · intro h y i l hy hi hl
        cases y with
        | zero => simpa using (hlane l hl).mp (hrow l hl) i hi
        | succ y =>
          have := h y i l (by omega) hi hl
          rw [← this]
          congr 2
          push_cast
          ring
      · intro h y i l hy hi hl
        have := h (y + 1) i l (by omega) hi hl
        rw [← this]
        congr 2
        push_cast
        ring
    · simp only [hrow, ne_eq, not_false_eq_true, if_true]
      simp only [reduceCtorEq, false_iff]
      intro h
      apply hrow
      rw [combine_xor_eq_zero]
      intro l hl
      rw [hlane l hl]
      intro i hi
      simpa using h 0 i l (by omega) hi hl

theorem vectorIsNonZero_xor (lanes : Nat) (bits : Vec) (m : Nat) :
    VectorIsNonZeroNEON lanes (Vec.xor bits (fun _ => m)) = false ↔
      ∀ l, l < lanes → bits l = m := by
  simp only [VectorIsNonZeroNEON, Vec.xor, decide_eq_false_iff_not, not_exists, not_and,
    ne_eq, not_not, Nat.xor_eq_zero]

theorem neonRows_full (m lanes : Nat) (elem : Int → Nat) (stride w : Int) (rows : Nat)
    (p : Int) (bits : Vec) (hbits : ∀ l, l < lanes → bits l = m) :
    neonRows m lanes elem stride w rows p bits = CHECKALPHA_FULL ↔
      ∀ y k l : Nat, y < rows → k < ((w + (lanes - 1)) / lanes).toNat → l < lanes →
        elem (p + y * stride + lanes * k + l) &&& m = m := by
  induction rows generalizing p bits with
  | zero => simp [neonRows]
  | succ rows ih =>
    simp only [neonRows]
    have hlane : ∀ l, l < lanes →
        (forLoop ((w + (lanes - 1)) / lanes).toNat
            (fun k b => Vec.and b (fun l => elem (p + lanes * k + l))) bits l
            = m ↔ ∀ k, k < ((w + (lanes - 1)) / lanes).toNat →
              elem (p + lanes * k + l) &&& m = m) := by
      intro l hl
      rw [forLoop_vec_lane, hbits l hl, forLoop_and_eq]
    by_cases hrow : VectorIsNonZeroNEON lanes (Vec.xor
        (forLoop ((w + (lanes - 1)) / lanes).toNat
            (fun k b => Vec.and b (fun l => elem (p + lanes * k + l))) bits)
        (fun _ => m)) = false
    · simp only [hrow, Bool.false_eq_true, if_false]
      rw [vectorIsNonZero_xor] at hrow
      rw [ih _ _ hrow]
      constructor
      · intro h y k l hy hk hl
        cases y with
        | zero => simpa using (hlane l hl).mp (hrow l hl) k hk
        | succ y =>
          have := h y k l (by omega) hk hl
          rw [← this]
          congr 2
          push_cast
          ring
      · intro h y k l hy hk hl
        have := h (y + 1) k l (by omega) hk hl
        rw [← this]
        congr 2
        push_cast
        ring
    · have hrow2 : VectorIsNonZeroNEON lanes (Vec.xor
        (forLoop ((w + (lanes - 1)) / lanes).toNat
            (fun k b => Vec.and b (fun l => elem (p + lanes * k + l))) bits)
        (fun _ => m)) = true := by simpa using hrow
      simp only [hrow2, if_true]
      simp only [reduceCtorEq, false_iff]
      intro h
      apply hrow
      rw [vectorIsNonZero_xor]
      intro l hl
      rw [hlane l hl]
      intro k hk
      simpa using h 0 k l (by omega) hk hl

/-! ## From the loops to the scanned rectangle -/

theorem tdiv_exact (a L : Int) (h : a % L = 0) : L * Int.tdiv a L = a :=
  Int.mul_tdiv_cancel' (Int.dvd_of_emod_eq_zero h)

theorem rect_nat_iff (Q : Int → Prop) (stride w h : Int) :
    (∀ y i : Nat, y < h.toNat → i < w.toNat → Q (y * stride + i)) ↔
      RectAll Q stride w h := by
  constructor
  · intro hq y i hy0 hy hi0 hi
    have := hq y.toNat i.toNat (by omega) (by omega)
    rwa [Int.toNat_of_nonneg hy0, Int.toNat_of_nonneg hi0] at this
  · intro hq y i hy hi
    exact hq y i (by omega) (by omega) (by omega) (by omega)

theorem flat_index (L n : Nat) (hL : 0 < L) (Q : Nat → Prop) :
    (∀ i l, i < n → l < L → Q (L * i + l)) ↔ ∀ j, j < L * n → Q j := by
  constructor
  · intro h j hj
    have h1 : j / L < n := Nat.div_lt_of_lt_mul hj
    have h2 : j % L < L := Nat.mod_lt _ hL
    have := h (j / L) (j % L) h1 h2
    rwa [Nat.div_add_mod] at this
  · intro h i l hi hl
    apply h
    have : L * (i + 1) ≤ L * n := Nat.mul_le_mul_left L hi
    rw [Nat.mul_add, Nat.mul_one] at this
    omega

theorem sse_flat (Q : Int → Prop) (rows : Nat) (wv sv : Int) :
    (∀ y i l : Nat, y < rows → i < wv.toNat → l < 4 →
        Q (4 * (0 + y * sv + i) + l)) ↔
      ∀ y j : Nat, y < rows → j < 4 * wv.toNat → Q (y * (4 * sv) + j) := by
  constructor
  · intro h y j hy hj
    have e := (flat_index 4 wv.toNat (by omega) (fun j => Q (y * (4 * sv) + j))).mp
    apply e _ j hj
    intro i l hi hl
    have := h y i l hy hi hl
    have e2 : (4 : Int) * (0 + y * sv + i) + l = y * (4 * sv) + ((4 * i + l : Nat) : Int) := by
      push_cast; ring
    rwa [e2] at this
  · intro h y i l hy hi hl
    have := h y (4 * i + l) hy (by omega)
    have e2 : (4 : Int) * (0 + y * sv + i) + l = y * (4 * sv) + ((4 * i + l : Nat) : Int) := by
      push_cast; ring
    rwa [e2]

theorem neon_flat (Q : Int → Prop) (rows L : Nat) (hL : 0 < L) (stride : Int) (n : Nat) :
    (∀ y k l : Nat, y < rows → k < n → l < L →
        Q (0 + y * stride + L * k + l)) ↔
      ∀ y j : Nat, y < rows → j < L * n → Q (y * stride + j) := by
  constructor
  · intro h y j hy hj
    have e := (flat_index L n hL (fun j => Q (y * stride + j))).mp
    apply e _ j hj
    intro k l hk hl
    have := h y k l hy hk hl
    have e2 : (0 : Int) + y * stride + L * k + l = y * stride + ((L * k + l : Nat) : Int) := by
      push_cast; ring
    rwa [e2] at this
  · intro h y k l hy hk hl
    have hlt : L * k + l < L * n := by
      have : L * (k + 1) ≤ L * n := Nat.mul_le_mul_left L hk
      rw [Nat.mul_add, Nat.mul_one] at this
      omega
    have := h y (L * k + l) hy hlt
    have e2 : (0 : Int) + y * stride + L * k + l = y * stride + ((L * k + l : Nat) : Int) := by
      push_cast; ring
    rwa [e2]

theorem topByte_iff (x : Nat) : x &&& 0xFF000000 = 0xFF000000 ↔ (x >>> 24) % 256 = 0xFF := by
  have hm : ∀ i, (0xFF000000 : Nat).testBit i = decide (24 ≤ i ∧ i < 32) := by
    intro i
    have e : (0xFF000000 : Nat) = (2 ^ 8 - 1) <<< 24 := by decide
    rw [e, Nat.testBit_shiftLeft, Nat.testBit_two_pow_sub_one]
    by_cases h1 : 24 ≤ i <;> by_cases h2 : i < 32 <;> simp [h1, h2] <;> omega
  rw [and_eq_self_iff_testBit]
  constructor
  · intro h
    apply Nat.eq_of_testBit_eq
    intro j
    have e1 : (256 : Nat) = 2 ^ 8 := by decide
    have e2 : (0xFF : Nat) = 2 ^ 8 - 1 := by decide
    rw [e1, e2, Nat.testBit_mod_two_pow, Nat.testBit_two_pow_sub_one, Nat.testBit_shiftRight]
    by_cases hj : j < 8
    · have := h (24 + j) (by rw [hm]; simp; omega)
      simp [hj, this]
    · simp [hj]
  · intro h i hi
    rw [hm] at hi
    simp only [decide_eq_true_eq] at hi
    have := congrArg (fun v => v.testBit (i - 24)) h
    have e1 : (256 : Nat) = 2 ^ 8 := by decide
    have e2 : (0xFF : Nat) = 2 ^ 8 - 1 := by decide
    simp only [] at this
    rw [e1, e2, Nat.testBit_mod_two_pow, Nat.testBit_two_pow_sub_one,
      Nat.testBit_shiftRight] at this
    have h3 : i - 24 < 8 := by omega
    have h4 : 24 + (i - 24) = i := by omega
    simpa [h3, h4] using this

theorem basic_flat (m : Nat) (pixelData : TexelBuf) (n step h : Int) :
    basicRows m pixelData n step h.toNat 0 = CHECKALPHA_FULL ↔
      RectAll (fun t => pixelData t &&& m = m) step n h := by
  rw [basicRows_full, ← rect_nat_iff]
  simp only [zero_add]

theorem sse2_flat (m : Nat) (pixelData : TexelBuf) (wv sv h : Int) :
    sse2Rows (fun _ => m) pixelData wv sv h.toNat 0 (fun _ => m) = CHECKALPHA_FULL ↔
      RectAll (fun t => pixelData t &&& m = m) (4 * sv) (4 * wv) h := by
  rw [sse2Rows_full _ _ _ _ _ _ _ (fun _ _ => rfl),
    sse_flat (fun t => pixelData t &&& m = m), ← rect_nat_iff]
  have e : (4 * wv).toNat = 4 * wv.toNat := by omega
  rw [e]

theorem neon_full_flat (m L : Nat) (hL : 0 < L) (elem : Int → Nat) (stride w h : Int)
    (hw : 0 ≤ w) (hwL : w % L = 0) :
    neonRows m L elem stride w h.toNat 0 (fun _ => m) = CHECKALPHA_FULL ↔
      RectAll (fun t => elem t &&& m = m) stride w h := by
  rw [neonRows_full _ _ _ _ _ _ _ _ (fun _ _ => rfl),
    neon_flat (fun t => elem t &&& m = m) _ L hL, ← rect_nat_iff]
  have e : L * ((w + ((L : Int) - 1)) / L).toNat = w.toNat := by
    obtain ⟨q, hq⟩ := Int.dvd_of_emod_eq_zero hwL
    have hLpos : (0 : Int) < L := by exact_mod_cast hL
    have hq0 : 0 ≤ q := by
      by_contra hneg
      have : (L : Int) * q < 0 := Int.mul_neg_of_pos_of_neg hLpos (by omega)
      omega
    have e1 : (w + ((L : Int) - 1)) / L = q := by
      rw [hq]
      have : (L : Int) * q + (L - 1) = (L - 1) + L * q := by ring
      rw [this, Int.add_mul_ediv_left _ _ (by omega), Int.ediv_eq_zero_of_lt (by omega) (by omega)]
      simp
    rw [e1, hq]
    have : ((L : Int) * q).toNat = L * q.toNat := by
      obtain ⟨k, rfl⟩ := Int.eq_ofNat_of_zero_le hq0
      norm_cast
    rw [this]
  rw [e]

theorem CheckAlphaRGBA8888SSE2_full (pixelData : TexelBuf) (stride w h : Int)
    (hw4 : w % 4 = 0) (hs4 : stride % 4 = 0) :
    CheckAlphaRGBA8888SSE2 pixelData stride w h = CHECKALPHA_FULL ↔
      RectAll (fun t => pixelData t &&& 0xFF000000 = 0xFF000000) stride w h := by
  unfold CheckAlphaRGBA8888SSE2 mm_set1_epi32
  simp only []
  rw [sse2_flat, tdiv_exact _ _ hs4, tdiv_exact _ _ hw4]

theorem CheckAlphaRGBA8888NEON_full (pixelData : TexelBuf) (stride w h : Int)
    (hw : 0 ≤ w) (hw4 : w % 4 = 0) :
    CheckAlphaRGBA8888NEON pixelData stride w h = CHECKALPHA_FULL ↔
      RectAll (fun t => pixelData t &&& 0xFF000000 = 0xFF000000) stride w h := by
  unfold CheckAlphaRGBA8888NEON
  exact neon_full_flat _ 4 (by omega) _ _ _ _ hw hw4

theorem CheckAlphaRGBA8888Basic_mask (build : Build) (pixelData : TexelBuf)
    (stride w h : Int) (hw : 0 ≤ w) :
    CheckAlphaRGBA8888Basic build pixelData stride w h = CHECKALPHA_FULL ↔
      RectAll (fun t => pixelData t &&& 0xFF000000 = 0xFF000000) stride w h := by
  unfold CheckAlphaRGBA8888Basic simdOrScalar
  by_cases hc : w % 4 = 0 ∧ stride % 4 = 0
  · rw [if_pos hc]
    cases build with
    | sse => exact CheckAlphaRGBA8888SSE2_full _ _ _ _ hc.1 hc.2
    | neon b =>
      cases b
      · exact basic_flat _ _ _ _ _
      · exact CheckAlphaRGBA8888NEON_full _ _ _ _ hw hc.1
    | generic => exact basic_flat _ _ _ _ _
  · rw [if_neg hc]
    exact basic_flat _ _ _ _ _

/-! ## Two 16-bit texels per 32-bit word -/

theorem testBit_lt16 (m i : Nat) (hm : m < 65536) (h : m.testBit i = true) : i < 16 := by
  by_contra hge
  have h1 : m < 2 ^ i := by
    have : 2 ^ 16 ≤ 2 ^ i := Nat.pow_le_pow_right (by omega) (by omega)
    omega
  rw [Nat.testBit_lt_two_pow h1] at h
  exact Bool.false_ne_true h

theorem word_full_iff (x m : Nat) (hm : m < 65536) :
    x &&& ((m <<< 16) ||| m) = ((m <<< 16) ||| m) ↔
      (x % 65536) &&& m = m ∧ ((x >>> 16) % 65536) &&& m = m := by
  have e1 : (65536 : Nat) = 2 ^ 16 := by decide
  simp only [and_eq_self_iff_testBit, e1, Nat.testBit_or, Nat.testBit_shiftLeft,
    Nat.testBit_mod_two_pow, Nat.testBit_shiftRight, Bool.or_eq_true, Bool.and_eq_true,
    decide_eq_true_eq, ge_iff_le]
  constructor
  · intro h
    refine ⟨fun i hi => ⟨testBit_lt16 m i hm hi, h i (Or.inr hi)⟩, fun i hi => ?_⟩
    refine ⟨testBit_lt16 m i hm hi, h (16 + i) (Or.inl ⟨by omega, ?_⟩)⟩
    have : 16 + i - 16 = i := by omega
    rw [this]
    exact hi
  · rintro ⟨hlo, hhi⟩ i (⟨h16, hi⟩ | hi)
    · have := (hhi (i - 16) hi).2
      have e : 16 + (i - 16) = i := by omega
      rwa [e] at this
    · exact (hlo i hi).2

theorem texel16_even (pixelData : TexelBuf) (k : Int) :
    texel16 pixelData (2 * k) = pixelData k % 65536 := by
  unfold texel16
  have h1 : (2 * k) / 2 = k := by omega
  have h2 : ((2 * k) % 2).toNat = 0 := by omega
  rw [h1, h2]
  simp

theorem texel16_odd (pixelData : TexelBuf) (k : Int) :
    texel16 pixelData (2 * k + 1) = (pixelData k >>> 16) % 65536 := by
  unfold texel16
  have h1 : (2 * k + 1) / 2 = k := by omega
  have h2 : ((2 * k + 1) % 2).toNat = 1 := by omega
  rw [h1, h2]

theorem rect_words_texels (pixelData : TexelBuf) (m : Nat) (hm : m < 65536)
    (s n h : Int) :
    RectAll (fun j => pixelData j &&& ((m <<< 16) ||| m) = ((m <<< 16) ||| m)) s n h ↔
      RectAll (fun t => texel16 pixelData t &&& m = m) (2 * s) (2 * n) h := by
  constructor
  · intro hw y i hy0 hy hi0 hi
    have hword : pixelData (y * s + i / 2) &&& ((m <<< 16) ||| m) = ((m <<< 16) ||| m) :=
      hw y (i / 2) hy0 hy (by omega) (by omega)
    show texel16 pixelData (y * (2 * s) + i) &&& m = m
    rw [word_full_iff _ _ hm] at hword
    rcases Int.emod_two_eq_zero_or_one i with hpar | hpar
    · have e : y * (2 * s) + i = 2 * (y * s + i / 2) := by
        have : i = 2 * (i / 2) := by omega
        rw [Int.mul_add, ← this]; ring
      rw [e, texel16_even]
      exact hword.1
    · have e : y * (2 * s) + i = 2 * (y * s + i / 2) + 1 := by
        have : i = 2 * (i / 2) + 1 := by omega
        rw [Int.mul_add]
        nth_rewrite 1 [this]
        ring
      rw [e, texel16_odd]
      exact hword.2
  · intro ht y j hy0 hy hj0 hj
    show pixelData (y * s + j) &&& ((m <<< 16) ||| m) = ((m <<< 16) ||| m)
    rw [word_full_iff _ _ hm]
    constructor
    · have : texel16 pixelData (y * (2 * s) + 2 * j) &&& m = m :=
        ht y (2 * j) hy0 hy (by omega) (by omega)
      have e : y * (2 * s) + 2 * j = 2 * (y * s + j) := by ring
      rwa [e, texel16_even] at this
    · have := ht y (2 * j + 1) hy0 hy (by omega) (by omega)
      have e : y * (2 * s) + (2 * j + 1) = 2 * (y * s + j) + 1 := by ring
      rwa [e, texel16_odd] at this

theorem half_up_even (a : Int) (h0 : 0 ≤ a) (h2 : a % 2 = 0) :
    2 * Int.tdiv (a + 1) 2 = a := by
  rw [Int.tdiv_eq_ediv (by omega) (by omega)]
  omega

theorem quarter_of_eighth (a : Int) (h0 : 0 ≤ a) (h8 : a % 8 = 0) :
    4 * Int.tdiv a 8 = Int.tdiv (a + 1) 2 := by
  rw [Int.tdiv_eq_ediv h0 (by omega), Int.tdiv_eq_ediv (by omega) (by omega)]
  omega

theorem simd16_full (build : Build) (m M : Nat) (hM : M = (m <<< 16) ||| m)
    (hm : m < 65536) (pixelData : TexelBuf) (stride w h : Int)
    (hw : 0 ≤ w) (hs0 : 0 ≤ stride) (hs2 : stride % 2 = 0) :
    simdOrScalar build 8 stride w
        (sse2Rows (mm_set1_epi16 m) pixelData (Int.tdiv w 8) (Int.tdiv stride 8) h.toNat 0
          (mm_set1_epi16 m))
        (neonRows m 8 (texel16 pixelData) stride w h.toNat 0 (fun _ => m))
        (basicRows M pixelData (Int.tdiv (w + 1) 2) (Int.tdiv (stride + 1) 2) h.toNat 0)
      = CHECKALPHA_FULL ↔
      RectAll (fun t => texel16 pixelData t &&& m = m) stride (2 * ((w + 1) / 2)) h := by
  have hscalar : basicRows M pixelData (Int.tdiv (w + 1) 2) (Int.tdiv (stride + 1) 2)
      h.toNat 0 = CHECKALPHA_FULL ↔
      RectAll (fun t => texel16 pixelData t &&& m = m) stride (2 * ((w + 1) / 2)) h := by
    rw [basic_flat, hM, rect_words_texels _ _ hm, half_up_even _ hs0 hs2,
      Int.tdiv_eq_ediv (by omega) (by omega)]
  unfold simdOrScalar
  by_cases hc : w % 8 = 0 ∧ stride % 8 = 0
  · rw [if_pos hc]
    have hwe : 2 * ((w + 1) / 2) = w := by omega
    cases build with
    | sse =>
      show sse2Rows (fun _ => (m <<< 16) ||| m) pixelData (Int.tdiv w 8) (Int.tdiv stride 8)
        h.toNat 0 (fun _ => (m <<< 16) ||| m) = CHECKALPHA_FULL ↔ _
      rw [sse2_flat, rect_words_texels _ _ hm, hwe]
      have e1 : 2 * (4 * Int.tdiv stride 8) = stride := by
        have := tdiv_exact stride 8 hc.2
        omega
      have e2 : 2 * (4 * Int.tdiv w 8) = w := by
        have := tdiv_exact w 8 hc.1
        omega
      rw [e1, e2]
    | neon b =>
      cases b
      · exact hscalar
      · show neonRows m 8 (texel16 pixelData) stride w h.toNat 0 (fun _ => m)
          = CHECKALPHA_FULL ↔ _
        rw [hwe]
        exact neon_full_flat m 8 (by omega) _ _ _ _ hw hc.1
    | generic => exact hscalar
  · rw [if_neg hc]
    exact hscalar

theorem CheckAlphaABGR4444Basic_full (build : Build) (pixelData : TexelBuf)
    (stride w h : Int) (hw : 0 ≤ w) (hs0 : 0 ≤ stride) (hs2 : stride % 2 = 0) :
    CheckAlphaABGR4444Basic build pixelData stride w h = CHECKALPHA_FULL ↔
      RectAll (fun t => texel16 pixelData t &&& 0x000F = 0x000F) stride
        (2 * ((w + 1) / 2)) h :=
  simd16_full build 0x000F 0x000F000F (by decide) (by decide) _ _ _ _ hw hs0 hs2

theorem CheckAlphaABGR1555Basic_full (build : Build) (pixelData : TexelBuf)
    (stride w h : Int) (hw : 0 ≤ w) (hs0 : 0 ≤ stride) (hs2 : stride % 2 = 0) :
    CheckAlphaABGR1555Basic build pixelData stride w h = CHECKALPHA_FULL ↔
      RectAll (fun t => texel16 pixelData t &&& 0x0001 = 0x0001) stride
        (2 * ((w + 1) / 2)) h :=
  simd16_full build 0x0001 0x00010001 (by decide) (by decide) _ _ _ _ hw hs0 hs2

theorem CheckAlphaRGBA4444Basic_full (build : Build) (pixelData : TexelBuf)
    (stride w h : Int) (hw : 0 ≤ w) (hs0 : 0 ≤ stride) (hs2 : stride % 2 = 0) :
    CheckAlphaRGBA4444Basic build pixelData stride w h = CHECKALPHA_FULL ↔
      RectAll (fun t => texel16 pixelData t &&& 0xF000 = 0xF000) stride
        (2 * ((w + 1) / 2)) h :=
  simd16_full build 0xF000 0xF000F000 (by decide) (by decide) _ _ _ _ hw hs0 hs2

theorem CheckAlphaRGBA5551Basic_full (build : Build) (pixelData : TexelBuf)
    (stride w h : Int) (hw : 0 ≤ w) (hs0 : 0 ≤ stride) (hs2 : stride % 2 = 0) :
    CheckAlphaRGBA5551Basic build pixelData stride w h = CHECKALPHA_FULL ↔
      RectAll (fun t => texel16 pixelData t &&& 0x8000 = 0x8000) stride
        (2 * ((w + 1) / 2)) h :=
  simd16_full build 0x8000 0x80008000 (by decide) (by decide) _ _ _ _ hw hs0 hs2

theorem sse2_16_eq_scalar (m M : Nat) (hM : M = (m <<< 16) ||| m)
    (pixelData : TexelBuf) (stride w h : Int)
    (hw : 0 ≤ w) (hs0 : 0 ≤ stride) (hw8 : w % 8 = 0) (hs8 : stride % 8 = 0) :
    sse2Rows (mm_set1_epi16 m) pixelData (Int.tdiv w 8) (Int.tdiv stride 8) h.toNat 0
        (mm_set1_epi16 m)
      = simdOrScalar Build.generic 8 stride w
        (sse2Rows (mm_set1_epi16 m) pixelData (Int.tdiv w 8) (Int.tdiv stride 8) h.toNat 0
          (mm_set1_epi16 m))
        (neonRows m 8 (texel16 pixelData) stride w h.toNat 0 (fun _ => m))
        (basicRows M pixelData (Int.tdiv (w + 1) 2) (Int.tdiv (stride + 1) 2) h.toNat 0) := by
  have e : simdOrScalar Build.generic 8 stride w
        (sse2Rows (mm_set1_epi16 m) pixelData (Int.tdiv w 8) (Int.tdiv stride 8) h.toNat 0
          (mm_set1_epi16 m))
        (neonRows m 8 (texel16 pixelData) stride w h.toNat 0 (fun _ => m))
        (basicRows M pixelData (Int.tdiv (w + 1) 2) (Int.tdiv (stride + 1) 2) h.toNat 0)
      = basicRows M pixelData (Int.tdiv (w + 1) 2) (Int.tdiv (stride + 1) 2) h.toNat 0 := by
    unfold simdOrScalar
    split <;> rfl
  rw [e]
  apply result_eq_iff
  show sse2Rows (fun _ => (m <<< 16) ||| m) pixelData (Int.tdiv w 8) (Int.tdiv stride 8)
        h.toNat 0 (fun _ => (m <<< 16) ||| m) = CHECKALPHA_FULL ↔ _
  rw [sse2_flat, basic_flat, hM, quarter_of_eighth _ hw hw8, quarter_of_eighth _ hs0 hs8]

/-! ## Lemmas: transcoder -/

theorem forLoop_congr {σ : Type} (n : Nat) (f g : Nat → σ → σ) (s : σ)
    (h : ∀ i, i < n → ∀ t, f i t = g i t) : forLoop n f s = forLoop n g s := by
  induction n with
  | zero => rfl
  | succ n ih =>
    simp only [forLoop]
    rw [ih (fun i hi => h i (Nat.lt_succ_of_lt hi)), h n (Nat.lt_succ_self n)]

theorem forLoop_cursor (op : Nat → Nat → ByteBuf → ByteBuf) (ds dd : Nat) (n : Nat)
    (c : Cursor) :
    forLoop n (fun _ c => Cursor.mk (op c.src c.dest c.mem) (c.src + ds) (c.dest + dd)) c
      = Cursor.mk (forLoop n (fun i m => op (c.src + i * ds) (c.dest + i * dd) m) c.mem)
          (c.src + n * ds) (c.dest + n * dd) := by
  induction n with
  | zero => simp [forLoop]
  | succ n ih =>
    simp only [forLoop, ih]
    congr 1 <;> ring

theorem unswizzle_scalar_eq (texptr ydestp : ByteBuf) (bxc byc : Int) (pitch : Nat) :
    DoUnswizzleTex16_scalar texptr ydestp bxc byc pitch
      = copyGrid ydestp texptr
          (linOff (4 * (pitch >>> 2)) (4 * ((pitch >>> 2) * 8 % 2 ^ 32)))
          (tilOff bxc.toNat) byc.toNat bxc.toNat := by
  unfold DoUnswizzleTex16_scalar copyGrid
  simp only []
  have inner := fun tile : Cursor =>
    forLoop_cursor (fun s d m => memcpy m d texptr s 16) (4 * 4) (4 * (pitch >>> 2)) 8 tile
  simp only [] at inner
  simp only [inner]
  have middle := fun row : Cursor =>
    forLoop_cursor (fun s d m => forLoop 8 (fun i m =>
      memcpy m (d + i * (4 * (pitch >>> 2))) texptr (s + i * (4 * 4)) 16) m)
      (8 * (4 * 4)) (4 * 4) bxc.toNat row
  simp only [] at middle
  simp only [middle]
  have outer := forLoop_cursor (fun s d m => forLoop bxc.toNat (fun c m =>
      forLoop 8 (fun i m =>
        memcpy m (d + c * (4 * 4) + i * (4 * (pitch >>> 2))) texptr
          (s + c * (8 * (4 * 4)) + i * (4 * 4)) 16) m) m)
      (bxc.toNat * (8 * (4 * 4))) (4 * ((pitch >>> 2) * 8 % 2 ^ 32)) byc.toNat
      (Cursor.mk ydestp 0 0)
  simp only [] at outer
  rw [outer]
  simp only [linOff, tilOff]
  apply forLoop_congr; intro r _ m
  apply forLoop_congr; intro c _ m
  apply forLoop_congr; intro n _ m
  simp only [Nat.zero_add, Nat.reduceMul]

theorem swizzle_scalar_eq (ysrcp texptr : ByteBuf) (bxc byc : Int) (pitch : Nat) :
    DoSwizzleTex16_scalar ysrcp texptr bxc byc pitch
      = copyGrid texptr ysrcp (tilOff bxc.toNat)
          (linOff (4 * (pitch >>> 2)) (4 * ((pitch >>> 2) * 8 % 2 ^ 32)))
          byc.toNat bxc.toNat := by
  unfold DoSwizzleTex16_scalar copyGrid
  simp only []
  have inner := fun tile : Cursor =>
    forLoop_cursor (fun s d m => memcpy m d ysrcp s 16) (4 * (pitch >>> 2)) (4 * 4) 8 tile
  simp only [] at inner
  simp only [inner]
  have middle := fun row : Cursor =>
    forLoop_cursor (fun s d m => forLoop 8 (fun i m =>
      memcpy m (d + i * (4 * 4)) ysrcp (s + i * (4 * (pitch >>> 2))) 16) m)
      (4 * 4) (8 * (4 * 4)) bxc.toNat row
  simp only [] at middle
  simp only [middle]
  have outer := forLoop_cursor (fun s d m => forLoop bxc.toNat (fun c m =>
      forLoop 8 (fun i m =>
        memcpy m (d + c * (8 * (4 * 4)) + i * (4 * 4)) ysrcp
          (s + c * (4 * 4) + i * (4 * (pitch >>> 2))) 16) m) m)
      (4 * ((pitch >>> 2) * 8 % 2 ^ 32)) (bxc.toNat * (8 * (4 * 4))) byc.toNat
      (Cursor.mk texptr 0 0)
  simp only [] at outer
  rw [outer]
  simp only [linOff, tilOff]
  apply forLoop_congr; intro r _ m
  apply forLoop_congr; intro c _ m
  apply forLoop_congr; intro n _ m
  simp only [Nat.zero_add, Nat.reduceMul]

theorem pitch16 (pitch : Nat) (h : pitch &&& 0xF = 0) :
    16 * (pitch >>> 4) = 4 * (pitch >>> 2) := by
  have e := Nat.and_pow_two_sub_one_eq_mod pitch 4
  norm_num at e
  rw [e] at h
  rw [Nat.shiftRight_eq_div_pow, Nat.shiftRight_eq_div_pow]
  omega

theorem store_load (m t : ByteBuf) (d s : Nat) :
    mm_store_si128 m d (mm_load_si128 t s) = memcpy m d t s 16 := rfl

theorem vst_vld (m t : ByteBuf) (d s : Nat) :
    vst1q_u32 m d (vld1q_u32 t s) = memcpy m d t s 16 := rfl

theorem unswizzle_sse_eq (texptr ydestp : ByteBuf) (bxc byc : Int) (pitch : Nat)
    (h : pitch &&& 0xF = 0) :
    DoUnswizzleTex16_sse texptr ydestp bxc byc pitch
      = DoUnswizzleTex16_scalar texptr ydestp bxc byc pitch := by
  have hQ := pitch16 pitch h
  unfold DoUnswizzleTex16_sse DoUnswizzleTex16_scalar
  simp only [forLoop, store_load, hQ, Nat.add_assoc, Nat.reduceMul, Nat.reduceAdd]

theorem unswizzle_neon_eq (texptr ydestp : ByteBuf) (bxc byc : Int) (pitch : Nat) :
    DoUnswizzleTex16_neon texptr ydestp bxc byc pitch
      = DoUnswizzleTex16_scalar texptr ydestp bxc byc pitch := by
  unfold DoUnswizzleTex16_neon DoUnswizzleTex16_scalar
  simp only [forLoop, vst_vld, Nat.add_assoc, Nat.reduceMul, Nat.reduceAdd]

theorem swizzle_sse_eq (ysrcp texptr : ByteBuf) (bxc byc : Int) (pitch : Nat)
    (h : pitch &&& 0xF = 0) :
    DoSwizzleTex16_sse ysrcp texptr bxc byc pitch
      = DoSwizzleTex16_scalar ysrcp texptr bxc byc pitch := by
  have hQ := pitch16 pitch h
  unfold DoSwizzleTex16_sse DoSwizzleTex16_scalar
  simp only [forLoop, store_load, hQ, Nat.add_assoc, Nat.reduceMul, Nat.reduceAdd]

theorem DoUnswizzleTex16_eq_scalar (build : Build) (addr : Nat) (texptr ydestp : ByteBuf)
    (bxc byc : Int) (pitch : Nat) :
    DoUnswizzleTex16 build addr texptr ydestp bxc byc pitch
      = DoUnswizzleTex16_scalar texptr ydestp bxc byc pitch := by
  unfold DoUnswizzleTex16
  cases build with
  | sse =>
    simp only []
    split
    · rename_i hc
      exact unswizzle_sse_eq _ _ _ _ _ hc.2
    · rfl
  | neon b =>
    simp only []
    split
    · exact unswizzle_neon_eq _ _ _ _ _
    · rfl
  | generic => rfl

theorem DoSwizzleTex16_eq_scalar (build : Build) (addr : Nat) (ysrcp texptr : ByteBuf)
    (bxc byc : Int) (pitch : Nat) :
    DoSwizzleTex16 build addr ysrcp texptr bxc byc pitch
      = DoSwizzleTex16_scalar ysrcp texptr bxc byc pitch := by
  unfold DoSwizzleTex16
  cases build with
  | sse =>
    simp only []
    split
    · rename_i hc
      exact swizzle_sse_eq _ _ _ _ _ hc.2
    · rfl
  | neon b => rfl
  | generic => rfl

/-! ## Reading a grid of copies back -/

theorem memcpy_hit (m t : ByteBuf) (d s k : Nat) (hk : k < 16) :
    memcpy m d t s 16 (d + k) = t (s + k) := by
  unfold memcpy
  rw [if_pos ⟨by omega, by omega⟩]
  congr 1
  omega

theorem memcpy_miss (m t : ByteBuf) (d s o : Nat) (h : o < d ∨ d + 16 ≤ o) :
    memcpy m d t s 16 o = m o := by
  unfold memcpy
  rw [if_neg (by omega)]

theorem memcpy_same (m t : ByteBuf) (d s : Nat) (h : ∀ k, k < 16 → t (s + k) = m (d + k)) :
    memcpy m d t s 16 = m := by
  funext o
  unfold memcpy
  split
  · rename_i hc
    have := h (o - d) (by omega)
    rw [this]
    congr 1
    omega
  · rfl

theorem forLoop_fixed {σ : Type} (n : Nat) (body : Nat → σ → σ) (s : σ)
    (h : ∀ i, i < n → body i s = s) : forLoop n body s = s := by
  induction n with
  | zero => rfl
  | succ n ih =>
    simp only [forLoop]
    rw [ih (fun i hi => h i (Nat.lt_succ_of_lt hi)), h n (Nat.lt_succ_self n)]

theorem forLoop_frame (n : Nat) (body : Nat → ByteBuf → ByteBuf) (m : ByteBuf) (o : Nat)
    (h : ∀ i, i < n → ∀ m, body i m o = m o) : forLoop n body m o = m o := by
  induction n with
  | zero => rfl
  | succ n ih =>
    simp only [forLoop]
    rw [h n (Nat.lt_succ_self n), ih (fun i hi => h i (Nat.lt_succ_of_lt hi))]

theorem forLoop_read (n : Nat) (body : Nat → ByteBuf → ByteBuf) (m : ByteBuf) (o v i0 : Nat)
    (hi : i0 < n) (hset : ∀ m, body i0 m o = v)
    (hkeep : ∀ i, i0 < i → i < n → ∀ m, body i m o = m o) :
    forLoop n body m o = v := by
  induction n with
  | zero => omega
  | succ n ih =>
    simp only [forLoop]
    rcases Nat.lt_succ_iff_lt_or_eq.mp hi with hlt | heq
    · rw [hkeep n hlt (Nat.lt_succ_self n)]
      exact ih hlt (fun i h1 h2 => hkeep i h1 (Nat.lt_succ_of_lt h2))
    · rw [← heq]
      exact hset _

theorem copyGrid_fixed (dst src : ByteBuf) (D S : Nat → Nat → Nat → Nat) (byc bxc : Nat)
    (h : ∀ r c n k, r < byc → c < bxc → n < 8 → k < 16 →
      src (S r c n + k) = dst (D r c n + k)) :
    copyGrid dst src D S byc bxc = dst := by
  unfold copyGrid
  apply forLoop_fixed; intro r hr
  apply forLoop_fixed; intro c hc
  apply forLoop_fixed; intro n hn
  exact memcpy_same _ _ _ _ (fun k hk => h r c n k hr hc hn hk)

theorem copyGrid_read (dst src : ByteBuf) (D S : Nat → Nat → Nat → Nat) (byc bxc : Nat)
    (hd : GridDisjoint D byc bxc) (r c n k : Nat) (hr : r < byc) (hc : c < bxc)
    (hn : n < 8) (hk : k < 16) :
    copyGrid dst src D S byc bxc (D r c n + k) = src (S r c n + k) := by
  unfold copyGrid
  apply forLoop_read _ _ _ _ _ r hr
  · intro m
    apply forLoop_read _ _ _ _ _ c hc
    · intro m
      apply forLoop_read _ _ _ _ _ n hn
      · intro m
        exact memcpy_hit _ _ _ _ _ hk
      · intro n2 h1 h2 m
        apply memcpy_miss
        have := hd r c n r c n2 hr hc hn hr hc h2 (by simp; omega)
        omega
    · intro c2 h1 h2 m
      apply forLoop_frame
      intro n2 hn2 m
      apply memcpy_miss
      have := hd r c n r c2 n2 hr hc hn hr h2 hn2 (by simp; omega)
      omega
  · intro r2 h1 h2 m
    apply forLoop_frame
    intro c2 hc2 m
    apply forLoop_frame
    intro n2 hn2 m
    apply memcpy_miss
    have := hd r c n r2 c2 n2 hr hc hn h2 hc2 hn2 (by simp; omega)
    omega

theorem tilOff_disjoint (byc bxc : Nat) : GridDisjoint (tilOff bxc) byc bxc := by
  intro r c n r2 c2 n2 hr hc hn hr2 hc2 hn2 hne
  unfold tilOff
  have key : ∀ a b : Nat, a < b → a * (bxc * 128) + bxc * 128 ≤ b * (bxc * 128) := by
    intro a b hab
    have := Nat.mul_le_mul_right (bxc * 128) (Nat.succ_le_of_lt hab)
    rw [Nat.succ_mul] at this
    exact this
  rcases Nat.lt_trichotomy r r2 with h | h | h
  · have := key r r2 h
    omega
  · subst h
    have : c ≠ c2 ∨ n ≠ n2 := by
      by_contra hcon
      push_neg at hcon
      apply hne
      rw [hcon.1, hcon.2]
    omega
  · have := key r2 r h
    omega

theorem linOff_disjoint (P byc bxc : Nat) (hP : 16 * bxc ≤ P) :
    GridDisjoint (linOff P (8 * P)) byc bxc := by
  intro r c n r2 c2 n2 hr hc hn hr2 hc2 hn2 hne
  unfold linOff
  have e : ∀ a b : Nat, a * (8 * P) + b * P = (8 * a + b) * P := by
    intro a b; ring
  have key : ∀ a b : Nat, a < b → a * P + P ≤ b * P := by
    intro a b hab
    have := Nat.mul_le_mul_right P (Nat.succ_le_of_lt hab)
    rw [Nat.succ_mul] at this
    exact this
  have e1 := e r n
  have e2 := e r2 n2
  rcases Nat.lt_trichotomy (8 * r + n) (8 * r2 + n2) with h | h | h
  · have := key _ _ h
    omega
  · have hr' : r = r2 := by omega
    have hn' : n = n2 := by omega
    subst hr' hn'
    have : c ≠ c2 := by
      intro hcon
      apply hne
      rw [hcon]
    omega
  · have := key _ _ h
    omega

theorem unswizzle_swizzle_id (build : Build) (addr : Nat) (L T : ByteBuf) (bxc byc : Int)
    (pitch : Nat) :
    DoUnswizzleTex16 build addr (DoSwizzleTex16 build addr L T bxc byc pitch) L bxc byc pitch
      = L := by
  rw [DoUnswizzleTex16_eq_scalar, DoSwizzleTex16_eq_scalar, unswizzle_scalar_eq,
    swizzle_scalar_eq]
  apply copyGrid_fixed
  intro r c n k hr hc hn hk
  exact copyGrid_read _ _ _ _ _ _ (tilOff_disjoint _ _) r c n k hr hc hn hk

theorem tilOff_onto (B N o : Nat) (ho : o < B * N * 128) :
    ∃ r c n k, r < N ∧ c < B ∧ n < 8 ∧ k < 16 ∧ o = tilOff B r c n + k := by
  have hB : 0 < B := by
    rcases Nat.eq_zero_or_pos B with h | h
    · subst h; simp at ho
    · exact h
  refine ⟨o / (B * 128), (o % (B * 128)) / 128, (o % (B * 128)) % 128 / 16, o % 16,
    ?_, ?_, ?_, ?_, ?_⟩
  · apply Nat.div_lt_of_lt_mul
    have : B * 128 * N = B * N * 128 := by ring
    omega
  · have := Nat.mod_lt o (show 0 < B * 128 by omega)
    omega
  · omega
  · omega
  · unfold tilOff
    have h1 := Nat.div_add_mod o (B * 128)
    have h2 : o / (B * 128) * (B * 128) = B * 128 * (o / (B * 128)) := Nat.mul_comm _ _
    have h3 : o / (B * 128) * (B * 128) = 128 * (o / (B * 128) * B) := by ring
    omega

theorem swizzle_unswizzle_scalar (x lin out : ByteBuf) (B N pitch : Nat)
    (h4 : pitch % 4 = 0) (hp : 16 * B ≤ pitch) (hlt : pitch < 2 ^ 31) (o : Nat)
    (ho : o < B * N * 128) :
    DoSwizzleTex16_scalar (DoUnswizzleTex16_scalar x lin B N pitch) out B N pitch o = x o := by
  rw [unswizzle_scalar_eq, swizzle_scalar_eq]
  have eP : 4 * (pitch >>> 2) = pitch := by
    rw [Nat.shiftRight_eq_div_pow]; omega
  have eRS : 4 * ((pitch >>> 2) * 8 % 2 ^ 32) = 8 * pitch := by
    rw [Nat.shiftRight_eq_div_pow]; omega
  rw [eP, eRS]
  simp only [Int.toNat_ofNat]
  obtain ⟨r, c, n, k, hr, hc, hn, hk, rfl⟩ := tilOff_onto B N o ho
  rw [copyGrid_read _ _ _ _ _ _ (tilOff_disjoint _ _) r c n k hr hc hn hk,
    copyGrid_read _ _ _ _ _ _ (linOff_disjoint pitch _ _ hp) r c n k hr hc hn hk]

theorem opaqueBuf_rect (m : Nat) (hm : 0xFFFF &&& m = m) (stride w h : Int) :
    RectAll (fun t => texel16 opaqueBuf t &&& m = m) stride w h := by
  intro y i _ _ _ _
  show texel16 opaqueBuf (y * stride + i) &&& m = m
  have e : texel16 opaqueBuf (y * stride + i) = 0xFFFF := by
    unfold texel16 opaqueBuf
    rcases Int.emod_two_eq_zero_or_one (y * stride + i) with h0 | h1
    · rw [h0]; decide
    · rw [h1]; decide
  rw [e, hm]

/-! ## Bulk decode against random-access decode -/

/-- C1. For every DXT5 block, every `x`, `y` in `0..3` and every pitch of at
least 4 texels, the texel that `DecodeDXT5Block` (height 4) leaves at
`dst[y * pitch + x]` is `GetDXT5Texel(block, x, y)`. -/
theorem DecodeDXT5Block_eq_GetDXT5Texel (dst : TexelBuf) (src : DXT5Block) (pitch : Int)
    (hp : 4 ≤ pitch) (x y : Nat) (hx : x < 4) (hy : y < 4) :
    DecodeDXT5Block dst src pitch 4 (y * pitch + x) = GetDXT5Texel src x y := by
  unfold DecodeDXT5Block GetDXT5Texel
  rw [WriteColorsDXT5_texel _ _ _ _ _ hp _ _ hx hy, colors_getD,
    alpha_getD _ _ _ (and7_lt _)]
  rfl

/-- Witness for C1: texel (1, 2) of a well-formed sample block, pitch 4. -/
theorem DecodeDXT5Block_eq_GetDXT5Texel_witness :
    sampleDXT5.WF ∧ (4 : Int) ≤ 4 ∧ 1 < 4 ∧ 2 < 4 ∧
      DecodeDXT5Block (fun _ => 0) sampleDXT5 4 4 ((2 : Nat) * 4 + (1 : Nat))
        = GetDXT5Texel sampleDXT5 1 2 :=
  ⟨by decide, by decide, by decide, by decide,
    DecodeDXT5Block_eq_GetDXT5Texel (fun _ => 0) sampleDXT5 4 (by decide) 1 2
      (by decide) (by decide)⟩

/-- C2, as stated, fails: with `ignore1bitAlpha = true` the bulk decoder writes
the palette colour with alpha byte 0 while `GetDXT1Texel` returns it with alpha
byte 255 (texel (0, 0) of a white block, pitch 4). -/
theorem DecodeDXT1Block_ignoreAlpha_ne_GetDXT1Texel :
    DecodeDXT1Block (fun _ => 0) whiteBlock 4 4 true ((0 : Nat) * 4 + (0 : Nat)) = 0x00F8FCF8 ∧
      GetDXT1Texel whiteBlock 0 0 = 0xFFF8FCF8 := by
  decide

/-- C2, amended. For every DXT1 block, every `x`, `y` in `0..3` and every pitch
of at least 4 texels: with `ignore1bitAlpha = false` the texel written by
`DecodeDXT1Block` (height 4) at `dst[y * pitch + x]` is `GetDXT1Texel(block, x,
y)`; with `ignore1bitAlpha = true` it is `GetDXTTexelColor(block, x, y, 0)`,
the same colour with alpha byte 0. -/
theorem DecodeDXT1Block_texel (dst : TexelBuf) (src : DXT1Block) (pitch : Int)
    (hp : 4 ≤ pitch) (x y : Nat) (hx : x < 4) (hy : y < 4) :
    DecodeDXT1Block dst src pitch 4 false (y * pitch + x) = GetDXT1Texel src x y ∧
      DecodeDXT1Block dst src pitch 4 true (y * pitch + x) = GetDXTTexelColor src x y 0 := by
  unfold DecodeDXT1Block GetDXT1Texel
  rw [WriteColorsDXT1_texel _ _ _ _ hp _ _ hx hy, WriteColorsDXT1_texel _ _ _ _ hp _ _ hx hy,
    colors_getD, colors_getD]
  exact ⟨rfl, rfl⟩

/-- Witness for amended C2: texel (3, 1) of a well-formed sample block, pitch
6. -/
theorem DecodeDXT1Block_texel_witness :
    sampleDXT1.WF ∧ (4 : Int) ≤ 6 ∧ 3 < 4 ∧ 1 < 4 ∧
      (DecodeDXT1Block (fun _ => 0) sampleDXT1 6 4 false ((1 : Nat) * 6 + (3 : Nat))
          = GetDXT1Texel sampleDXT1 3 1 ∧
        DecodeDXT1Block (fun _ => 0) sampleDXT1 6 4 true ((1 : Nat) * 6 + (3 : Nat))
          = GetDXTTexelColor sampleDXT1 3 1 0) :=
  ⟨by decide, by decide, by decide, by decide,
    DecodeDXT1Block_texel (fun _ => 0) sampleDXT1 6 (by decide) 3 1 (by decide) (by decide)⟩

/-- C3. For every DXT3 block, every `x`, `y` in `0..3` and every pitch of at
least 4 texels, the texel that `DecodeDXT3Block` (height 4) leaves at
`dst[y * pitch + x]` is `GetDXT3Texel(block, x, y)`. -/
theorem DecodeDXT3Block_eq_GetDXT3Texel (dst : TexelBuf) (src : DXT3Block) (pitch : Int)
    (hp : 4 ≤ pitch) (x y : Nat) (hx : x < 4) (hy : y < 4) :
    DecodeDXT3Block dst src pitch 4 (y * pitch + x) = GetDXT3Texel src x y := by
  unfold DecodeDXT3Block GetDXT3Texel
  rw [WriteColorsDXT3_texel _ _ _ _ hp _ _ hx hy, colors_getD]
  simp only [shl28_and, if_true]

/-- Witness for C3: texel (2, 3) of a well-formed sample block, pitch 5. -/
theorem DecodeDXT3Block_eq_GetDXT3Texel_witness :
    sampleDXT3.WF ∧ (4 : Int) ≤ 5 ∧ 2 < 4 ∧ 3 < 4 ∧
      DecodeDXT3Block (fun _ => 0) sampleDXT3 5 4 ((3 : Nat) * 5 + (2 : Nat))
        = GetDXT3Texel sampleDXT3 2 3 :=
  ⟨by decide, by decide, by decide, by decide,
    DecodeDXT3Block_eq_GetDXT3Texel (fun _ => 0) sampleDXT3 5 (by decide) 2 3
      (by decide) (by decide)⟩

/-! ## Palette derivation -/

/-- C4. For every pair of endpoints and either flag value, after
`DecodeColors`: if `color1 > color2`, the R, G, B channels of palette entry 2
are `(2a + b) / 3` and those of entry 3 are `(2b + a) / 3`, `a` and `b` being
the expanded 8-bit channels of `color1` and `color2`; otherwise entry 3 is
`0x00000000` and the channels of entry 2 are `(a + b) / 2`. -/
theorem DecodeColors_blend (src : DXT1Block) (ignore1bitAlpha : Bool) :
    if src.color1 > src.color2 then
      chanR ((DecodeColors src ignore1bitAlpha).getD 2 0)
          = (2 * expandR src.color1 + expandR src.color2) / 3 ∧
      chanG ((DecodeColors src ignore1bitAlpha).getD 2 0)
          = (2 * expandG src.color1 + expandG src.color2) / 3 ∧
      chanB ((DecodeColors src ignore1bitAlpha).getD 2 0)
          = (2 * expandB src.color1 + expandB src.color2) / 3 ∧
      chanR ((DecodeColors src ignore1bitAlpha).getD 3 0)
          = (2 * expandR src.color2 + expandR src.color1) / 3 ∧
      chanG ((DecodeColors src ignore1bitAlpha).getD 3 0)
          = (2 * expandG src.color2 + expandG src.color1) / 3 ∧
      chanB ((DecodeColors src ignore1bitAlpha).getD 3 0)
          = (2 * expandB src.color2 + expandB src.color1) / 3
    else
      (DecodeColors src ignore1bitAlpha).getD 3 0 = 0x00000000 ∧
      chanR ((DecodeColors src ignore1bitAlpha).getD 2 0)
          = (expandR src.color1 + expandR src.color2) / 2 ∧
      chanG ((DecodeColors src ignore1bitAlpha).getD 2 0)
          = (expandG src.color1 + expandG src.color2) / 2 ∧
      chanB ((DecodeColors src ignore1bitAlpha).getD 2 0)
          = (expandB src.color1 + expandB src.color2) / 2 := by
  have hr1 : expandR src.color1 ≤ 0xF8 := Nat.and_le_right
  have hr2 : expandR src.color2 ≤ 0xF8 := Nat.and_le_right
  have hg1 : expandG src.color1 ≤ 0xFC := Nat.and_le_right
  have hg2 : expandG src.color2 ≤ 0xFC := Nat.and_le_right
  have hb1 : expandB src.color1 ≤ 0xF8 := Nat.and_le_right
  have hb2 : expandB src.color2 ≤ 0xF8 := Nat.and_le_right
  have ha : (if ignore1bitAlpha = true then 0 else 255) < 256 := by
    cases ignore1bitAlpha <;> simp
  by_cases hc : src.color1 > src.color2
  · simp only [hc, if_true, DecodeColors, List.getD_cons_succ, List.getD_cons_zero]
    have m1 := chan_makecol (mix_2_3 (expandR src.color1) (expandR src.color2))
      (mix_2_3 (expandG src.color1) (expandG src.color2))
      (mix_2_3 (expandB src.color1) (expandB src.color2)) _
      (by unfold mix_2_3; omega) (by unfold mix_2_3; omega) (by unfold mix_2_3; omega) ha
    have m2 := chan_makecol (mix_2_3 (expandR src.color2) (expandR src.color1))
      (mix_2_3 (expandG src.color2) (expandG src.color1))
      (mix_2_3 (expandB src.color2) (expandB src.color1)) _
      (by unfold mix_2_3; omega) (by unfold mix_2_3; omega) (by unfold mix_2_3; omega) ha
    simp only [expandR, expandG, expandB] at m1 m2 ⊢
    rw [m1.1, m1.2.1, m1.2.2, m2.1, m2.2.1, m2.2.2]
    simp only [mix_2_3]
    refine ⟨?_, ?_, ?_, ?_, ?_, ?_⟩ <;> congr 1 <;> omega
  · simp only [hc, if_false, DecodeColors, List.getD_cons_succ, List.getD_cons_zero]
    have m1 := chan_makecol ((expandR src.color1 + expandR src.color2) / 2)
      ((expandG src.color1 + expandG src.color2) / 2)
      ((expandB src.color1 + expandB src.color2) / 2) _
      (by omega) (by omega) (by omega) ha
    simp only [expandR, expandG, expandB] at m1 ⊢
    rw [m1.1, m1.2.1, m1.2.2]
    refine ⟨by decide, rfl, rfl, rfl⟩

/-! ## Swizzle round trips -/

/-- C5, as stated, fails: with `pitch = 2^31` (a multiple of 4, at least
`16 * bxc`), `bxc = 1` and `byc = 2`, the `u32` product `pitchBy32 * 8` wraps
to 0, both tile rows land on the same linear rows, and byte 0 of the tiled
buffer comes back as 2 instead of 1. -/
theorem swizzle_unswizzle_wraps :
    (2147483648 : Nat) % 4 = 0 ∧ (16 : Int) * 1 ≤ (2147483648 : Nat) ∧
      ((0 : Nat) : Int) < 1 * 2 * 128 ∧
      DoSwizzleTex16 Build.generic 0
        (DoUnswizzleTex16 Build.generic 0 twoTiles (fun _ => 0) 1 2 2147483648)
        (fun _ => 0) 1 2 2147483648 0 = 2 ∧
      twoTiles 0 = 1 := by
  decide

/-- C5, amended. For every `bxc`, `byc >= 0`, every pitch in bytes that is a
multiple of 4 with `16 * bxc <= pitch < 2^31`, and every tiled buffer `x`,
`DoUnswizzleTex16(x, lin, bxc, byc, pitch)` followed by `DoSwizzleTex16(lin,
out, bxc, byc, pitch)` gives `out[o] = x[o]` for every byte offset
`o < bxc * byc * 128`, on every build and for every alignment of `lin`. -/
theorem swizzle_unswizzle_roundtrip (build : Build) (linAddr : Nat) (x lin out : ByteBuf)
    (bxc byc : Int) (pitch : Nat) (hbx : 0 ≤ bxc) (hby : 0 ≤ byc) (h4 : pitch % 4 = 0)
    (hp : 16 * bxc ≤ (pitch : Int)) (hlt : pitch < 2 ^ 31) (o : Nat)
    (ho : (o : Int) < bxc * byc * 128) :
    DoSwizzleTex16 build linAddr (DoUnswizzleTex16 build linAddr x lin bxc byc pitch) out
      bxc byc pitch o = x o := by
  rw [DoUnswizzleTex16_eq_scalar, DoSwizzleTex16_eq_scalar]
  obtain ⟨B, rfl⟩ := Int.eq_ofNat_of_zero_le hbx
  obtain ⟨N, rfl⟩ := Int.eq_ofNat_of_zero_le hby
  exact swizzle_unswizzle_scalar x lin out B N pitch h4 (by omega) hlt o (by exact_mod_cast ho)

/-- Witness for amended C5: two tiles side by side, pitch 32, SSE build with an
aligned linear buffer, byte 200 of the tiled buffer. -/
theorem swizzle_unswizzle_roundtrip_witness :
    (0 : Int) ≤ 2 ∧ (0 : Int) ≤ 1 ∧ 32 % 4 = 0 ∧ (16 : Int) * 2 ≤ (32 : Nat) ∧
      32 < 2 ^ 31 ∧ ((200 : Nat) : Int) < 2 * 1 * 128 ∧
      DoSwizzleTex16 Build.sse 0 (DoUnswizzleTex16 Build.sse 0 twoTiles (fun _ => 0) 2 1 32)
        (fun _ => 0) 2 1 32 200 = twoTiles 200 :=
  ⟨by decide, by decide, by decide, by decide, by decide, by decide,
    swizzle_unswizzle_roundtrip Build.sse 0 twoTiles (fun _ => 0) (fun _ => 0) 2 1 32
      (by decide) (by decide) (by decide) (by decide) (by decide) 200 (by decide)⟩

/-- C10. For every linear buffer `L`, every `bxc`, `byc` and every pitch,
`DoSwizzleTex16(L, T, bxc, byc, pitch)` followed by `DoUnswizzleTex16(T, L,
bxc, byc, pitch)` leaves every byte of `L` as it was, on every build and for
every alignment of `L`; in particular for `bxc`, `byc >= 0` and a pitch that is
a multiple of 4 with `pitch >= 16 * bxc`. -/
theorem unswizzle_swizzle_restores (build : Build) (linAddr : Nat) (L T : ByteBuf)
    (bxc byc : Int) (pitch : Nat) (o : Nat) :
    DoUnswizzleTex16 build linAddr (DoSwizzleTex16 build linAddr L T bxc byc pitch) L
      bxc byc pitch o = L o := by
  rw [unswizzle_swizzle_id]

/-! ## Alpha classification -/

/-- C6. For every `w >= 0`, every `h` and every stride, on every build,
`CheckAlphaRGBA8888Basic` returns `CHECKALPHA_FULL` exactly when every texel
`p[y * stride + i]` with `0 <= i < w`, `0 <= y < h` has top byte `0xFF`, and
`CHECKALPHA_ANY` exactly when some such texel has not. -/
theorem CheckAlphaRGBA8888Basic_full_iff (build : Build) (pixelData : TexelBuf)
    (stride w h : Int) (hw : 0 ≤ w) :
    (CheckAlphaRGBA8888Basic build pixelData stride w h = CHECKALPHA_FULL ↔
        RectAll (fun t => (pixelData t >>> 24) % 256 = 0xFF) stride w h) ∧
      (CheckAlphaRGBA8888Basic build pixelData stride w h = CHECKALPHA_ANY ↔
        ¬ RectAll (fun t => (pixelData t >>> 24) % 256 = 0xFF) stride w h) := by
  have h1 : CheckAlphaRGBA8888Basic build pixelData stride w h = CHECKALPHA_FULL ↔
      RectAll (fun t => (pixelData t >>> 24) % 256 = 0xFF) stride w h := by
    rw [CheckAlphaRGBA8888Basic_mask _ _ _ _ _ hw]
    simp only [RectAll, topByte_iff]
  refine ⟨h1, ?_⟩
  rw [← h1]
  cases CheckAlphaRGBA8888Basic build pixelData stride w h <;> simp

/-- Witness for C6: a 4 by 2 image on the SSE build. -/
theorem CheckAlphaRGBA8888Basic_full_iff_witness :
    (0 : Int) ≤ 4 ∧
      ((CheckAlphaRGBA8888Basic Build.sse opaqueBuf 4 4 2 = CHECKALPHA_FULL ↔
          RectAll (fun t => (opaqueBuf t >>> 24) % 256 = 0xFF) 4 4 2) ∧
        (CheckAlphaRGBA8888Basic Build.sse opaqueBuf 4 4 2 = CHECKALPHA_ANY ↔
          ¬ RectAll (fun t => (opaqueBuf t >>> 24) % 256 = 0xFF) 4 4 2)) :=
  ⟨by decide, CheckAlphaRGBA8888Basic_full_iff Build.sse opaqueBuf 4 4 2 (by decide)⟩

/-- C7, as stated, fails: for `w = 1`, `h = 1`, `stride = 2` the only texel of
the rectangle (texel 0) has every alpha bit set in all four formats, yet each
routine returns `CHECKALPHA_ANY`, because it scans the whole 32-bit word and
texel 1 is transparent. -/
theorem CheckAlpha16_odd_width_any :
    texel16 oddWidthBuf ((0 : Int) * 2 + 0) = 0xFFFF ∧
      CheckAlphaABGR4444Basic Build.sse oddWidthBuf 2 1 1 = CHECKALPHA_ANY ∧
      CheckAlphaABGR1555Basic Build.sse oddWidthBuf 2 1 1 = CHECKALPHA_ANY ∧
      CheckAlphaRGBA4444Basic Build.sse oddWidthBuf 2 1 1 = CHECKALPHA_ANY ∧
      CheckAlphaRGBA5551Basic Build.sse oddWidthBuf 2 1 1 = CHECKALPHA_ANY := by
  decide

/-- C7, amended. For each of the four 16-bit formats, every `w >= 0`, every `h`
and every even stride `>= w`, on every build: if every 16-bit texel at index
`y * stride + i` with `0 <= y < h` and `0 <= i < w'`, where `w'` is `w` rounded
up to an even number, has all of its alpha-mask bits set, the routine returns
`CHECKALPHA_FULL`, whatever the rest of the buffer holds. -/
theorem CheckAlpha16Basic_full_of_all_set (build : Build) (pixelData : TexelBuf)
    (stride w h : Int) (hw : 0 ≤ w) (hs : w ≤ stride) (hs2 : stride % 2 = 0) :
    (RectAll (fun t => texel16 pixelData t &&& 0x000F = 0x000F) stride (2 * ((w + 1) / 2)) h →
        CheckAlphaABGR4444Basic build pixelData stride w h = CHECKALPHA_FULL) ∧
      (RectAll (fun t => texel16 pixelData t &&& 0x0001 = 0x0001) stride
          (2 * ((w + 1) / 2)) h →
        CheckAlphaABGR1555Basic build pixelData stride w h = CHECKALPHA_FULL) ∧
      (RectAll (fun t => texel16 pixelData t &&& 0xF000 = 0xF000) stride
          (2 * ((w + 1) / 2)) h →
        CheckAlphaRGBA4444Basic build pixelData stride w h = CHECKALPHA_FULL) ∧
      (RectAll (fun t => texel16 pixelData t &&& 0x8000 = 0x8000) stride
          (2 * ((w + 1) / 2)) h →
        CheckAlphaRGBA5551Basic build pixelData stride w h = CHECKALPHA_FULL) :=
  ⟨(CheckAlphaABGR4444Basic_full build pixelData stride w h hw (by omega) hs2).mpr,
    (CheckAlphaABGR1555Basic_full build pixelData stride w h hw (by omega) hs2).mpr,
    (CheckAlphaRGBA4444Basic_full build pixelData stride w h hw (by omega) hs2).mpr,
    (CheckAlphaRGBA5551Basic_full build pixelData stride w h hw (by omega) hs2).mpr⟩

/-- Witness for amended C7: a 3 by 2 image with stride 4, all texels opaque. -/
theorem CheckAlpha16Basic_full_of_all_set_witness :
    (0 : Int) ≤ 3 ∧ (3 : Int) ≤ 4 ∧ (4 : Int) % 2 = 0 ∧
      CheckAlphaABGR4444Basic Build.generic opaqueBuf 4 3 2 = CHECKALPHA_FULL ∧
      CheckAlphaABGR1555Basic Build.generic opaqueBuf 4 3 2 = CHECKALPHA_FULL ∧
      CheckAlphaRGBA4444Basic Build.generic opaqueBuf 4 3 2 = CHECKALPHA_FULL ∧
      CheckAlphaRGBA5551Basic Build.generic opaqueBuf 4 3 2 = CHECKALPHA_FULL :=
  ⟨by decide, by decide, by decide,
    (CheckAlpha16Basic_full_of_all_set Build.generic opaqueBuf 4 3 2
      (by decide) (by decide) (by decide)).1 (opaqueBuf_rect _ (by decide) _ _ _),
    (CheckAlpha16Basic_full_of_all_set Build.generic opaqueBuf 4 3 2
      (by decide) (by decide) (by decide)).2.1 (opaqueBuf_rect _ (by decide) _ _ _),
    (CheckAlpha16Basic_full_of_all_set Build.generic opaqueBuf 4 3 2
      (by decide) (by decide) (by decide)).2.2.1 (opaqueBuf_rect _ (by decide) _ _ _),
    (CheckAlpha16Basic_full_of_all_set Build.generic opaqueBuf 4 3 2
      (by decide) (by decide) (by decide)).2.2.2 (opaqueBuf_rect _ (by decide) _ _ _)⟩

/-- C8 at its failing input. For `w = 1`, `h = 2`, `stride = 3` the texel at
index `1 * 3 + 0` has no alpha bit set, yet each of the four routines returns
`CHECKALPHA_FULL`: the row pointer advances by `(stride + 1) / 2 = 2` words,
so row 1 is read from texel 4 instead of texel 3. -/
theorem CheckAlpha16_odd_stride_full :
    texel16 oddStrideBuf ((1 : Int) * 3 + 0) = 0 ∧
      CheckAlphaABGR4444Basic Build.sse oddStrideBuf 3 1 2 = CHECKALPHA_FULL ∧
      CheckAlphaABGR1555Basic Build.sse oddStrideBuf 3 1 2 = CHECKALPHA_FULL ∧
      CheckAlphaRGBA4444Basic Build.sse oddStrideBuf 3 1 2 = CHECKALPHA_FULL ∧
      CheckAlphaRGBA5551Basic Build.sse oddStrideBuf 3 1 2 = CHECKALPHA_FULL := by
  decide

/-- C9. For every buffer, every `h` and every `w`, `stride >= 0` that are
multiples of the vector width (4 texels for RGBA8888, 8 texels for the 16-bit
formats), each `CheckAlpha...SSE2` routine returns the verdict of the scalar
loop of the corresponding `CheckAlpha...Basic` routine (the routine on a build
without SIMD). -/
theorem CheckAlphaSSE2_eq_scalar (pixelData : TexelBuf) (stride w h : Int)
    (hw : 0 ≤ w) (hs : 0 ≤ stride) :
    (w % 4 = 0 → stride % 4 = 0 →
        CheckAlphaRGBA8888SSE2 pixelData stride w h
          = CheckAlphaRGBA8888Basic Build.generic pixelData stride w h) ∧
      (w % 8 = 0 → stride % 8 = 0 →
        CheckAlphaABGR4444SSE2 pixelData stride w h
            = CheckAlphaABGR4444Basic Build.generic pixelData stride w h ∧
          CheckAlphaABGR1555SSE2 pixelData stride w h
            = CheckAlphaABGR1555Basic Build.generic pixelData stride w h ∧
          CheckAlphaRGBA4444SSE2 pixelData stride w h
            = CheckAlphaRGBA4444Basic Build.generic pixelData stride w h ∧
          CheckAlphaRGBA5551SSE2 pixelData stride w h
            = CheckAlphaRGBA5551Basic Build.generic pixelData stride w h) := by
  constructor
  · intro hw4 hs4
    apply result_eq_iff
    rw [CheckAlphaRGBA8888SSE2_full _ _ _ _ hw4 hs4, CheckAlphaRGBA8888Basic_mask _ _ _ _ _ hw]
  · intro hw8 hs8
    exact ⟨sse2_16_eq_scalar 0x000F 0x000F000F (by decide) _ _ _ _ hw hs hw8 hs8,
      sse2_16_eq_scalar 0x0001 0x00010001 (by decide) _ _ _ _ hw hs hw8 hs8,
      sse2_16_eq_scalar 0xF000 0xF000F000 (by decide) _ _ _ _ hw hs hw8 hs8,
      sse2_16_eq_scalar 0x8000 0x80008000 (by decide) _ _ _ _ hw hs hw8 hs8⟩

/-- Witness for C9: a 16 by 2 image with stride 16 in which texel 3 of the
16-bit view is transparent. -/
theorem CheckAlphaSSE2_eq_scalar_witness :
    (0 : Int) ≤ 16 ∧ (0 : Int) ≤ 16 ∧ (16 : Int) % 4 = 0 ∧ (16 : Int) % 8 = 0 ∧
      CheckAlphaRGBA8888SSE2 oddStrideBuf 16 16 2
        = CheckAlphaRGBA8888Basic Build.generic oddStrideBuf 16 16 2 ∧
      CheckAlphaABGR4444SSE2 oddStrideBuf 16 16 2
        = CheckAlphaABGR4444Basic Build.generic oddStrideBuf 16 16 2 :=
  ⟨by decide, by decide, by decide, by decide,
    (CheckAlphaSSE2_eq_scalar oddStrideBuf 16 16 2 (by decide) (by decide)).1
      (by decide) (by decide),
    ((CheckAlphaSSE2_eq_scalar oddStrideBuf 16 16 2 (by decide) (by decide)).2
      (by decide) (by decide)).1⟩

/-! ## Lemmas: alpha ramp and palette ranges -/

theorem lerp8_eq (src : DXT5Block) (k : Nat) (h1 : src.alpha1 < 256) (h2 : src.alpha2 < 256)
    (hk1 : 1 ≤ k) (hk6 : k ≤ 6) :
    lerp8 src k
      = ((src.alpha1 * (7 - k) * 256) / 7 + (src.alpha2 * k * 256) / 7 + 31) / 256 := by
  unfold lerp8
  simp only [Nat.shiftLeft_eq, Nat.shiftRight_eq_div_pow]
  interval_cases k <;>
    simp only [Nat.mul_assoc, Nat.reducePow, Nat.reduceSub, Nat.reduceMul, Nat.one_mul] <;>
    omega

theorem lerp6_eq (src : DXT5Block) (k : Nat) (h1 : src.alpha1 < 256) (h2 : src.alpha2 < 256)
    (hk1 : 1 ≤ k) (hk4 : k ≤ 4) :
    lerp6 src k
      = ((src.alpha1 * (5 - k) * 256) / 5 + (src.alpha2 * k * 256) / 5 + 31) / 256 := by
  unfold lerp6
  simp only [Nat.shiftLeft_eq, Nat.shiftRight_eq_div_pow]
  interval_cases k <;>
    simp only [Nat.mul_assoc, Nat.reducePow, Nat.reduceSub, Nat.reduceMul, Nat.one_mul] <;>
    omega

theorem makecol_zero_lt (r g b : Nat) (hr : r < 256) (hg : g < 256) (hb : b < 256) :
    makecol r g b 0 < 2 ^ 24 := by
  rw [makecol_eq r g b 0 hr hg hb (by omega)]
  omega

theorem DecodeColors_true_lt (src : DXT1Block) (i : Nat) :
    (DecodeColors src true).getD i 0 < 2 ^ 24 := by
  have hr1 : (src.color1 >>> 8) &&& 0xF8 ≤ 0xF8 := Nat.and_le_right
  have hr2 : (src.color2 >>> 8) &&& 0xF8 ≤ 0xF8 := Nat.and_le_right
  have hg1 : (src.color1 >>> 3) &&& 0xFC ≤ 0xFC := Nat.and_le_right
  have hg2 : (src.color2 >>> 3) &&& 0xFC ≤ 0xFC := Nat.and_le_right
  have hb1 : (src.color1 <<< 3) &&& 0xF8 ≤ 0xF8 := Nat.and_le_right
  have hb2 : (src.color2 <<< 3) &&& 0xF8 ≤ 0xF8 := Nat.and_le_right
  unfold DecodeColors
  by_cases hc : src.color1 > src.color2
  · simp only [hc, if_true]
    rcases i with _ | _ | _ | _ | i <;>
      simp only [List.getD_cons_succ, List.getD_cons_zero, List.getD_nil] <;>
      first
      | (apply makecol_zero_lt <;> unfold mix_2_3 <;> omega)
      | (apply makecol_zero_lt <;> omega)
      | omega
  · simp only [hc, if_false]
    rcases i with _ | _ | _ | _ | i <;>
      simp only [List.getD_cons_succ, List.getD_cons_zero, List.getD_nil] <;>
      first
      | (apply makecol_zero_lt <;> omega)
      | omega

theorem chanA_or (c a : Nat) (hc : c < 2 ^ 24) (ha : a < 256) :
    chanA (c ||| ((a <<< 24) % 2 ^ 32)) = a := by
  have h := Nat.mul_add_lt_is_or (i := 24) (b := c) hc a
  have e8 := fun v => Nat.and_pow_two_sub_one_eq_mod v 8
  have e1 : (a <<< 24) % 2 ^ 32 = 2 ^ 24 * a := by
    rw [Nat.shiftLeft_eq]; omega
  norm_num at e8
  unfold chanA
  rw [e8, e1, Nat.or_comm, ← h, Nat.shiftRight_eq_div_pow]
  omega

theorem and_shifted_mask (x k s : Nat) :
    x &&& ((2 ^ k - 1) <<< s) = ((x >>> s) % 2 ^ k) <<< s := by
  apply Nat.eq_of_testBit_eq
  intro i
  simp only [Nat.testBit_and, Nat.testBit_shiftLeft, Nat.testBit_two_pow_sub_one,
    Nat.testBit_mod_two_pow, Nat.testBit_shiftRight]
  by_cases h : i ≥ s
  · have e : s + (i - s) = i := by omega
    rw [e]
    cases x.testBit i <;> simp [h]
  · simp [h]

theorem expandR_eq (c : Nat) : expandR c = ((c >>> 11) &&& 0x1F) <<< 3 := by
  have h := and_shifted_mask (c >>> 8) 5 3
  have e := Nat.and_pow_two_sub_one_eq_mod (c >>> 11) 5
  have e2 : c >>> 8 >>> 3 = c >>> 11 := by rw [← Nat.shiftRight_add]
  rw [e2] at h
  norm_num at h e
  unfold expandR
  rw [e]
  exact h

theorem expandG_eq (c : Nat) : expandG c = ((c >>> 5) &&& 0x3F) <<< 2 := by
  have h := and_shifted_mask (c >>> 3) 6 2
  have e := Nat.and_pow_two_sub_one_eq_mod (c >>> 5) 6
  have e2 : c >>> 3 >>> 2 = c >>> 5 := by rw [← Nat.shiftRight_add]
  rw [e2] at h
  norm_num at h e
  unfold expandG
  rw [e]
  exact h

theorem expandB_eq (c : Nat) : expandB c = (c &&& 0x1F) <<< 3 := by
  have h := and_shifted_mask (c <<< 3) 5 3
  have e := Nat.and_pow_two_sub_one_eq_mod c 5
  have e2 : c <<< 3 >>> 3 = c := by
    rw [Nat.shiftLeft_eq, Nat.shiftRight_eq_div_pow]; omega
  rw [e2] at h
  norm_num at h e
  unfold expandB
  rw [e]
  exact h

/-! ## Lemmas: fingerprint -/

theorem forLoop_inv {σ : Type} (P : Nat → σ → Prop) (n : Nat) (body : Nat → σ → σ) (s : σ)
    (h0 : P 0 s) (hstep : ∀ i, i < n → ∀ t, P i t → P (i + 1) (body i t)) :
    P n (forLoop n body s) := by
  induction n with
  | zero => exact h0
  | succ n ih =>
    simp only [forLoop]
    exact hstep n (Nat.lt_succ_self n) _
      (ih (fun i hi t ht => hstep i (Nat.lt_succ_of_lt hi) t ht))

theorem forLoop_congr_inv {σ : Type} (P : Nat → σ → Prop) (n : Nat) (f g : Nat → σ → σ)
    (s : σ) (h0 : P 0 s)
    (hstep : ∀ i, i < n → ∀ t, P i t → f i t = g i t ∧ P (i + 1) (f i t)) :
    forLoop n f s = forLoop n g s ∧ P n (forLoop n f s) := by
  induction n with
  | zero => exact ⟨rfl, h0⟩
  | succ n ih =>
    simp only [forLoop]
    have h := ih (fun i hi t ht => hstep i (Nat.lt_succ_of_lt hi) t ht)
    have hs := hstep n (Nat.lt_succ_self n) _ h.2
    rw [← h.1]
    exact hs

theorem forLoop_congr2 {σ : Type} (n : Nat) (f g : Nat → σ → σ) (s t : σ)
    (h : ∀ i, i < n → ∀ u, f i u = g i u) (hs : s = t) :
    forLoop n f s = forLoop n g t := by
  rw [hs]
  exact forLoop_congr n f g t h

theorem load32_zero (p : ByteBuf) (size j : Nat) (hz : ∀ o, o < size → p o = 0)
    (hj : 4 * j + 3 < size) : load32 p j = 0 := by
  unfold load32
  rw [hz _ (by omega), hz _ (by omega), hz _ (by omega), hz _ (by omega)]
  decide

theorem load32_agree (p q : ByteBuf) (size j : Nat) (hpq : ∀ o, o < size → p o = q o)
    (hj : 4 * j + 3 < size) : load32 p j = load32 q j := by
  unfold load32
  rw [hpq _ (by omega), hpq _ (by omega), hpq _ (by omega), hpq _ (by omega)]

theorem load16_agree (p q : ByteBuf) (size j : Nat) (hpq : ∀ o, o < size → p o = q o)
    (hj : 2 * j + 1 < size) : load16 p j = load16 q j := by
  unfold load16
  rw [hpq _ (by omega), hpq _ (by omega)]

theorem QuickTexHashBasic_run_agree (p q : ByteBuf) (size : Nat) (h16 : size % 16 = 0)
    (hpq : ∀ o, o < size → p o = q o) :
    QuickTexHashBasic_run p size = QuickTexHashBasic_run q size := by
  unfold QuickTexHashBasic_run
  apply forLoop_congr
  intro k hk st
  have e0 := load32_agree p q size (4 * k + 0) hpq (by omega)
  have e1 := load32_agree p q size (4 * k + 1) hpq (by omega)
  have e2 := load32_agree p q size (4 * k + 2) hpq (by omega)
  have e3 := load32_agree p q size (4 * k + 3) hpq (by omega)
  simp only [e0, e1, e2, e3]

theorem QuickTexHashBasic_run_reads (p : ByteBuf) (size : Nat) (h16 : size % 16 = 0) :
    ∀ j, j ∈ (QuickTexHashBasic_run p size).reads → j < size / 4 := by
  unfold QuickTexHashBasic_run
  apply forLoop_inv (fun _ (st : BasicState) => ∀ j, j ∈ st.reads → j < size / 4)
  · intro j hj
    simp at hj
  · intro k hk st hst j hj
    simp only [List.mem_append, List.mem_cons, List.mem_singleton, List.not_mem_nil,
      or_false] at hj
    rcases hj with hj | hj | hj | hj | hj
    · exact hst j hj
    all_goals omega

theorem QuickTexHashBasic_zero (p : ByteBuf) (size : Nat) (h16 : size % 16 = 0)
    (hz : ∀ o, o < size → p o = 0) : QuickTexHashBasic p size = 0 := by
  unfold QuickTexHashBasic QuickTexHashBasic_run
  apply forLoop_inv (fun _ (st : BasicState) => st.check = 0)
  · rfl
  · intro k hk st hst
    have e0 := load32_zero p size (4 * k + 0) hz (by omega)
    have e1 := load32_zero p size (4 * k + 1) hz (by omega)
    have e2 := load32_zero p size (4 * k + 2) hz (by omega)
    have e3 := load32_zero p size (4 * k + 3) hz (by omega)
    simp only [e0, e1, e2, e3, hst]
    decide

theorem QuickTexHashNonSSE_fallback_zero (p : ByteBuf) (size : Nat)
    (hz : ∀ o, o < size → p o = 0) : QuickTexHashNonSSE_fallback p size = 0 := by
  unfold QuickTexHashNonSSE_fallback
  have h := forLoop_inv (fun i (st : Nat × Nat) => st.1 = 0 ∧ st.2 = 2 * i) (size / 8)
    (fun _ (st : Nat × Nat) =>
      let check := (st.1 + load32 p st.2) % 2 ^ 32
      let check := check ^^^ load32 p (st.2 + 1)
      (check, st.2 + 2)) (0, 0) ⟨rfl, rfl⟩
    (by
      intro i hi st hst
      have e0 := load32_zero p size (2 * i) hz (by omega)
      have e1 := load32_zero p size (2 * i + 1) hz (by omega)
      simp only [hst.1, hst.2, e0, e1]
      exact ⟨by decide, by omega⟩)
  exact h.1

theorem QuickTexHashNonSSE_fallback_agree (p q : ByteBuf) (size : Nat)
    (hpq : ∀ o, o < size → p o = q o) :
    QuickTexHashNonSSE_fallback p size = QuickTexHashNonSSE_fallback q size := by
  unfold QuickTexHashNonSSE_fallback
  have h := forLoop_congr_inv (fun i (st : Nat × Nat) => st.2 = 2 * i) (size / 8)
    (fun _ (st : Nat × Nat) =>
      let check := (st.1 + load32 p st.2) % 2 ^ 32
      let check := check ^^^ load32 p (st.2 + 1)
      (check, st.2 + 2))
    (fun _ (st : Nat × Nat) =>
      let check := (st.1 + load32 q st.2) % 2 ^ 32
      let check := check ^^^ load32 q (st.2 + 1)
      (check, st.2 + 2)) (0, 0) rfl
    (by
      intro i hi st hst
      have e0 := load32_agree p q size (2 * i) hpq (by omega)
      have e1 := load32_agree p q size (2 * i + 1) hpq (by omega)
      simp only [hst, e0, e1]
      exact ⟨trivial, by omega⟩)
  rw [h.1]

theorem QuickTexHashNonSSE_chunk_agree (p q : ByteBuf) (size i : Nat) (st : HashState)
    (hi : 16 * i + 64 ≤ size) (hpq : ∀ o, o < size → p o = q o) :
    QuickTexHashNonSSE_chunk p i st = QuickTexHashNonSSE_chunk q i st := by
  unfold QuickTexHashNonSSE_chunk
  simp only []
  refine congrArg₂ HashState.mk ?_ rfl
  refine forLoop_congr2 8 _ _ _ _ ?_ ?_
  · intro j hj c
    have e := load16_agree p q size (8 * (i + 3) + j) hpq (by omega)
    rw [e]
  refine forLoop_congr2 4 _ _ _ _ ?_ ?_
  · intro j hj c
    have e1 := load32_agree p q size (4 * (i + 1) + j) hpq (by omega)
    have e2 := load32_agree p q size (4 * (i + 2) + j) hpq (by omega)
    rw [e1, e2]
  refine forLoop_congr2 8 _ _ _ _ ?_ rfl
  intro j hj c
  have e := load16_agree p q size (8 * (i + 0) + j) hpq (by omega)
  rw [e]

theorem QuickTexHashNonSSE_chunks_agree (p q : ByteBuf) (size : Nat) (h64 : size % 64 = 0)
    (hpq : ∀ o, o < size → p o = q o) :
    QuickTexHashNonSSE_chunks p size = QuickTexHashNonSSE_chunks q size := by
  unfold QuickTexHashNonSSE_chunks
  apply forLoop_congr
  intro k hk st
  exact QuickTexHashNonSSE_chunk_agree p q size (4 * k) st (by omega) hpq

theorem and_3f (size : Nat) : size &&& 0x3f = size % 64 := by
  have e := Nat.and_pow_two_sub_one_eq_mod size 6
  norm_num at e
  exact e

theorem QuickTexHashNonSSE_agree (addrP addrQ : Nat) (p q : ByteBuf) (size : Nat)
    (ha : addrP &&& 0xf = addrQ &&& 0xf) (hpq : ∀ o, o < size → p o = q o) :
    QuickTexHashNonSSE addrP p size = QuickTexHashNonSSE addrQ q size := by
  unfold QuickTexHashNonSSE
  rw [ha]
  by_cases hc : addrQ &&& 0xf = 0 ∧ size &&& 0x3f = 0
  · rw [if_pos hc, if_pos hc]
    have h64 : size % 64 = 0 := by rw [← and_3f]; exact hc.2
    rw [QuickTexHashNonSSE_chunks_agree p q size h64 hpq]
  · rw [if_neg hc, if_neg hc]
    exact QuickTexHashNonSSE_fallback_agree p q size hpq

theorem x32_setX32_same (v : U16x8) (j x : Nat) (hx : x < 2 ^ 32) :
    x32 (setX32 v j x) j = x := by
  unfold x32 setX32
  rw [if_pos rfl, if_neg (by omega), if_pos rfl]
  omega

theorem x32_setX32_other (v : U16x8) (j i x : Nat) (h : i ≠ j) :
    x32 (setX32 v j x) i = x32 v i := by
  unfold x32 setX32
  rw [if_neg (by omega), if_neg (by omega), if_neg (by omega), if_neg (by omega)]

theorem QuickTexHashNonSSE_fold_eq (st : HashState) :
    QuickTexHashNonSSE_fold st
      = ((x32 st.cursor 0 + x32 st.cursor2 0) % 2 ^ 32
          + (x32 st.cursor 1 + x32 st.cursor2 1) % 2 ^ 32
          + (x32 st.cursor 2 + x32 st.cursor2 2) % 2 ^ 32
          + (x32 st.cursor 3 + x32 st.cursor2 3) % 2 ^ 32) % 2 ^ 32 := by
  have hlt : ∀ a : Nat, a % 2 ^ 32 < 2 ^ 32 := fun a => Nat.mod_lt _ (by decide)
  unfold QuickTexHashNonSSE_fold
  simp only [forLoop]
  simp only [x32_setX32_same _ _ _ (hlt _), x32_setX32_other _ 0 1 _ (by decide),
    x32_setX32_other _ 0 2 _ (by decide), x32_setX32_other _ 0 3 _ (by decide),
    x32_setX32_other _ 1 2 _ (by decide), x32_setX32_other _ 1 3 _ (by decide),
    x32_setX32_other _ 2 3 _ (by decide), x32_setX32_other _ 3 0 _ (by decide),
    x32_setX32_other _ 3 1 _ (by decide), x32_setX32_other _ 3 2 _ (by decide),
    x32_setX32_other _ 2 0 _ (by decide), x32_setX32_other _ 2 1 _ (by decide),
    x32_setX32_other _ 1 0 _ (by decide)]

/-! ## Lemmas: one tile -/

theorem copyGrid_frame (dst src : ByteBuf) (D S : Nat → Nat → Nat → Nat) (byc bxc o : Nat)
    (h : ∀ r c n, r < byc → c < bxc → n < 8 → o < D r c n ∨ D r c n + 16 ≤ o) :
    copyGrid dst src D S byc bxc o = dst o := by
  unfold copyGrid
  apply forLoop_frame; intro r hr m
  apply forLoop_frame; intro c hc m
  apply forLoop_frame; intro n hn m
  exact memcpy_miss _ _ _ _ _ (h r c n hr hc hn)

theorem one_tile_disjoint (P RS : Nat) (hP : 16 ≤ P) : GridDisjoint (linOff P RS) 1 1 := by
  intro r c n r2 c2 n2 hr hc hn hr2 hc2 hn2 hne
  have hr0 : r = 0 := by omega
  have hc0 : c = 0 := by omega
  have hr20 : r2 = 0 := by omega
  have hc20 : c2 = 0 := by omega
  subst hr0 hc0 hr20 hc20
  have hn' : n ≠ n2 := by
    intro hcon
    apply hne
    rw [hcon]
  unfold linOff
  have key : ∀ a b : Nat, a < b → a * P + P ≤ b * P := by
    intro a b hab
    have := Nat.mul_le_mul_right P (Nat.succ_le_of_lt hab)
    rw [Nat.succ_mul] at this
    exact this
  rcases Nat.lt_or_gt_of_ne hn' with h | h
  · have := key _ _ h
    omega
  · have := key _ _ h
    omega

theorem unswizzle_one_tile (build : Build) (addr : Nat) (texptr ydestp : ByteBuf)
    (pitch : Nat) (h4 : pitch % 4 = 0) :
    DoUnswizzleTex16 build addr texptr ydestp 1 1 pitch
      = copyGrid ydestp texptr (linOff pitch (4 * ((pitch >>> 2) * 8 % 2 ^ 32))) (tilOff 1)
          1 1 := by
  rw [DoUnswizzleTex16_eq_scalar, unswizzle_scalar_eq]
  have eP : 4 * (pitch >>> 2) = pitch := by
    rw [Nat.shiftRight_eq_div_pow]; omega
  rw [eP]
  rfl

/-! ## Alpha ramp, sentinel and concrete blocks -/

/-- C11. For every `alpha1`, `alpha2` in `0..255`, `DecodeAlphaDXT5` produces
`ramp[0] = alpha1`, `ramp[1] = alpha2`; if `alpha1 > alpha2` then for
`k = 1..6`, `ramp[k+1] = ((alpha1*(7-k)*256) / 7 + (alpha2*k*256) / 7 + 31) /
256`; otherwise for `k = 1..4`, `ramp[k+1] = ((alpha1*(5-k)*256) / 5 +
(alpha2*k*256) / 5 + 31) / 256`, `ramp[6] = 0` and `ramp[7] = 255`. -/
theorem DecodeAlphaDXT5_ramp (src : DXT5Block) (h1 : src.alpha1 < 256)
    (h2 : src.alpha2 < 256) :
    (DecodeAlphaDXT5 src).getD 0 0 = src.alpha1 ∧
      (DecodeAlphaDXT5 src).getD 1 0 = src.alpha2 ∧
      (if src.alpha1 > src.alpha2 then
        ∀ k, 1 ≤ k → k ≤ 6 →
          (DecodeAlphaDXT5 src).getD (k + 1) 0
            = ((src.alpha1 * (7 - k) * 256) / 7 + (src.alpha2 * k * 256) / 7 + 31) / 256
      else
        (∀ k, 1 ≤ k → k ≤ 4 →
          (DecodeAlphaDXT5 src).getD (k + 1) 0
            = ((src.alpha1 * (5 - k) * 256) / 5 + (src.alpha2 * k * 256) / 5 + 31) / 256) ∧
        (DecodeAlphaDXT5 src).getD 6 0 = 0 ∧ (DecodeAlphaDXT5 src).getD 7 0 = 255) := by
  by_cases hc : src.alpha1 > src.alpha2
  · simp only [DecodeAlphaDXT5, hc, if_true, List.getD_cons_zero, List.getD_cons_succ,
      true_and]
    intro k hk1 hk6
    rw [← lerp8_eq src k h1 h2 hk1 hk6]
    interval_cases k <;> rfl
  · simp only [DecodeAlphaDXT5, hc, if_false, List.getD_cons_zero, List.getD_cons_succ,
      true_and, and_true]
    intro k hk1 hk4
    rw [← lerp6_eq src k h1 h2 hk1 hk4]
    interval_cases k <;> rfl

/-- Witness for C11: the ramp of the sample block (`alpha1 = 200`,
`alpha2 = 50`). -/
theorem DecodeAlphaDXT5_ramp_witness :
    sampleDXT5.alpha1 < 256 ∧ sampleDXT5.alpha2 < 256 ∧
      ((DecodeAlphaDXT5 sampleDXT5).getD 0 0 = sampleDXT5.alpha1 ∧
        (DecodeAlphaDXT5 sampleDXT5).getD 1 0 = sampleDXT5.alpha2 ∧
        (if sampleDXT5.alpha1 > sampleDXT5.alpha2 then
          ∀ k, 1 ≤ k → k ≤ 6 →
            (DecodeAlphaDXT5 sampleDXT5).getD (k + 1) 0
              = ((sampleDXT5.alpha1 * (7 - k) * 256) / 7
                  + (sampleDXT5.alpha2 * k * 256) / 7 + 31) / 256
        else
          (∀ k, 1 ≤ k → k ≤ 4 →
            (DecodeAlphaDXT5 sampleDXT5).getD (k + 1) 0
              = ((sampleDXT5.alpha1 * (5 - k) * 256) / 5
                  + (sampleDXT5.alpha2 * k * 256) / 5 + 31) / 256) ∧
          (DecodeAlphaDXT5 sampleDXT5).getD 6 0 = 0 ∧
          (DecodeAlphaDXT5 sampleDXT5).getD 7 0 = 255)) :=
  ⟨by decide, by decide, DecodeAlphaDXT5_ramp sampleDXT5 (by decide) (by decide)⟩

/-- C12, as stated, fails: with `color1 = color2 = 0` and every colour index 3,
`DecodeDXT1Block` with `ignore1bitAlpha = true` writes `0x00000000`, whose
alpha byte is 0, not 255. -/
theorem DecodeDXT1Block_sentinel_stays_transparent :
    sentinelBlock.color1 ≤ sentinelBlock.color2 ∧
      (sentinelBlock.lines 0 >>> (0 * 2)) &&& 3 = 3 ∧
      DecodeDXT1Block (fun _ => 7) sentinelBlock 4 4 true ((0 : Nat) * 4 + (0 : Nat)) = 0 ∧
      chanA (DecodeDXT1Block (fun _ => 7) sentinelBlock 4 4 true ((0 : Nat) * 4 + (0 : Nat)))
        = 0 := by
  decide

/-- C12, amended. For every DXT1 block with `color1 <= color2`, either value of
`ignore1bitAlpha`, every pitch of at least 4 and every texel `(x, y)` of the
block whose 2-bit colour index is 3, `DecodeDXT1Block` (height 4) writes
`0x00000000`: the alpha byte is 0 and the flag does not change it. -/
theorem DecodeDXT1Block_sentinel (dst : TexelBuf) (src : DXT1Block) (pitch : Int)
    (ignore1bitAlpha : Bool) (hc : src.color1 ≤ src.color2) (hp : 4 ≤ pitch) (x y : Nat)
    (hx : x < 4) (hy : y < 4) (hidx : (src.lines y >>> (x * 2)) &&& 3 = 3) :
    DecodeDXT1Block dst src pitch 4 ignore1bitAlpha (y * pitch + x) = 0x00000000 ∧
      chanA (DecodeDXT1Block dst src pitch 4 ignore1bitAlpha (y * pitch + x)) = 0 := by
  have e : DecodeDXT1Block dst src pitch 4 ignore1bitAlpha (y * pitch + x) = 0 := by
    unfold DecodeDXT1Block
    rw [WriteColorsDXT1_texel _ _ _ _ hp _ _ hx hy, hidx]
    have hc2 : ¬ src.color1 > src.color2 := by omega
    simp only [DecodeColors, hc2, if_false, List.getD_cons_succ, List.getD_cons_zero]
    decide
  rw [e]
  exact ⟨rfl, by decide⟩

/-- Witness for amended C12: texel (2, 1) of the all-sentinel block, pitch 4,
flag set. -/
theorem DecodeDXT1Block_sentinel_witness :
    sentinelBlock.color1 ≤ sentinelBlock.color2 ∧ (4 : Int) ≤ 4 ∧ 2 < 4 ∧ 1 < 4 ∧
      (sentinelBlock.lines 1 >>> (2 * 2)) &&& 3 = 3 ∧
      (DecodeDXT1Block (fun _ => 7) sentinelBlock 4 4 true ((1 : Nat) * 4 + (2 : Nat))
          = 0x00000000 ∧
        chanA (DecodeDXT1Block (fun _ => 7) sentinelBlock 4 4 true
          ((1 : Nat) * 4 + (2 : Nat))) = 0) :=
  ⟨by decide, by decide, by decide, by decide, by decide,
    DecodeDXT1Block_sentinel (fun _ => 7) sentinelBlock 4 true (by decide) (by decide) 2 1
      (by decide) (by decide) (by decide)⟩

/-- C13, as stated, fails: the block with `color1 = color2 = 0xFFFF` and index
bytes 0 decodes texel (0, 0) to `0xFFF8FCF8`, not `0xFFFFFFFF`: red and blue
are `0xF8` and green is `0xFC`. -/
theorem DecodeDXT1Block_white_not_FF :
    DecodeDXT1Block (fun _ => 0) whiteWhiteBlock 4 4 false ((0 : Nat) * 4 + (0 : Nat))
        = 0xFFF8FCF8 ∧
      chanR 0xFFF8FCF8 = 0xF8 ∧ chanG 0xFFF8FCF8 = 0xFC ∧ chanB 0xFFF8FCF8 = 0xF8 ∧
      chanA 0xFFF8FCF8 = 0xFF := by
  decide

/-- C13, amended. A DXT1 block with `color1 = color2 = 0xFFFF` and all four
index bytes 0, decoded by `DecodeDXT1Block` with height 4 and
`ignore1bitAlpha = false`, yields 16 texels equal to `0xFFF8FCF8`: alpha 255,
red = blue = `0xF8` and green = `0xFC`. -/
theorem DecodeDXT1Block_white (dst : TexelBuf) (src : DXT1Block) (pitch : Int)
    (h1 : src.color1 = 0xFFFF) (h2 : src.color2 = 0xFFFF)
    (hl : ∀ y, y < 4 → src.lines y = 0) (hp : 4 ≤ pitch) (x y : Nat)
    (hx : x < 4) (hy : y < 4) :
    DecodeDXT1Block dst src pitch 4 false (y * pitch + x) = 0xFFF8FCF8 := by
  unfold DecodeDXT1Block
  rw [WriteColorsDXT1_texel _ _ _ _ hp _ _ hx hy, hl y hy]
  simp only [DecodeColors, h1, h2]
  interval_cases x <;> decide

/-- Witness for amended C13: texel (3, 2) of the white block, pitch 4. -/
theorem DecodeDXT1Block_white_witness :
    whiteWhiteBlock.color1 = 0xFFFF ∧ whiteWhiteBlock.color2 = 0xFFFF ∧
      (∀ y, y < 4 → whiteWhiteBlock.lines y = 0) ∧ (4 : Int) ≤ 4 ∧ 3 < 4 ∧ 2 < 4 ∧
      DecodeDXT1Block (fun _ => 0) whiteWhiteBlock 4 4 false ((2 : Nat) * 4 + (3 : Nat))
        = 0xFFF8FCF8 :=
  ⟨rfl, rfl, fun _ _ => rfl, by decide, by decide, by decide,
    DecodeDXT1Block_white (fun _ => 0) whiteWhiteBlock 4 rfl rfl (fun _ _ => rfl)
      (by decide) 3 2 (by decide) (by decide)⟩

/-- C14, as stated, fails in its second half: with `alpha1 = 255`,
`alpha2 = 0` and all 48 alpha index bits 1, every alpha index is 7, which
selects the interpolated ramp entry `lerp8(6) = 36`; texel (0, 0) gets alpha
byte 36, not 0. -/
theorem DecodeDXT5Block_all_ones_alpha :
    onesDXT5.alpha1 = 255 ∧ onesDXT5.alpha2 = 0 ∧
      onesDXT5.alphadata1 = 0xFFFF ∧ onesDXT5.alphadata2 = 0xFFFFFFFF ∧
      chanA (DecodeDXT5Block (fun _ => 0) onesDXT5 4 4 ((0 : Nat) * 4 + (0 : Nat))) = 36 := by
  decide

/-- C14, amended. For every DXT5 block with `alpha1 = 255` and `alpha2 = 0`
(any colour payload), `DecodeDXT5Block` with height 4 writes alpha byte 255 in
all 16 texels when all 48 alpha index bits are 0, alpha byte 0 in all 16
texels when every 3-bit alpha index is 1 (index bits `0x249249249249`), and
alpha byte 36 in all 16 texels when all 48 alpha index bits are 1. -/
theorem DecodeDXT5Block_alpha_scenario (dst : TexelBuf) (src : DXT5Block) (pitch : Int)
    (h1 : src.alpha1 = 255) (h2 : src.alpha2 = 0) (hp : 4 ≤ pitch) (x y : Nat)
    (hx : x < 4) (hy : y < 4) :
    (src.alphadata1 % 2 ^ 16 = 0 → src.alphadata2 % 2 ^ 32 = 0 →
        chanA (DecodeDXT5Block dst src pitch 4 (y * pitch + x)) = 255) ∧
      (src.alphadata1 % 2 ^ 16 = 0x2492 → src.alphadata2 % 2 ^ 32 = 0x49249249 →
        chanA (DecodeDXT5Block dst src pitch 4 (y * pitch + x)) = 0) ∧
      (src.alphadata1 % 2 ^ 16 = 0xFFFF → src.alphadata2 % 2 ^ 32 = 0xFFFFFFFF →
        chanA (DecodeDXT5Block dst src pitch 4 (y * pitch + x)) = 36) := by
  have hramp : DecodeAlphaDXT5 src = [255, 0, 218, 182, 145, 109, 72, 36] := by
    simp only [DecodeAlphaDXT5, lerp8, lerp6, h1, h2]
    decide
  unfold DecodeDXT5Block
  rw [WriteColorsDXT5_texel _ _ _ _ _ hp _ _ hx hy, hramp]
  refine ⟨?_, ?_, ?_⟩
  · intro ha hb
    rw [ha, hb]
    interval_cases y <;> interval_cases x <;>
      exact chanA_or _ _ (DecodeColors_true_lt _ _) (by decide)
  · intro ha hb
    rw [ha, hb]
    interval_cases y <;> interval_cases x <;>
      exact chanA_or _ _ (DecodeColors_true_lt _ _) (by decide)
  · intro ha hb
    rw [ha, hb]
    interval_cases y <;> interval_cases x <;>
      exact chanA_or _ _ (DecodeColors_true_lt _ _) (by decide)

/-- Witness for amended C14: texel (1, 3) of the block with all index bits 1,
pitch 4. -/
theorem DecodeDXT5Block_alpha_scenario_witness :
    onesDXT5.alpha1 = 255 ∧ onesDXT5.alpha2 = 0 ∧ (4 : Int) ≤ 4 ∧ 1 < 4 ∧ 3 < 4 ∧
      onesDXT5.alphadata1 % 2 ^ 16 = 0xFFFF ∧ onesDXT5.alphadata2 % 2 ^ 32 = 0xFFFFFFFF ∧
      chanA (DecodeDXT5Block (fun _ => 0) onesDXT5 4 4 ((3 : Nat) * 4 + (1 : Nat))) = 36 :=
  ⟨rfl, rfl, by decide, by decide, by decide, by decide, by decide,
    (DecodeDXT5Block_alpha_scenario (fun _ => 0) onesDXT5 4 rfl rfl (by decide) 1 3
      (by decide) (by decide)).2.2 (by decide) (by decide)⟩

/-! ## Channel expansion -/

/-- C18, as stated, fails: for the endpoint `0xFFFF` palette entry 0 has red
`0xF8`, green `0xFC` and blue `0xF8`, whereas bit replication of the maximal
5-bit and 6-bit values gives 255. -/
theorem DecodeColors_no_bit_replication :
    chanR ((DecodeColors whiteWhiteBlock false).getD 0 0) = 0xF8 ∧
      chanG ((DecodeColors whiteWhiteBlock false).getD 0 0) = 0xFC ∧
      chanB ((DecodeColors whiteWhiteBlock false).getD 0 0) = 0xF8 ∧
      ((0x1F <<< 3) ||| (0x1F >>> 2)) = 255 ∧ ((0x3F <<< 2) ||| (0x3F >>> 4)) = 255 := by
  decide

/-- C18, amended. `DecodeColors` expands each 5:6:5 channel to 8 bits by a left
shift alone: the 5-bit red `v` (bits 11..15) becomes `v << 3`, the 6-bit green
`g` (bits 5..10) becomes `g << 2` and the 5-bit blue `v` (bits 0..4) becomes
`v << 3`, the low bits staying 0, so that a channel is at most `0xF8` (red,
blue) or `0xFC` (green); this holds for both endpoints, which fill palette
entries 0 and 1, and for either flag value. -/
theorem DecodeColors_expand (src : DXT1Block) (ignore1bitAlpha : Bool) :
    (chanR ((DecodeColors src ignore1bitAlpha).getD 0 0)
          = ((src.color1 >>> 11) &&& 0x1F) <<< 3 ∧
        chanG ((DecodeColors src ignore1bitAlpha).getD 0 0)
          = ((src.color1 >>> 5) &&& 0x3F) <<< 2 ∧
        chanB ((DecodeColors src ignore1bitAlpha).getD 0 0)
          = (src.color1 &&& 0x1F) <<< 3) ∧
      (chanR ((DecodeColors src ignore1bitAlpha).getD 1 0)
          = ((src.color2 >>> 11) &&& 0x1F) <<< 3 ∧
        chanG ((DecodeColors src ignore1bitAlpha).getD 1 0)
          = ((src.color2 >>> 5) &&& 0x3F) <<< 2 ∧
        chanB ((DecodeColors src ignore1bitAlpha).getD 1 0)
          = (src.color2 &&& 0x1F) <<< 3) ∧
      (chanR ((DecodeColors src ignore1bitAlpha).getD 0 0) ≤ 0xF8 ∧
        chanG ((DecodeColors src ignore1bitAlpha).getD 0 0) ≤ 0xFC ∧
        chanB ((DecodeColors src ignore1bitAlpha).getD 0 0) ≤ 0xF8) := by
  have hr1 : expandR src.color1 ≤ 0xF8 := Nat.and_le_right
  have hr2 : expandR src.color2 ≤ 0xF8 := Nat.and_le_right
  have hg1 : expandG src.color1 ≤ 0xFC := Nat.and_le_right
  have hg2 : expandG src.color2 ≤ 0xFC := Nat.and_le_right
  have hb1 : expandB src.color1 ≤ 0xF8 := Nat.and_le_right
  have hb2 : expandB src.color2 ≤ 0xF8 := Nat.and_le_right
  have ha : (if ignore1bitAlpha = true then 0 else 255) < 256 := by
    cases ignore1bitAlpha <;> simp
  have m1 := chan_makecol (expandR src.color1) (expandG src.color1) (expandB src.color1) _
    (by omega) (by omega) (by omega) ha
  have m2 := chan_makecol (expandR src.color2) (expandG src.color2) (expandB src.color2) _
    (by omega) (by omega) (by omega) ha
  have e0 : (DecodeColors src ignore1bitAlpha).getD 0 0
      = makecol (expandR src.color1) (expandG src.color1) (expandB src.color1)
          (if ignore1bitAlpha = true then 0 else 255) := by
    unfold DecodeColors expandR expandG expandB
    by_cases hc : src.color1 > src.color2 <;> simp only [hc, if_true, if_false] <;> rfl
  have e1 : (DecodeColors src ignore1bitAlpha).getD 1 0
      = makecol (expandR src.color2) (expandG src.color2) (expandB src.color2)
          (if ignore1bitAlpha = true then 0 else 255) := by
    unfold DecodeColors expandR expandG expandB
    by_cases hc : src.color1 > src.color2 <;> simp only [hc, if_true, if_false] <;> rfl
  rw [e0, e1, m1.1, m1.2.1, m1.2.2, m2.1, m2.2.1, m2.2.2]
  exact ⟨⟨expandR_eq _, expandG_eq _, expandB_eq _⟩,
    ⟨expandR_eq _, expandG_eq _, expandB_eq _⟩, hr1, hg1, hb1⟩

/-! ## Fingerprint -/

/-- C15. On a buffer whose first `size` bytes are zero, `size` being a multiple
of 16 (4096 for instance), `QuickTexHashBasic` returns 0, and so does
`QuickTexHashNonSSE` when the pointer is not 16-byte aligned (its scalar
fallback branch). -/
theorem QuickTexHash_zero_buffer (checkpAddr : Nat) (checkp : ByteBuf) (size : Nat)
    (h16 : size % 16 = 0) (hz : ∀ o, o < size → checkp o = 0)
    (ha : checkpAddr &&& 0xf ≠ 0) :
    QuickTexHashBasic checkp size = 0 ∧ QuickTexHashNonSSE checkpAddr checkp size = 0 := by
  refine ⟨QuickTexHashBasic_zero checkp size h16 hz, ?_⟩
  unfold QuickTexHashNonSSE
  rw [if_neg (fun hc => ha hc.1)]
  exact QuickTexHashNonSSE_fallback_zero checkp size hz

/-- Witness for C15: 4096 zero bytes at an address that is 4 modulo 16. -/
theorem QuickTexHash_zero_buffer_witness :
    4096 % 16 = 0 ∧ (∀ o, o < 4096 → zeroBytes o = 0) ∧ 4 &&& 0xf ≠ 0 ∧
      (QuickTexHashBasic zeroBytes 4096 = 0 ∧ QuickTexHashNonSSE 4 zeroBytes 4096 = 0) :=
  ⟨by decide, fun _ _ => rfl, by decide,
    QuickTexHash_zero_buffer 4 zeroBytes 4096 (by decide) (fun _ _ => rfl) (by decide)⟩

/-- C16. For every size and any two buffers whose pointers have the same
16-byte alignment and which agree on their first `size` bytes,
`QuickTexHashNonSSE` returns the same value on both. -/
theorem QuickTexHashNonSSE_deterministic (addrP addrQ : Nat) (p q : ByteBuf) (size : Nat)
    (ha : addrP &&& 0xf = addrQ &&& 0xf) (hpq : ∀ o, o < size → p o = q o) :
    QuickTexHashNonSSE addrP p size = QuickTexHashNonSSE addrQ q size :=
  QuickTexHashNonSSE_agree addrP addrQ p q size ha hpq

/-- Witness for C16: two aligned buffers that agree on their first 64 bytes
only, hashed on the fast path. -/
theorem QuickTexHashNonSSE_deterministic_witness :
    32 &&& 0xf = 64 &&& 0xf ∧ (∀ o, o < 64 → countingBytes o = countingHead o) ∧
      QuickTexHashNonSSE 32 countingBytes 64 = QuickTexHashNonSSE 64 countingHead 64 :=
  ⟨by decide, by decide,
    QuickTexHashNonSSE_deterministic 32 64 countingBytes countingHead 64 (by decide)
      (by decide)⟩

/-- C17, as stated, fails: for `size = 8`, a multiple of 8, `QuickTexHashBasic`
reads the words 0, 1, 2, 3, of which 2 and 3 lie past the 8 bytes, and its
result changes with byte 8: two buffers that agree on their first 8 bytes hash
to 0 and to 1. -/
theorem QuickTexHashBasic_reads_past_8 :
    8 % 8 = 0 ∧ (QuickTexHashBasic_run zeroBytes 8).reads = [0, 1, 2, 3] ∧ ¬ 3 < 8 / 4 ∧
      (∀ o, o < 8 → zeroBytes o = byte8Set o) ∧
      QuickTexHashBasic zeroBytes 8 = 0 ∧ QuickTexHashBasic byte8Set 8 = 1 := by
  decide

/-- C17, amended. For every size that is a multiple of 16, `QuickTexHashBasic`
reads only 32-bit words at index `< size / 4`, so it never reads past the
`size` bytes it was given, and its result is the same on any two buffers that
agree on those bytes. -/
theorem QuickTexHashBasic_reads_within (checkp : ByteBuf) (size : Nat)
    (h16 : size % 16 = 0) :
    (∀ j, j ∈ (QuickTexHashBasic_run checkp size).reads → j < size / 4) ∧
      ∀ q : ByteBuf, (∀ o, o < size → checkp o = q o) →
        QuickTexHashBasic checkp size = QuickTexHashBasic q size := by
  refine ⟨QuickTexHashBasic_run_reads checkp size h16, ?_⟩
  intro q hq
  unfold QuickTexHashBasic
  rw [QuickTexHashBasic_run_agree checkp q size h16 hq]

/-- Witness for amended C17: 32 bytes of a counting buffer. -/
theorem QuickTexHashBasic_reads_within_witness :
    32 % 16 = 0 ∧
      ((∀ j, j ∈ (QuickTexHashBasic_run countingBytes 32).reads → j < 32 / 4) ∧
        ∀ q : ByteBuf, (∀ o, o < 32 → countingBytes o = q o) →
          QuickTexHashBasic countingBytes 32 = QuickTexHashBasic q 32) :=
  ⟨by decide, QuickTexHashBasic_reads_within countingBytes 32 (by decide)⟩

/-- C19, as stated, fails: on the fast path with `size = 0` the accumulator is
still zero, its horizontal add is 0, and yet the function returns
`0x9535599C`, because the multiplier `cursor2` is added to the accumulator
before the lanes are summed. -/
theorem QuickTexHashNonSSE_empty_nonzero :
    0 &&& 0xf = 0 ∧ 0 &&& 0x3f = 0 ∧
      (x32 (QuickTexHashNonSSE_chunks zeroBytes 0).cursor 0
        + x32 (QuickTexHashNonSSE_chunks zeroBytes 0).cursor 1
        + x32 (QuickTexHashNonSSE_chunks zeroBytes 0).cursor 2
        + x32 (QuickTexHashNonSSE_chunks zeroBytes 0).cursor 3) % 2 ^ 32 = 0 ∧
      QuickTexHashNonSSE 0 zeroBytes 0 = 0x9535599C := by
  decide

/-- C19, amended. On the fast path (16-byte-aligned pointer, size a multiple of
64) the value returned by `QuickTexHashNonSSE` is the horizontal add, modulo
`2^32`, of the four 32-bit lanes of accumulator plus multiplier: `cursor` and
`cursor2` as they stand after the last 64-byte chunk, added lane by lane
modulo `2^32`; in particular an input of size 0 fingerprints to `0x9535599C`,
the horizontal add of the initial multiplier. -/
theorem QuickTexHashNonSSE_fast_value (checkpAddr : Nat) (checkp : ByteBuf) (size : Nat)
    (ha : checkpAddr &&& 0xf = 0) (hs : size &&& 0x3f = 0) :
    QuickTexHashNonSSE checkpAddr checkp size
        = ((x32 (QuickTexHashNonSSE_chunks checkp size).cursor 0
              + x32 (QuickTexHashNonSSE_chunks checkp size).cursor2 0) % 2 ^ 32
          + (x32 (QuickTexHashNonSSE_chunks checkp size).cursor 1
              + x32 (QuickTexHashNonSSE_chunks checkp size).cursor2 1) % 2 ^ 32
          + (x32 (QuickTexHashNonSSE_chunks checkp size).cursor 2
              + x32 (QuickTexHashNonSSE_chunks checkp size).cursor2 2) % 2 ^ 32
          + (x32 (QuickTexHashNonSSE_chunks checkp size).cursor 3
              + x32 (QuickTexHashNonSSE_chunks checkp size).cursor2 3) % 2 ^ 32) % 2 ^ 32 ∧
      (size = 0 → QuickTexHashNonSSE checkpAddr checkp size = 0x9535599C) := by
  have e : QuickTexHashNonSSE checkpAddr checkp size
      = QuickTexHashNonSSE_fold (QuickTexHashNonSSE_chunks checkp size) := by
    unfold QuickTexHashNonSSE
    rw [if_pos ⟨ha, hs⟩]
  refine ⟨by rw [e, QuickTexHashNonSSE_fold_eq], ?_⟩
  intro h0
  rw [e, h0]
  have e2 : QuickTexHashNonSSE_chunks checkp 0 = QuickTexHashNonSSE_chunks zeroBytes 0 := by
    unfold QuickTexHashNonSSE_chunks
    have hn : (0 / 16 + 3) / 4 = 0 := by decide
    simp only [hn, forLoop]
  rw [e2]
  decide

/-- Witness for amended C19: an aligned buffer of size 0. -/
theorem QuickTexHashNonSSE_fast_value_witness :
    16 &&& 0xf = 0 ∧ 0 &&& 0x3f = 0 ∧ QuickTexHashNonSSE 16 countingBytes 0 = 0x9535599C :=
  ⟨by decide, by decide,
    (QuickTexHashNonSSE_fast_value 16 countingBytes 0 (by decide) (by decide)).2 rfl⟩

/-! ## Tile geometry -/

/-- C20, as stated, fails: with `bxc = byc = 1` and pitch 16 the byte at column
4 of row 0 is written (with tiled byte 4) and the last byte written, column 15
of row 7, is tiled byte 127: the tile is 16 bytes wide and 128 bytes of input
are consumed, not 4 and 32. -/
theorem DoUnswizzleTex16_tile_not_4_wide :
    DoUnswizzleTex16 Build.generic 0 countingBytes (fun _ => 0) 1 1 16 (0 * 16 + 4)
        = countingBytes 4 ∧
      DoUnswizzleTex16 Build.generic 0 countingBytes (fun _ => 0) 1 1 16 (7 * 16 + 15)
        = countingBytes 127 ∧
      countingBytes 4 ≠ 0 ∧ countingBytes 127 ≠ 0 := by
  decide

/-- C20, amended. The micro-tile handled by the transcoder is 16 bytes wide and
8 rows high: with `bxc = byc = 1` and a pitch that is a multiple of 4 and at
least 16, `DoUnswizzleTex16` consumes 128 bytes of tiled input and writes
exactly 16 bytes to each of 8 consecutive output rows: byte `k < 16` of row
`n < 8` receives tiled byte `16 n + k`, and every other byte of the output is
left as it was. -/
theorem DoUnswizzleTex16_one_tile (build : Build) (addr : Nat) (texptr ydestp : ByteBuf)
    (pitch : Nat) (h4 : pitch % 4 = 0) (hp : 16 ≤ pitch) :
    (∀ n k, n < 8 → k < 16 →
        DoUnswizzleTex16 build addr texptr ydestp 1 1 pitch (n * pitch + k)
          = texptr (n * 16 + k)) ∧
      (∀ o, (∀ n, n < 8 → o < n * pitch ∨ n * pitch + 16 ≤ o) →
        DoUnswizzleTex16 build addr texptr ydestp 1 1 pitch o = ydestp o) := by
  rw [unswizzle_one_tile build addr texptr ydestp pitch h4]
  constructor
  · intro n k hn hk
    have h := copyGrid_read ydestp texptr
      (linOff pitch (4 * ((pitch >>> 2) * 8 % 2 ^ 32))) (tilOff 1) 1 1
      (one_tile_disjoint pitch _ hp) 0 0 n k (by omega) (by omega) hn hk
    simp only [linOff, tilOff, Nat.zero_mul, Nat.zero_add] at h
    exact h
  · intro o ho
    apply copyGrid_frame
    intro r c n hr hc hn
    have hr0 : r = 0 := by omega
    have hc0 : c = 0 := by omega
    subst hr0 hc0
    simp only [linOff, Nat.zero_mul, Nat.zero_add]
    exact ho n hn

/-- Witness for amended C20: pitch 32 on the SSE build, row 3, byte 9. -/
theorem DoUnswizzleTex16_one_tile_witness :
    32 % 4 = 0 ∧ 16 ≤ 32 ∧ 3 < 8 ∧ 9 < 16 ∧
      DoUnswizzleTex16 Build.sse 0 countingBytes (fun _ => 0) 1 1 32 (3 * 32 + 9)
        = countingBytes (3 * 16 + 9) :=
  ⟨by decide, by decide, by decide, by decide,
    (DoUnswizzleTex16_one_tile Build.sse 0 countingBytes (fun _ => 0) 32 (by decide)
      (by decide)).1 3 9 (by decide) (by decide)⟩

/-! ## Layout law of the detiler -/

theorem unswizzle_layout (tiled lin : ByteBuf) (B N pitch : Nat)
    (h4 : pitch % 4 = 0) (hp : 16 * B ≤ pitch) (hlt : pitch < 2 ^ 31) (r c : Nat)
    (hr : r < 8 * N) (hc : c < 16 * B) :
    DoUnswizzleTex16_scalar tiled lin B N pitch (r * pitch + c)
      = tiled (((r / 8) * B + c / 16) * 128 + (r % 8) * 16 + c % 16) := by
  rw [unswizzle_scalar_eq]
  have eP : 4 * (pitch >>> 2) = pitch := by
    rw [Nat.shiftRight_eq_div_pow]; omega
  have eRS : 4 * ((pitch >>> 2) * 8 % 2 ^ 32) = 8 * pitch := by
    rw [Nat.shiftRight_eq_div_pow]; omega
  rw [eP, eRS]
  simp only [Int.toNat_ofNat]
  have h := copyGrid_read lin tiled (linOff pitch (8 * pitch)) (tilOff B) N B
    (linOff_disjoint pitch N B hp) (r / 8) (c / 16) (r % 8) (c % 16)
    (by omega) (by omega) (by omega) (by omega)
  have e1 : linOff pitch (8 * pitch) (r / 8) (c / 16) (r % 8) + c % 16 = r * pitch + c := by
    unfold linOff
    have hr8 : r = 8 * (r / 8) + r % 8 := by omega
    have : r / 8 * (8 * pitch) + r % 8 * pitch = r * pitch := by
      conv_rhs => rw [hr8]
      ring
    omega
  have e2 : tilOff B (r / 8) (c / 16) (r % 8) + c % 16
      = ((r / 8) * B + c / 16) * 128 + (r % 8) * 16 + c % 16 := by
    unfold tilOff
    ring
  rw [e1, e2] at h
  exact h

/-- C21, as stated, fails: with `pitch = 2^31` (a multiple of 4, at least
`16 * bxc`), `bxc = 1` and `byc = 2`, the `u32` product `pitchBy32 * 8` wraps
to 0, the second tile row is written over the first, and the linear byte at
row 0, column 0 is tiled byte 128 (value 2), not tiled byte 0 (value 1). -/
theorem DoUnswizzleTex16_layout_wraps :
    (0 : Int) ≤ 1 ∧ (0 : Int) ≤ 2 ∧ (2147483648 : Nat) % 4 = 0 ∧
      (16 : Int) * 1 ≤ (2147483648 : Nat) ∧ ((0 : Nat) : Int) < 8 * 2 ∧
      ((0 : Nat) : Int) < 16 * 1 ∧
      DoUnswizzleTex16 Build.generic 0 twoTiles (fun _ => 0) 1 2 2147483648
        (0 * 2147483648 + 0) = 2 ∧
      twoTiles (((0 / 8) * 1 + 0 / 16) * 128 + (0 % 8) * 16 + 0 % 16) = 1 := by
  decide

/-- C21, amended. Layout law of the detiler: for every `bxc`, `byc >= 0` and
every pitch in bytes that is a multiple of 4 with `16 * bxc <= pitch < 2^31`,
after `DoUnswizzleTex16(tiled, lin, bxc, byc, pitch)`, for every row
`r < 8 * byc` and byte column `c < 16 * bxc`, the linear byte at offset
`r * pitch + c` equals the tiled byte at offset
`((r / 8) * bxc + c / 16) * 128 + (r % 8) * 16 + c % 16`, on every build and
for every alignment of the linear buffer. -/
theorem DoUnswizzleTex16_layout (build : Build) (linAddr : Nat) (tiled lin : ByteBuf)
    (bxc byc : Int) (pitch : Nat) (hbx : 0 ≤ bxc) (hby : 0 ≤ byc) (h4 : pitch % 4 = 0)
    (hp : 16 * bxc ≤ (pitch : Int)) (hlt : pitch < 2 ^ 31) (r c : Nat)
    (hr : (r : Int) < 8 * byc) (hc : (c : Int) < 16 * bxc) :
    DoUnswizzleTex16 build linAddr tiled lin bxc byc pitch (r * pitch + c)
      = tiled (((r / 8) * bxc.toNat + c / 16) * 128 + (r % 8) * 16 + c % 16) := by
  rw [DoUnswizzleTex16_eq_scalar]
  obtain ⟨B, rfl⟩ := Int.eq_ofNat_of_zero_le hbx
  obtain ⟨N, rfl⟩ := Int.eq_ofNat_of_zero_le hby
  exact unswizzle_layout tiled lin B N pitch h4 (by omega) hlt r c (by omega) (by omega)

/-- Witness for amended C21: two tiles side by side and two tile rows, pitch 32,
SSE build with an aligned linear buffer, row 9, byte column 21. -/
theorem DoUnswizzleTex16_layout_witness :
    (0 : Int) ≤ 2 ∧ (0 : Int) ≤ 2 ∧ 32 % 4 = 0 ∧ (16 : Int) * 2 ≤ (32 : Nat) ∧
      32 < 2 ^ 31 ∧ ((9 : Nat) : Int) < 8 * 2 ∧ ((21 : Nat) : Int) < 16 * 2 ∧
      DoUnswizzleTex16 Build.sse 0 countingBytes (fun _ => 0) 2 2 32 (9 * 32 + 21)
        = countingBytes (((9 / 8) * (2 : Int).toNat + 21 / 16) * 128 + (9 % 8) * 16 + 21 % 16) :=
  ⟨by decide, by decide, by decide, by decide, by decide, by decide, by decide,
    DoUnswizzleTex16_layout Build.sse 0 countingBytes (fun _ => 0) 2 2 32
      (by decide) (by decide) (by decide) (by decide) (by decide) 9 21 (by decide) (by decide)⟩

/-! ## The 16-bit classifiers on even widths -/

/-- C23. For each of the four 16-bit formats, when `w` and `stride` are both
even and non-negative, for every `h` (in particular `h >= 0`) and on every
build (scalar loop or SIMD routine), `CheckAlpha...Basic` returns
`CHECKALPHA_FULL` if and only if every 16-bit texel at index `y * stride + i`
with `0 <= i < w` and `0 <= y < h` has all of its format's alpha-mask bits set
(`0x000F`, `0x0001`, `0xF000`, `0x8000`). -/
theorem CheckAlpha16Basic_full_iff (build : Build) (pixelData : TexelBuf)
    (stride w h : Int) (hw : 0 ≤ w) (hw2 : w % 2 = 0) (hs0 : 0 ≤ stride)
    (hs2 : stride % 2 = 0) :
    (CheckAlphaABGR4444Basic build pixelData stride w h = CHECKALPHA_FULL ↔
        RectAll (fun t => texel16 pixelData t &&& 0x000F = 0x000F) stride w h) ∧
      (CheckAlphaABGR1555Basic build pixelData stride w h = CHECKALPHA_FULL ↔
        RectAll (fun t => texel16 pixelData t &&& 0x0001 = 0x0001) stride w h) ∧
      (CheckAlphaRGBA4444Basic build pixelData stride w h = CHECKALPHA_FULL ↔
        RectAll (fun t => texel16 pixelData t &&& 0xF000 = 0xF000) stride w h) ∧
      (CheckAlphaRGBA5551Basic build pixelData stride w h = CHECKALPHA_FULL ↔
        RectAll (fun t => texel16 pixelData t &&& 0x8000 = 0x8000) stride w h) := by
  have e : 2 * ((w + 1) / 2) = w := by omega
  have h1 := CheckAlphaABGR4444Basic_full build pixelData stride w h hw hs0 hs2
  have h2 := CheckAlphaABGR1555Basic_full build pixelData stride w h hw hs0 hs2
  have h3 := CheckAlphaRGBA4444Basic_full build pixelData stride w h hw hs0 hs2
  have h4 := CheckAlphaRGBA5551Basic_full build pixelData stride w h hw hs0 hs2
  rw [e] at h1 h2 h3 h4
  exact ⟨h1, h2, h3, h4⟩

/-- Witness for C23: an 8 by 2 image with stride 8 on the SSE build (the SIMD
routine is taken), in which texel 3 is transparent. -/
theorem CheckAlpha16Basic_full_iff_witness :
    (0 : Int) ≤ 8 ∧ (8 : Int) % 2 = 0 ∧ (0 : Int) ≤ 8 ∧ (8 : Int) % 2 = 0 ∧
      ((CheckAlphaABGR4444Basic Build.sse oddStrideBuf 8 8 2 = CHECKALPHA_FULL ↔
          RectAll (fun t => texel16 oddStrideBuf t &&& 0x000F = 0x000F) 8 8 2) ∧
        (CheckAlphaABGR1555Basic Build.sse oddStrideBuf 8 8 2 = CHECKALPHA_FULL ↔
          RectAll (fun t => texel16 oddStrideBuf t &&& 0x0001 = 0x0001) 8 8 2) ∧
        (CheckAlphaRGBA4444Basic Build.sse oddStrideBuf 8 8 2 = CHECKALPHA_FULL ↔
          RectAll (fun t => texel16 oddStrideBuf t &&& 0xF000 = 0xF000) 8 8 2) ∧
        (CheckAlphaRGBA5551Basic Build.sse oddStrideBuf 8 8 2 = CHECKALPHA_FULL ↔
          RectAll (fun t => texel16 oddStrideBuf t &&& 0x8000 = 0x8000) 8 8 2)) :=
  ⟨by decide, by decide, by decide, by decide,
    CheckAlpha16Basic_full_iff Build.sse oddStrideBuf 8 8 2
      (by decide) (by decide) (by decide) (by decide)⟩

/-! ## The SSE2 branch of the transcoder -/

/-- C25. For each of `DoSwizzleTex16` and `DoUnswizzleTex16`, whenever the
pitch is a multiple of 16, the SSE2 branch (16-byte loads and stores, two
groups of four rows per tile) leaves the output buffer with exactly the bytes
the scalar `memcpy` branch leaves, for every input and output buffer and every
`bxc` and `byc`. -/
theorem DoSwizzleTex16_sse_eq_scalar (src dst : ByteBuf) (bxc byc : Int) (pitch : Nat)
    (h16 : pitch % 16 = 0) :
    DoSwizzleTex16_sse src dst bxc byc pitch = DoSwizzleTex16_scalar src dst bxc byc pitch ∧
      DoUnswizzleTex16_sse src dst bxc byc pitch
        = DoUnswizzleTex16_scalar src dst bxc byc pitch := by
  have h : pitch &&& 0xF = 0 := by
    have e := Nat.and_pow_two_sub_one_eq_mod pitch 4
    norm_num at e
    omega
  exact ⟨swizzle_sse_eq src dst bxc byc pitch h, unswizzle_sse_eq src dst bxc byc pitch h⟩

/-- Witness for C25: two tiles side by side and two tile rows at pitch 32; the
byte at offset 77 is shown for each routine. -/
theorem DoSwizzleTex16_sse_eq_scalar_witness :
    32 % 16 = 0 ∧
      DoSwizzleTex16_sse countingBytes (fun _ => 0) 2 2 32 77
        = DoSwizzleTex16_scalar countingBytes (fun _ => 0) 2 2 32 77 ∧
      DoUnswizzleTex16_sse countingBytes (fun _ => 0) 2 2 32 77
        = DoUnswizzleTex16_scalar countingBytes (fun _ => 0) 2 2 32 77 :=
  ⟨by decide,
    congrFun (DoSwizzleTex16_sse_eq_scalar countingBytes (fun _ => 0) 2 2 32 (by decide)).1 77,
    congrFun (DoSwizzleTex16_sse_eq_scalar countingBytes (fun _ => 0) 2 2 32 (by decide)).2 77⟩

/-! ## Per-texel assembly of Variant C -/

theorem lerp8_lt (src : DXT5Block) (n : Nat) : lerp8 src n < 256 := by
  unfold lerp8
  exact Nat.mod_lt _ (by decide)

theorem lerp6_lt (src : DXT5Block) (n : Nat) : lerp6 src n < 256 := by
  unfold lerp6
  exact Nat.mod_lt _ (by decide)

theorem DecodeAlphaDXT5_lt (src : DXT5Block) (h1 : src.alpha1 < 256) (h2 : src.alpha2 < 256)
    (i : Nat) : (DecodeAlphaDXT5 src).getD i 0 < 256 := by
  have a1 := lerp8_lt src 1
  have a2 := lerp8_lt src 2
  have a3 := lerp8_lt src 3
  have a4 := lerp8_lt src 4
  have a5 := lerp8_lt src 5
  have a6 := lerp8_lt src 6
  have b1 := lerp6_lt src 1
  have b2 := lerp6_lt src 2
  have b3 := lerp6_lt src 3
  have b4 := lerp6_lt src 4
  unfold DecodeAlphaDXT5
  by_cases hc : src.alpha1 > src.alpha2
  · simp only [hc, if_true]
    rcases i with _ | _ | _ | _ | _ | _ | _ | _ | i <;>
      simp only [List.getD_cons_succ, List.getD_cons_zero, List.getD_nil] <;> omega
  · simp only [hc, if_false]
    rcases i with _ | _ | _ | _ | _ | _ | _ | _ | i <;>
      simp only [List.getD_cons_succ, List.getD_cons_zero, List.getD_nil] <;> omega

theorem makecol_low24 (r g b : Nat) (hr : r < 256) (hg : g < 256) (hb : b < 256) :
    makecol r g b 255 % 2 ^ 24 = makecol r g b 0 := by
  rw [makecol_eq r g b 255 hr hg hb (by omega), makecol_eq r g b 0 hr hg hb (by omega)]
  omega

theorem DecodeColors_low24 (src : DXT1Block) (i : Nat) :
    (DecodeColors src false).getD i 0 % 2 ^ 24 = (DecodeColors src true).getD i 0 := by
  have hr1 : (src.color1 >>> 8) &&& 0xF8 ≤ 0xF8 := Nat.and_le_right
  have hr2 : (src.color2 >>> 8) &&& 0xF8 ≤ 0xF8 := Nat.and_le_right
  have hg1 : (src.color1 >>> 3) &&& 0xFC ≤ 0xFC := Nat.and_le_right
  have hg2 : (src.color2 >>> 3) &&& 0xFC ≤ 0xFC := Nat.and_le_right
  have hb1 : (src.color1 <<< 3) &&& 0xF8 ≤ 0xF8 := Nat.and_le_right
  have hb2 : (src.color2 <<< 3) &&& 0xF8 ≤ 0xF8 := Nat.and_le_right
  unfold DecodeColors
  by_cases hc : src.color1 > src.color2
  · simp only [hc, if_true, Bool.false_eq_true, if_false]
    rcases i with _ | _ | _ | _ | i <;>
      simp only [List.getD_cons_succ, List.getD_cons_zero, List.getD_nil] <;>
      first
      | (apply makecol_low24 <;> unfold mix_2_3 <;> omega)
      | (apply makecol_low24 <;> omega)
      | rfl
  · simp only [hc, if_true, Bool.false_eq_true, if_false]
    rcases i with _ | _ | _ | _ | i <;>
      simp only [List.getD_cons_succ, List.getD_cons_zero, List.getD_nil] <;>
      first
      | (apply makecol_low24 <;> omega)
      | rfl

theorem low24_or (c a : Nat) (hc : c < 2 ^ 24) :
    (c ||| ((a <<< 24) % 2 ^ 32)) % 2 ^ 24 = c := by
  have e1 : (a <<< 24) % 2 ^ 32 = 2 ^ 24 * (a % 256) := by
    rw [Nat.shiftLeft_eq]; omega
  have h := Nat.mul_add_lt_is_or (i := 24) (b := c) hc (a % 256)
  rw [e1, Nat.or_comm, ← h]
  omega

theorem alphadata_eq (src : DXT5Block) (h1 : src.alphadata1 < 65536)
    (h2 : src.alphadata2 < 2 ^ 32) :
    ((src.alphadata1 % 2 ^ 16) <<< 32) ||| (src.alphadata2 % 2 ^ 32)
      = src.alphadata1 * 2 ^ 32 + src.alphadata2 := by
  have e1 : src.alphadata1 % 2 ^ 16 = src.alphadata1 := Nat.mod_eq_of_lt (by omega)
  have e2 : src.alphadata2 % 2 ^ 32 = src.alphadata2 := Nat.mod_eq_of_lt h2
  have h := Nat.mul_add_lt_is_or (i := 32) (b := src.alphadata2) h2 src.alphadata1
  rw [e1, e2, Nat.shiftLeft_eq, Nat.mul_comm src.alphadata1, ← h]

/-- C22. Per-texel assembly of Variant C: for every DXT5 block (fields within
their widths) and every `x`, `y` in `0..3`, the texel `DecodeDXT5Block` (height
4, pitch at least 4) writes at `(x, y)` has its low 24 bits equal to the low 24
bits (red, green, blue) of palette entry `(lines[y] >> (2 * x)) & 3`, whichever
alpha the palette was decoded with, and its alpha byte equal to
`ramp[(A >> (12 * y + 3 * x)) & 7]`, where `A` is the 48-bit value
`alphadata1 * 2^32 + alphadata2` and `ramp` is the list `DecodeAlphaDXT5`
builds. -/
theorem DecodeDXT5Block_assembly (dst : TexelBuf) (src : DXT5Block) (pitch : Int)
    (hwf : src.WF) (hp : 4 ≤ pitch) (x y : Nat) (hx : x < 4) (hy : y < 4) :
    (∀ flag : Bool, DecodeDXT5Block dst src pitch 4 (y * pitch + x) % 2 ^ 24
        = (DecodeColors src.color flag).getD ((src.color.lines y >>> (2 * x)) &&& 3) 0
            % 2 ^ 24) ∧
      chanA (DecodeDXT5Block dst src pitch 4 (y * pitch + x))
        = (DecodeAlphaDXT5 src).getD
            (((src.alphadata1 * 2 ^ 32 + src.alphadata2) >>> (12 * y + 3 * x)) &&& 7) 0 := by
  obtain ⟨_, had2, had1, ha1, ha2⟩ := hwf
  unfold DecodeDXT5Block
  rw [WriteColorsDXT5_texel _ _ _ _ _ hp _ _ hx hy, alphadata_eq src had1 had2,
    Nat.mul_comm y 12, Nat.mul_comm x 3, Nat.mul_comm x 2]
  constructor
  · intro flag
    rw [low24_or _ _ (DecodeColors_true_lt _ _)]
    cases flag
    · rw [DecodeColors_low24]
    · exact (Nat.mod_eq_of_lt (DecodeColors_true_lt _ _)).symm
  · exact chanA_or _ _ (DecodeColors_true_lt _ _) (DecodeAlphaDXT5_lt src ha1 ha2 _)

/-- Witness for C22: texel (2, 1) of a block with endpoints 200 and 50, at
pitch 4. -/
theorem DecodeDXT5Block_assembly_witness :
    sampleDXT5.WF ∧ (4 : Int) ≤ 4 ∧ 2 < 4 ∧ 1 < 4 ∧
      chanA (DecodeDXT5Block (fun _ => 0) sampleDXT5 4 4 ((1 : Nat) * 4 + (2 : Nat)))
        = (DecodeAlphaDXT5 sampleDXT5).getD
            (((sampleDXT5.alphadata1 * 2 ^ 32 + sampleDXT5.alphadata2)
              >>> (12 * 1 + 3 * 2)) &&& 7) 0 :=
  ⟨by decide, by decide, by decide, by decide,
    (DecodeDXT5Block_assembly (fun _ => 0) sampleDXT5 4 (by decide) (by decide) 2 1
      (by decide) (by decide)).2⟩

/-! ## A decoded Variant-B block under the alpha classifier -/

theorem DecodeDXT3Block_chanA (dst : TexelBuf) (src : DXT3Block) (pitch : Int)
    (hp : 4 ≤ pitch) (x y : Nat) (hx : x < 4) (hy : y < 4) :
    chanA (DecodeDXT3Block dst src pitch 4 (y * pitch + x))
      = 16 * ((src.alphaLines y >>> (4 * x)) &&& 0xF) := by
  have e4 := Nat.and_pow_two_sub_one_eq_mod (src.alphaLines y >>> (4 * x)) 4
  norm_num at e4
  unfold DecodeDXT3Block
  rw [WriteColorsDXT3_texel _ _ _ _ hp _ _ hx hy, Nat.mul_comm x 4, e4]
  have e : ((src.alphaLines y >>> (4 * x)) <<< 28) % 2 ^ 32
      = ((16 * ((src.alphaLines y >>> (4 * x)) % 16)) <<< 24) % 2 ^ 32 := by
    rw [Nat.shiftLeft_eq, Nat.shiftLeft_eq]
    omega
  rw [e]
  exact chanA_or _ _ (DecodeColors_true_lt _ _) (by omega)

/-- C29. A decoded Variant-B block is never classified fully opaque: for every
DXT3 block, the texel `DecodeDXT3Block` (height 4, pitch at least 4) writes at
`(x, y)` has alpha byte `16 * nibble`, with `nibble = (alphaLines[y] >> (4 * x))
& 0xF`, which is at most `0xF0`; and `CheckAlphaRGBA8888Basic` run over the
block decoded at pitch 4 (`w = 4`, `h = 4`, `stride = 4`) returns
`CHECKALPHA_ANY` on every build, whatever the alpha nibbles are. -/
theorem DecodeDXT3Block_never_full (build : Build) (dst : TexelBuf) (src : DXT3Block)
    (pitch : Int) (hp : 4 ≤ pitch) (x y : Nat) (hx : x < 4) (hy : y < 4) :
    chanA (DecodeDXT3Block dst src pitch 4 (y * pitch + x))
        = 16 * ((src.alphaLines y >>> (4 * x)) &&& 0xF) ∧
      16 * ((src.alphaLines y >>> (4 * x)) &&& 0xF) ≤ 0xF0 ∧
      CheckAlphaRGBA8888Basic build (DecodeDXT3Block dst src 4 4) 4 4 4 = CHECKALPHA_ANY := by
  refine ⟨DecodeDXT3Block_chanA dst src pitch hp x y hx hy, ?_, ?_⟩
  · have e4 := Nat.and_pow_two_sub_one_eq_mod (src.alphaLines y >>> (4 * x)) 4
    norm_num at e4
    omega
  · cases hres : CheckAlphaRGBA8888Basic build (DecodeDXT3Block dst src 4 4) 4 4 4 with
    | CHECKALPHA_ANY => rfl
    | CHECKALPHA_FULL =>
      exfalso
      rw [CheckAlphaRGBA8888Basic_mask _ _ _ _ _ (by decide)] at hres
      have h0 := hres 0 0 (by decide) (by decide) (by decide) (by decide)
      have h1 : (DecodeDXT3Block dst src 4 4 ((0 : Int) * 4 + 0) >>> 24) % 256 = 0xFF :=
        (topByte_iff _).mp h0
      have h2 := DecodeDXT3Block_chanA dst src 4 (by decide) 0 0 (by decide) (by decide)
      have e8 := Nat.and_pow_two_sub_one_eq_mod
        (DecodeDXT3Block dst src 4 4 ((0 : Int) * 4 + 0) >>> 24) 8
      norm_num at e8
      have e4 := Nat.and_pow_two_sub_one_eq_mod (src.alphaLines 0 >>> (4 * 0)) 4
      norm_num at e4
      unfold chanA at h2
      norm_num at h1 h2
      omega

/-- Witness for C29: the block whose alpha nibbles are all `0xF`, decoded at
pitch 4 and classified on the SSE build; texel (3, 2). -/
theorem DecodeDXT3Block_never_full_witness :
    (4 : Int) ≤ 4 ∧ 3 < 4 ∧ 2 < 4 ∧
      chanA (DecodeDXT3Block (fun _ => 0) opaqueDXT3 4 4 ((2 : Nat) * 4 + (3 : Nat))) = 0xF0 ∧
      CheckAlphaRGBA8888Basic Build.sse (DecodeDXT3Block (fun _ => 0) opaqueDXT3 4 4) 4 4 4
        = CHECKALPHA_ANY :=
  ⟨by decide, by decide, by decide,
    (DecodeDXT3Block_never_full Build.sse (fun _ => 0) opaqueDXT3 4 (by decide) 3 2
      (by decide) (by decide)).1,
    (DecodeDXT3Block_never_full Build.sse (fun _ => 0) opaqueDXT3 4 (by decide) 3 2
      (by decide) (by decide)).2.2⟩

/-! ## Range and order of the interpolated alphas -/

theorem lerp8_between (src : DXT5Block) (n : Nat) (h1 : src.alpha1 < 256)
    (h2 : src.alpha2 < 256) (hn1 : 1 ≤ n) (hn6 : n ≤ 6) :
    min src.alpha1 src.alpha2 ≤ lerp8 src n ∧ lerp8 src n ≤ max src.alpha1 src.alpha2 := by
  rw [lerp8_eq src n h1 h2 hn1 hn6]
  interval_cases n <;>
    simp only [Nat.mul_assoc, Nat.reducePow, Nat.reduceSub, Nat.reduceMul, Nat.one_mul] <;>
    omega

theorem lerp6_between (src : DXT5Block) (n : Nat) (h1 : src.alpha1 < 256)
    (h2 : src.alpha2 < 256) (hn1 : 1 ≤ n) (hn4 : n ≤ 4) :
    min src.alpha1 src.alpha2 ≤ lerp6 src n ∧ lerp6 src n ≤ max src.alpha1 src.alpha2 := by
  rw [lerp6_eq src n h1 h2 hn1 hn4]
  interval_cases n <;>
    simp only [Nat.mul_assoc, Nat.reducePow, Nat.reduceSub, Nat.reduceMul, Nat.one_mul] <;>
    omega

theorem lerp8_step (src : DXT5Block) (n : Nat) (h1 : src.alpha1 < 256)
    (h2 : src.alpha2 < 256) (hn1 : 1 ≤ n) (hn5 : n ≤ 5) (hc : src.alpha1 > src.alpha2) :
    lerp8 src (n + 1) ≤ lerp8 src n := by
  rw [lerp8_eq src n h1 h2 hn1 (by omega), lerp8_eq src (n + 1) h1 h2 (by omega) (by omega)]
  interval_cases n <;>
    simp only [Nat.mul_assoc, Nat.reducePow, Nat.reduceSub, Nat.reduceMul, Nat.one_mul,
      Nat.reduceAdd] <;>
    omega

theorem lerp6_step (src : DXT5Block) (n : Nat) (h1 : src.alpha1 < 256)
    (h2 : src.alpha2 < 256) (hn1 : 1 ≤ n) (hn3 : n ≤ 3) (hc : src.alpha1 ≤ src.alpha2) :
    lerp6 src n ≤ lerp6 src (n + 1) := by
  by_cases heq : src.alpha1 = src.alpha2
  · have ha := lerp6_between src n h1 h2 hn1 (by omega)
    have hb := lerp6_between src (n + 1) h1 h2 (by omega) (by omega)
    rw [← heq, Nat.min_self, Nat.max_self] at ha hb
    omega
  · rw [lerp6_eq src n h1 h2 hn1 (by omega), lerp6_eq src (n + 1) h1 h2 (by omega) (by omega)]
    apply Nat.div_le_div_right
    interval_cases n <;>
      simp only [Nat.mul_assoc, Nat.reducePow, Nat.reduceSub, Nat.reduceMul, Nat.one_mul,
        Nat.reduceAdd] <;>
      omega

theorem lerp8_precast (src : DXT5Block) (n : Nat) (h1 : src.alpha1 < 256)
    (h2 : src.alpha2 < 256) (hn1 : 1 ≤ n) (hn6 : n ≤ 6) :
    ((src.alpha1 * ((7 - n) <<< 8)) / 7 + (src.alpha2 * (n <<< 8)) / 7 + 31) >>> 8 ≤ 255 := by
  simp only [Nat.shiftLeft_eq, Nat.shiftRight_eq_div_pow]
  interval_cases n <;>
    simp only [Nat.mul_assoc, Nat.reducePow, Nat.reduceSub, Nat.reduceMul, Nat.one_mul] <;>
    omega

theorem lerp6_precast (src : DXT5Block) (n : Nat) (h1 : src.alpha1 < 256)
    (h2 : src.alpha2 < 256) (hn1 : 1 ≤ n) (hn4 : n ≤ 4) :
    ((src.alpha1 * ((5 - n) <<< 8)) / 5 + (src.alpha2 * (n <<< 8)) / 5 + 31) >>> 8 ≤ 255 := by
  simp only [Nat.shiftLeft_eq, Nat.shiftRight_eq_div_pow]
  interval_cases n <;>
    simp only [Nat.mul_assoc, Nat.reducePow, Nat.reduceSub, Nat.reduceMul, Nat.one_mul] <;>
    omega

/-- C27. For every `alpha1`, `alpha2` in `0..255`, every interpolated value
`lerp8(n)` for `n = 1..6` and `lerp6(n)` for `n = 1..4` lies between
`min(alpha1, alpha2)` and `max(alpha1, alpha2)` inclusive; the value
`(alpha1' + alpha2' + 31) >> 8` computed before the `(u8)` cast is at most 255,
so the cast returns it unchanged. -/
theorem lerp_between_endpoints (src : DXT5Block) (h1 : src.alpha1 < 256)
    (h2 : src.alpha2 < 256) :
    (∀ n, 1 ≤ n → n ≤ 6 →
        min src.alpha1 src.alpha2 ≤ lerp8 src n ∧
        lerp8 src n ≤ max src.alpha1 src.alpha2 ∧
        ((src.alpha1 * ((7 - n) <<< 8)) / 7 + (src.alpha2 * (n <<< 8)) / 7 + 31) >>> 8
          ≤ 255 ∧
        lerp8 src n
          = ((src.alpha1 * ((7 - n) <<< 8)) / 7 + (src.alpha2 * (n <<< 8)) / 7 + 31) >>> 8) ∧
      (∀ n, 1 ≤ n → n ≤ 4 →
        min src.alpha1 src.alpha2 ≤ lerp6 src n ∧
        lerp6 src n ≤ max src.alpha1 src.alpha2 ∧
        ((src.alpha1 * ((5 - n) <<< 8)) / 5 + (src.alpha2 * (n <<< 8)) / 5 + 31) >>> 8
          ≤ 255 ∧
        lerp6 src n
          = ((src.alpha1 * ((5 - n) <<< 8)) / 5 + (src.alpha2 * (n <<< 8)) / 5 + 31) >>> 8) := by
  constructor
  · intro n hn1 hn6
    have hb := lerp8_between src n h1 h2 hn1 hn6
    have hp := lerp8_precast src n h1 h2 hn1 hn6
    exact ⟨hb.1, hb.2, hp, Nat.mod_eq_of_lt (Nat.lt_succ_of_le hp)⟩
  · intro n hn1 hn4
    have hb := lerp6_between src n h1 h2 hn1 hn4
    have hp := lerp6_precast src n h1 h2 hn1 hn4
    exact ⟨hb.1, hb.2, hp, Nat.mod_eq_of_lt (Nat.lt_succ_of_le hp)⟩

/-- Witness for C27: endpoints 200 and 50, `lerp8(3)` and `lerp6(2)`. -/
theorem lerp_between_endpoints_witness :
    sampleDXT5.alpha1 < 256 ∧ sampleDXT5.alpha2 < 256 ∧
      (min sampleDXT5.alpha1 sampleDXT5.alpha2 ≤ lerp8 sampleDXT5 3 ∧
        lerp8 sampleDXT5 3 ≤ max sampleDXT5.alpha1 sampleDXT5.alpha2) ∧
      (min sampleDXT5.alpha1 sampleDXT5.alpha2 ≤ lerp6 sampleDXT5 2 ∧
        lerp6 sampleDXT5 2 ≤ max sampleDXT5.alpha1 sampleDXT5.alpha2) :=
  ⟨by decide, by decide,
    ⟨((lerp_between_endpoints sampleDXT5 (by decide) (by decide)).1 3
        (by decide) (by decide)).1,
      ((lerp_between_endpoints sampleDXT5 (by decide) (by decide)).1 3
        (by decide) (by decide)).2.1⟩,
    ⟨((lerp_between_endpoints sampleDXT5 (by decide) (by decide)).2 2
        (by decide) (by decide)).1,
      ((lerp_between_endpoints sampleDXT5 (by decide) (by decide)).2 2
        (by decide) (by decide)).2.1⟩⟩

/-- C28. The DXT5 alpha ramp built by `DecodeAlphaDXT5` (endpoints in `0..255`)
is monotone between its endpoints: if `alpha1 > alpha2` then `ramp[0] >=
ramp[2] >= ramp[3] >= ramp[4] >= ramp[5] >= ramp[6] >= ramp[7] >= ramp[1]`; if
`alpha1 <= alpha2` then `ramp[0] <= ramp[2] <= ramp[3] <= ramp[4] <= ramp[5] <=
ramp[1]`. -/
theorem DecodeAlphaDXT5_monotone (src : DXT5Block) (h1 : src.alpha1 < 256)
    (h2 : src.alpha2 < 256) :
    (src.alpha1 > src.alpha2 →
        (DecodeAlphaDXT5 src).getD 0 0 ≥ (DecodeAlphaDXT5 src).getD 2 0 ∧
        (DecodeAlphaDXT5 src).getD 2 0 ≥ (DecodeAlphaDXT5 src).getD 3 0 ∧
        (DecodeAlphaDXT5 src).getD 3 0 ≥ (DecodeAlphaDXT5 src).getD 4 0 ∧
        (DecodeAlphaDXT5 src).getD 4 0 ≥ (DecodeAlphaDXT5 src).getD 5 0 ∧
        (DecodeAlphaDXT5 src).getD 5 0 ≥ (DecodeAlphaDXT5 src).getD 6 0 ∧
        (DecodeAlphaDXT5 src).getD 6 0 ≥ (DecodeAlphaDXT5 src).getD 7 0 ∧
        (DecodeAlphaDXT5 src).getD 7 0 ≥ (DecodeAlphaDXT5 src).getD 1 0) ∧
      (src.alpha1 ≤ src.alpha2 →
        (DecodeAlphaDXT5 src).getD 0 0 ≤ (DecodeAlphaDXT5 src).getD 2 0 ∧
        (DecodeAlphaDXT5 src).getD 2 0 ≤ (DecodeAlphaDXT5 src).getD 3 0 ∧
        (DecodeAlphaDXT5 src).getD 3 0 ≤ (DecodeAlphaDXT5 src).getD 4 0 ∧
        (DecodeAlphaDXT5 src).getD 4 0 ≤ (DecodeAlphaDXT5 src).getD 5 0 ∧
        (DecodeAlphaDXT5 src).getD 5 0 ≤ (DecodeAlphaDXT5 src).getD 1 0) := by
  constructor
  · intro hc
    have b1 := lerp8_between src 1 h1 h2 (by omega) (by omega)
    have b6 := lerp8_between src 6 h1 h2 (by omega) (by omega)
    have s1 : lerp8 src 2 ≤ lerp8 src 1 :=
      lerp8_step src 1 h1 h2 (by omega) (by omega) hc
    have s2 : lerp8 src 3 ≤ lerp8 src 2 :=
      lerp8_step src 2 h1 h2 (by omega) (by omega) hc
    have s3 : lerp8 src 4 ≤ lerp8 src 3 :=
      lerp8_step src 3 h1 h2 (by omega) (by omega) hc
    have s4 : lerp8 src 5 ≤ lerp8 src 4 :=
      lerp8_step src 4 h1 h2 (by omega) (by omega) hc
    have s5 : lerp8 src 6 ≤ lerp8 src 5 :=
      lerp8_step src 5 h1 h2 (by omega) (by omega) hc
    simp only [DecodeAlphaDXT5, hc, if_true, List.getD_cons_zero, List.getD_cons_succ]
    omega
  · intro hc
    have hc2 : ¬ src.alpha1 > src.alpha2 := by omega
    have b1 := lerp6_between src 1 h1 h2 (by omega) (by omega)
    have b4 := lerp6_between src 4 h1 h2 (by omega) (by omega)
    have s1 : lerp6 src 1 ≤ lerp6 src 2 :=
      lerp6_step src 1 h1 h2 (by omega) (by omega) hc
    have s2 : lerp6 src 2 ≤ lerp6 src 3 :=
      lerp6_step src 2 h1 h2 (by omega) (by omega) hc
    have s3 : lerp6 src 3 ≤ lerp6 src 4 :=
      lerp6_step src 3 h1 h2 (by omega) (by omega) hc
    simp only [DecodeAlphaDXT5, hc2, if_false, List.getD_cons_zero, List.getD_cons_succ]
    omega

/-- Witness for C28: endpoints 200 and 50 (descending ramp). -/
theorem DecodeAlphaDXT5_monotone_witness :
    sampleDXT5.alpha1 < 256 ∧ sampleDXT5.alpha2 < 256 ∧
      sampleDXT5.alpha1 > sampleDXT5.alpha2 ∧
      (DecodeAlphaDXT5 sampleDXT5).getD 0 0 ≥ (DecodeAlphaDXT5 sampleDXT5).getD 2 0 ∧
      (DecodeAlphaDXT5 sampleDXT5).getD 7 0 ≥ (DecodeAlphaDXT5 sampleDXT5).getD 1 0 :=
  ⟨by decide, by decide, by decide,
    ((DecodeAlphaDXT5_monotone sampleDXT5 (by decide) (by decide)).1 (by decide)).1,
    ((DecodeAlphaDXT5_monotone sampleDXT5 (by decide) (by decide)).1
      (by decide)).2.2.2.2.2.2⟩

/-! ## Alpha of a decoded Variant-A block -/

theorem WriteColorsDXT1_row (colors_ : List Nat) (m : TexelBuf) (base : Int) (cd : Nat)
    (o : Int) :
    (forLoop 4 (fun x (s : TexelBuf × Nat) =>
        (s.1.write (base + x) (colors_.getD (s.2 &&& 3) 0), s.2 >>> 2)) (m, cd)).1 o
      = if o = base + 3 then colors_.getD ((cd >>> (3 * 2)) &&& 3) 0
        else if o = base + 2 then colors_.getD ((cd >>> (2 * 2)) &&& 3) 0
        else if o = base + 1 then colors_.getD ((cd >>> (1 * 2)) &&& 3) 0
        else if o = base + 0 then colors_.getD ((cd >>> (0 * 2)) &&& 3) 0
        else m o := by
  simp only [forLoop, TexelBuf.write, ← Nat.shiftRight_add, Nat.shiftRight_zero]
  rfl

theorem WriteColorsDXT1_written (colors_ : List Nat) (dst : TexelBuf) (src : DXT1Block)
    (pitch height : Int) (o : Int) :
    WriteColorsDXT1 colors_ dst src pitch height o = dst o ∨
      ∃ x y : Nat, x < 4 ∧ (y : Int) < height ∧ o = y * pitch + x ∧
        WriteColorsDXT1 colors_ dst src pitch height o
          = colors_.getD ((src.lines y >>> (x * 2)) &&& 3) 0 := by
  have h := forLoop_inv (RowsWritten colors_ dst src pitch) height.toNat
    (fun y (st : TexelBuf × Int) =>
      let colordata := src.lines y
      let inner := forLoop 4 (fun x (s : TexelBuf × Nat) =>
        (s.1.write (st.2 + x) (colors_.getD (s.2 &&& 3) 0), s.2 >>> 2)) (st.1, colordata)
      (inner.1, st.2 + pitch)) (dst, 0)
    ⟨by simp, fun o => Or.inl rfl⟩
    (by
      intro i _ st hst
      obtain ⟨hp, hm⟩ := hst
      refine ⟨?_, ?_⟩
      · show st.2 + pitch = ((i + 1 : Nat) : Int) * pitch
        rw [hp]; push_cast; ring
      · intro o
        show (forLoop 4 (fun x (s : TexelBuf × Nat) =>
            (s.1.write (st.2 + x) (colors_.getD (s.2 &&& 3) 0), s.2 >>> 2))
              (st.1, src.lines i)).1 o = dst o ∨ _
        rw [WriteColorsDXT1_row]
        by_cases h3 : o = st.2 + 3
        · rw [if_pos h3]
          exact Or.inr ⟨3, i, by omega, by omega, by rw [h3, hp]; rfl, rfl⟩
        rw [if_neg h3]
        by_cases h2 : o = st.2 + 2
        · rw [if_pos h2]
          exact Or.inr ⟨2, i, by omega, by omega, by rw [h2, hp]; rfl, rfl⟩
        rw [if_neg h2]
        by_cases h1 : o = st.2 + 1
        · rw [if_pos h1]
          exact Or.inr ⟨1, i, by omega, by omega, by rw [h1, hp]; rfl, rfl⟩
        rw [if_neg h1]
        by_cases h0 : o = st.2 + 0
        · rw [if_pos h0]
          exact Or.inr ⟨0, i, by omega, by omega, by rw [h0, hp]; rfl, rfl⟩
        rw [if_neg h0]
        rcases hm o with h | ⟨x, y, hx, hy, ho, hv⟩
        · exact Or.inl h
        · exact Or.inr ⟨x, y, hx, by omega, ho, hv⟩)
  rcases h.2 o with h | ⟨x, y, hx, hy, ho, hv⟩
  · exact Or.inl h
  · exact Or.inr ⟨x, y, hx, by omega, ho, hv⟩

theorem WriteColorsDXT1_texel_of_height (colors_ : List Nat) (dst : TexelBuf)
    (src : DXT1Block) (pitch height : Int) (hp : 4 ≤ pitch) (x y : Nat) (hx : x < 4)
    (hy : (y : Int) < height) :
    WriteColorsDXT1 colors_ dst src pitch height (y * pitch + x)
      = colors_.getD ((src.lines y >>> (x * 2)) &&& 3) 0 := by
  have h := forLoop_inv (RowsExact colors_ src pitch) height.toNat
    (fun y (st : TexelBuf × Int) =>
      let colordata := src.lines y
      let inner := forLoop 4 (fun x (s : TexelBuf × Nat) =>
        (s.1.write (st.2 + x) (colors_.getD (s.2 &&& 3) 0), s.2 >>> 2)) (st.1, colordata)
      (inner.1, st.2 + pitch)) (dst, 0)
    ⟨by simp, fun x y _ hy => absurd hy (Nat.not_lt_zero y)⟩
    (by
      intro i _ st hst
      obtain ⟨hq, hm⟩ := hst
      refine ⟨?_, ?_⟩
      · show st.2 + pitch = ((i + 1 : Nat) : Int) * pitch
        rw [hq]; push_cast; ring
      · intro x y hx hy
        show (forLoop 4 (fun x (s : TexelBuf × Nat) =>
            (s.1.write (st.2 + x) (colors_.getD (s.2 &&& 3) 0), s.2 >>> 2))
              (st.1, src.lines i)).1 (y * pitch + x) = _
        rw [WriteColorsDXT1_row, hq]
        by_cases hyi : y = i
        · subst hyi
          interval_cases x
          · rw [if_neg (by omega), if_neg (by omega), if_neg (by omega), if_pos (by omega)]
          · rw [if_neg (by omega), if_neg (by omega), if_pos (by omega)]
          · rw [if_neg (by omega), if_pos (by omega)]
          · rw [if_pos (by omega)]
        · have hlt : y < i := by omega
          have key : ((y : Int) + 1) * pitch ≤ (i : Int) * pitch :=
            mul_le_mul_of_nonneg_right (by omega) (by omega)
          have key2 : ((y : Int) + 1) * pitch = y * pitch + pitch := by ring
          rw [if_neg (by omega), if_neg (by omega), if_neg (by omega), if_neg (by omega)]
          exact hm x y hx hlt)
  exact h.2 x y hx (by omega)

theorem chanA_lt (c : Nat) (hc : c < 2 ^ 24) : chanA c = 0 := by
  unfold chanA
  rw [Nat.shiftRight_eq_div_pow, Nat.div_eq_of_lt hc]
  rfl

theorem chanA_makecol (r g b : Nat) (hr : r < 256) (hg : g < 256) (hb : b < 256) :
    chanA (makecol r g b 255) = 255 := by
  have e8 := fun c => Nat.and_pow_two_sub_one_eq_mod c 8
  norm_num at e8
  unfold chanA
  rw [makecol_eq r g b 255 hr hg hb (by omega), e8, Nat.shiftRight_eq_div_pow]
  omega

theorem DecodeColors_false_alpha (src : DXT1Block) (i : Nat) (hi : i < 4) :
    if i = 3 ∧ src.color1 ≤ src.color2 then (DecodeColors src false).getD i 0 = 0
    else chanA ((DecodeColors src false).getD i 0) = 255 := by
  have hr1 : (src.color1 >>> 8) &&& 0xF8 ≤ 0xF8 := Nat.and_le_right
  have hr2 : (src.color2 >>> 8) &&& 0xF8 ≤ 0xF8 := Nat.and_le_right
  have hg1 : (src.color1 >>> 3) &&& 0xFC ≤ 0xFC := Nat.and_le_right
  have hg2 : (src.color2 >>> 3) &&& 0xFC ≤ 0xFC := Nat.and_le_right
  have hb1 : (src.color1 <<< 3) &&& 0xF8 ≤ 0xF8 := Nat.and_le_right
  have hb2 : (src.color2 <<< 3) &&& 0xF8 ≤ 0xF8 := Nat.and_le_right
  unfold DecodeColors
  by_cases hc : src.color1 > src.color2
  · have hn : ¬ (i = 3 ∧ src.color1 ≤ src.color2) := by omega
    rw [if_neg hn]
    simp only [hc, if_true, Bool.false_eq_true, if_false]
    interval_cases i <;>
      simp only [List.getD_cons_succ, List.getD_cons_zero] <;>
      first
      | (apply chanA_makecol <;> unfold mix_2_3 <;> omega)
      | (apply chanA_makecol <;> omega)
  · simp only [hc, if_false, Bool.false_eq_true]
    interval_cases i
    · rw [if_neg (by omega)]
      simp only [List.getD_cons_zero]
      apply chanA_makecol <;> omega
    · rw [if_neg (by omega)]
      simp only [List.getD_cons_succ, List.getD_cons_zero]
      apply chanA_makecol <;> omega
    · rw [if_neg (by omega)]
      simp only [List.getD_cons_succ, List.getD_cons_zero]
      apply chanA_makecol <;> omega
    · rw [if_pos ⟨rfl, by omega⟩]
      simp only [List.getD_cons_succ, List.getD_cons_zero]
      rfl

/-- C24. Alpha produced by `DecodeDXT1Block`, for every block, every pitch and
every height (in particular every height `<= 4`). With a pitch of at least 4
(rows that do not overlap), the texel written at `(x, y)`, `x < 4`,
`y < height`, has alpha byte 0 when `ignore1bitAlpha` is true; when it is false
the texel has alpha byte 255, except that a texel with colour index 3 in a
block with `color1 <= color2` is exactly `0x00000000`. For an arbitrary pitch,
every texel of the buffer afterwards either holds what it held before or holds
a value written for some `(x, y)` with that same alpha. -/
theorem DecodeDXT1Block_alpha (dst : TexelBuf) (src : DXT1Block) (pitch height : Int) :
    (4 ≤ pitch → ∀ x y : Nat, x < 4 → (y : Int) < height →
        chanA (DecodeDXT1Block dst src pitch height true (y * pitch + x)) = 0 ∧
        (if (src.lines y >>> (2 * x)) &&& 3 = 3 ∧ src.color1 ≤ src.color2 then
          DecodeDXT1Block dst src pitch height false (y * pitch + x) = 0
        else chanA (DecodeDXT1Block dst src pitch height false (y * pitch + x)) = 255)) ∧
      (∀ o : Int,
        (DecodeDXT1Block dst src pitch height true o = dst o ∨
          chanA (DecodeDXT1Block dst src pitch height true o) = 0) ∧
        (DecodeDXT1Block dst src pitch height false o = dst o ∨
          ∃ x y : Nat, x < 4 ∧ (y : Int) < height ∧ o = y * pitch + x ∧
            (if (src.lines y >>> (2 * x)) &&& 3 = 3 ∧ src.color1 ≤ src.color2 then
              DecodeDXT1Block dst src pitch height false o = 0
            else chanA (DecodeDXT1Block dst src pitch height false o) = 255))) := by
  unfold DecodeDXT1Block
  constructor
  · intro hp x y hx hy
    rw [WriteColorsDXT1_texel_of_height _ _ _ _ _ hp x y hx hy,
      WriteColorsDXT1_texel_of_height _ _ _ _ _ hp x y hx hy, Nat.mul_comm x 2]
    exact ⟨chanA_lt _ (DecodeColors_true_lt _ _),
      DecodeColors_false_alpha src _ (and3_lt _)⟩
  · intro o
    constructor
    · rcases WriteColorsDXT1_written (DecodeColors src true) dst src pitch height o with
        h | ⟨x, y, _, _, _, hv⟩
      · exact Or.inl h
      · right
        rw [hv]
        exact chanA_lt _ (DecodeColors_true_lt _ _)
    · rcases WriteColorsDXT1_written (DecodeColors src false) dst src pitch height o with
        h | ⟨x, y, hx, hy, ho, hv⟩
      · exact Or.inl h
      · refine Or.inr ⟨x, y, hx, hy, ho, ?_⟩
        rw [hv, Nat.mul_comm 2 x]
        exact DecodeColors_false_alpha src _ (and3_lt _)

/-- Witness for C24: texel (1, 2) of the block with both endpoints black and
every colour index 3, decoded at pitch 4 and height 3. -/
theorem DecodeDXT1Block_alpha_witness :
    (4 : Int) ≤ 4 ∧ 1 < 4 ∧ ((2 : Nat) : Int) < 3 ∧
      chanA (DecodeDXT1Block (fun _ => 7) sentinelBlock 4 3 true ((2 : Nat) * 4 + (1 : Nat)))
        = 0 ∧
      (if (sentinelBlock.lines 2 >>> (2 * 1)) &&& 3 = 3
          ∧ sentinelBlock.color1 ≤ sentinelBlock.color2 then
        DecodeDXT1Block (fun _ => 7) sentinelBlock 4 3 false ((2 : Nat) * 4 + (1 : Nat)) = 0
      else
        chanA (DecodeDXT1Block (fun _ => 7) sentinelBlock 4 3 false
          ((2 : Nat) * 4 + (1 : Nat))) = 255) :=
  ⟨by decide, by decide, by decide,
    (DecodeDXT1Block_alpha (fun _ => 7) sentinelBlock 4 3).1 (by decide) 1 2
      (by decide) (by decide)⟩

/-! ## The two fingerprints agree -/

theorem forLoop_rel {σ τ : Type} (R : σ → τ → Prop) (n : Nat) (f : Nat → σ → σ)
    (g : Nat → τ → τ) (s : σ) (t : τ) (h0 : R s t)
    (hstep : ∀ i, i < n → ∀ u v, R u v → R (f i u) (g i v)) :
    R (forLoop n f s) (forLoop n g t) := by
  induction n with
  | zero => exact h0
  | succ n ih =>
    simp only [forLoop]
    exact hstep n (Nat.lt_succ_self n) _ _
      (ih (fun i hi u v huv => hstep i (Nat.lt_succ_of_lt hi) u v huv))

theorem forLoop_setX16 (g : Nat → Nat → Nat) (n : Nat) (c : U16x8) (l : Nat) :
    forLoop n (fun j c => setX16 c j (g j (c j))) c l = if l < n then g l (c l) else c l := by
  induction n generalizing l with
  | zero => simp [forLoop]
  | succ n ih =>
    simp only [forLoop, setX16]
    by_cases h : l = n
    · subst h
      rw [if_pos rfl, if_pos (Nat.lt_succ_self l), ih, if_neg (Nat.lt_irrefl l)]
    · rw [if_neg h, ih]
      by_cases h2 : l < n
      · rw [if_pos h2, if_pos (show l < n + 1 by omega)]
      · rw [if_neg h2, if_neg (show ¬ l < n + 1 by omega)]

theorem x32_congr (a b : U16x8) (j : Nat) (h0 : a (2 * j) = b (2 * j))
    (h1 : a (2 * j + 1) = b (2 * j + 1)) : x32 a j = x32 b j := by
  unfold x32
  rw [h0, h1]

theorem forLoop_setX32 (G : Nat → Nat → Nat) (n : Nat) (c : U16x8) (l : Nat) :
    forLoop n (fun j c => setX32 c j (G j (x32 c j))) c l
      = if l < 2 * n then
          (if l % 2 = 0 then G (l / 2) (x32 c (l / 2)) % 2 ^ 16
            else (G (l / 2) (x32 c (l / 2)) / 2 ^ 16) % 2 ^ 16)
        else c l := by
  induction n generalizing l with
  | zero => simp [forLoop]
  | succ n ih =>
    simp only [forLoop, setX32]
    have hx : x32 (forLoop n (fun j c => setX32 c j (G j (x32 c j))) c) n = x32 c n := by
      apply x32_congr
      · rw [ih, if_neg (show ¬ 2 * n < 2 * n by omega)]
      · rw [ih, if_neg (show ¬ 2 * n + 1 < 2 * n by omega)]
    by_cases h : l = 2 * n
    · subst h
      have e1 : 2 * n % 2 = 0 := by omega
      have e2 : 2 * n / 2 = n := by omega
      rw [if_pos rfl, if_pos (show 2 * n < 2 * (n + 1) by omega), if_pos e1, e2, hx]
    · rw [if_neg h]
      by_cases h1 : l = 2 * n + 1
      · subst h1
        have e1 : ¬ (2 * n + 1) % 2 = 0 := by omega
        have e2 : (2 * n + 1) / 2 = n := by omega
        rw [if_pos rfl, if_pos (show 2 * n + 1 < 2 * (n + 1) by omega), if_neg e1, e2, hx]
      · rw [if_neg h1, ih]
        by_cases h2 : l < 2 * n
        · rw [if_pos h2, if_pos (show l < 2 * (n + 1) by omega)]
        · rw [if_neg h2, if_neg (show ¬ l < 2 * (n + 1) by omega)]

theorem setX32_twice (c : U16x8) (j a b : Nat) :
    setX32 (setX32 c j a) j b = setX32 c j b := by
  funext l
  unfold setX32
  by_cases h : l = 2 * j <;> by_cases h1 : l = 2 * j + 1 <;> simp [h, h1]

theorem x32_setX32_mod (v : U16x8) (j x : Nat) :
    x32 (setX32 v j x) j = x % 2 ^ 32 := by
  unfold x32 setX32
  rw [if_pos rfl, if_neg (by omega), if_pos rfl]
  omega

theorem load16_lt (p : ByteBuf) (j : Nat) : load16 p j < 2 ^ 16 := by
  unfold load16
  omega

theorem load32_eq_load16 (p : ByteBuf) (k : Nat) :
    load32 p k = load16 p (2 * k) + load16 p (2 * k + 1) * 2 ^ 16 := by
  unfold load32 load16
  have e0 : 2 * (2 * k) = 4 * k := by omega
  have e1 : 2 * (2 * k + 1) = 4 * k + 2 := by omega
  have e3 : 2 * (2 * k + 1) + 1 = 4 * k + 3 := by omega
  rw [e3, e1, e0]
  omega

theorem xor_halves (a0 a1 b0 b1 : Nat) (ha : a0 < 2 ^ 16) (hb : b0 < 2 ^ 16) :
    (a0 + a1 * 2 ^ 16) ^^^ (b0 + b1 * 2 ^ 16) = (a0 ^^^ b0) + (a1 ^^^ b1) * 2 ^ 16 := by
  have hx : a0 ^^^ b0 < 2 ^ 16 := Nat.xor_lt_two_pow ha hb
  have ea : a0 + a1 * 2 ^ 16 = 2 ^ 16 * a1 + a0 := by omega
  have eb : b0 + b1 * 2 ^ 16 = 2 ^ 16 * b1 + b0 := by omega
  have ex : (a0 ^^^ b0) + (a1 ^^^ b1) * 2 ^ 16 = 2 ^ 16 * (a1 ^^^ b1) + (a0 ^^^ b0) := by omega
  rw [ea, eb, ex]
  apply Nat.eq_of_testBit_eq
  intro i
  rw [Nat.testBit_xor, Nat.testBit_mul_pow_two_add a1 ha, Nat.testBit_mul_pow_two_add b1 hb,
    Nat.testBit_mul_pow_two_add _ hx]
  by_cases h : i < 16
  · simp only [h, if_true, Nat.testBit_xor]
  · simp only [h, if_false, Nat.testBit_xor]

theorem QuickTexHashNonSSE_chunk_cursor (p : ByteBuf) (i : Nat) (st : HashState) (l : Nat)
    (hl : l < 8) :
    (QuickTexHashNonSSE_chunk p i st).cursor l
      = ((if l % 2 = 0 then
            (((x32 (fun l => (st.cursor l + (load16 p (8 * i + l) * st.cursor2 l) % 2 ^ 16)
                  % 2 ^ 16) (l / 2) ^^^ load32 p (4 * (i + 1) + l / 2)) % 2 ^ 32
                + load32 p (4 * (i + 2) + l / 2)) % 2 ^ 32) % 2 ^ 16
          else
            ((((x32 (fun l => (st.cursor l + (load16 p (8 * i + l) * st.cursor2 l) % 2 ^ 16)
                  % 2 ^ 16) (l / 2) ^^^ load32 p (4 * (i + 1) + l / 2)) % 2 ^ 32
                + load32 p (4 * (i + 2) + l / 2)) % 2 ^ 32) / 2 ^ 16) % 2 ^ 16)
          ^^^ (load16 p (8 * (i + 3) + l) * st.cursor2 l) % 2 ^ 16) := by
  have hF2 : ∀ c : U16x8,
      forLoop 4 (fun j c =>
          setX32 (setX32 c j (x32 c j ^^^ load32 p (4 * (i + 1) + j))) j
            ((x32 (setX32 c j (x32 c j ^^^ load32 p (4 * (i + 1) + j))) j
              + load32 p (4 * (i + 2) + j)) % 2 ^ 32)) c
        = forLoop 4 (fun j c => setX32 c j
            (((x32 c j ^^^ load32 p (4 * (i + 1) + j)) % 2 ^ 32
              + load32 p (4 * (i + 2) + j)) % 2 ^ 32)) c := by
    intro c
    apply forLoop_congr
    intro j _ c
    rw [setX32_twice, x32_setX32_mod]
  show forLoop 8 (fun j c => setX16 c j
      (c j ^^^ (load16 p (8 * (i + 3) + j) * st.cursor2 j) % 2 ^ 16))
    (forLoop 4 (fun j c =>
          setX32 (setX32 c j (x32 c j ^^^ load32 p (4 * (i + 1) + j))) j
            ((x32 (setX32 c j (x32 c j ^^^ load32 p (4 * (i + 1) + j))) j
              + load32 p (4 * (i + 2) + j)) % 2 ^ 32))
      (forLoop 8 (fun j c => setX16 c j
        ((c j + (load16 p (8 * (i + 0) + j) * st.cursor2 j) % 2 ^ 16) % 2 ^ 16))
        st.cursor)) l = _
  rw [forLoop_setX16 (fun j v => v ^^^ (load16 p (8 * (i + 3) + j) * st.cursor2 j) % 2 ^ 16),
    if_pos hl, hF2,
    forLoop_setX32 (fun j v => ((v ^^^ load32 p (4 * (i + 1) + j)) % 2 ^ 32
              + load32 p (4 * (i + 2) + j)) % 2 ^ 32),
    if_pos (show l < 2 * 4 by omega)]
  have hx : x32 (forLoop 8 (fun j c => setX16 c j
        ((c j + (load16 p (8 * (i + 0) + j) * st.cursor2 j) % 2 ^ 16) % 2 ^ 16))
        st.cursor) (l / 2)
      = x32 (fun l => (st.cursor l + (load16 p (8 * i + l) * st.cursor2 l) % 2 ^ 16)
          % 2 ^ 16) (l / 2) := by
    apply x32_congr
    · rw [forLoop_setX16
          (fun j v => (v + (load16 p (8 * (i + 0) + j) * st.cursor2 j) % 2 ^ 16) % 2 ^ 16),
        if_pos (show 2 * (l / 2) < 8 by omega)]
      rfl
    · rw [forLoop_setX16
          (fun j v => (v + (load16 p (8 * (i + 0) + j) * st.cursor2 j) % 2 ^ 16) % 2 ^ 16),
        if_pos (show 2 * (l / 2) + 1 < 8 by omega)]
      rfl
  rw [hx]

theorem QuickTexHashSSE2_chunk_cursor (p : ByteBuf) (i : Nat) (st : HashState) (l : Nat) :
    (QuickTexHashSSE2_chunk p i st).cursor l
      = ((if l % 2 = 0 then
            (((x32 (fun l => (st.cursor l + (load16 p (8 * i + l) * st.cursor2 l) % 2 ^ 16)
                  % 2 ^ 16) (l / 2) ^^^ load32 p (4 * (i + 1) + l / 2)) % 2 ^ 32
                + load32 p (4 * (i + 2) + l / 2)) % 2 ^ 32) % 2 ^ 16
          else
            ((((x32 (fun l => (st.cursor l + (load16 p (8 * i + l) * st.cursor2 l) % 2 ^ 16)
                  % 2 ^ 16) (l / 2) ^^^ load32 p (4 * (i + 1) + l / 2)) % 2 ^ 32
                + load32 p (4 * (i + 2) + l / 2)) % 2 ^ 32) / 2 ^ 16) % 2 ^ 16)
          ^^^ (load16 p (8 * (i + 3) + l) * st.cursor2 l) % 2 ^ 16) := by
  have h1 : x32 (X16.mm_xor_si128
        (X16.mm_add_epi16 st.cursor
          (X16.mm_mullo_epi16 (X16.mm_load_si128 p i) st.cursor2))
        (X16.mm_load_si128 p (i + 1))) (l / 2)
      = (x32 (fun l => (st.cursor l + (load16 p (8 * i + l) * st.cursor2 l) % 2 ^ 16)
          % 2 ^ 16) (l / 2) ^^^ load32 p (4 * (i + 1) + l / 2)) % 2 ^ 32 := by
    have e : 2 * (4 * (i + 1) + l / 2) = 8 * (i + 1) + 2 * (l / 2) := by omega
    have e' : 2 * (4 * (i + 1) + l / 2) + 1 = 8 * (i + 1) + (2 * (l / 2) + 1) := by omega
    rw [load32_eq_load16, e', e]
    have hb : ∀ a b : Nat, (a % 2 ^ 16) ^^^ load16 p b < 2 ^ 16 := fun a b =>
      Nat.xor_lt_two_pow (Nat.mod_lt _ (by decide)) (load16_lt p b)
    show ((st.cursor (2 * (l / 2))
          + (load16 p (8 * i + 2 * (l / 2)) * st.cursor2 (2 * (l / 2))) % 2 ^ 16) % 2 ^ 16
          ^^^ load16 p (8 * (i + 1) + 2 * (l / 2)))
        + ((st.cursor (2 * (l / 2) + 1)
          + (load16 p (8 * i + (2 * (l / 2) + 1)) * st.cursor2 (2 * (l / 2) + 1)) % 2 ^ 16)
            % 2 ^ 16 ^^^ load16 p (8 * (i + 1) + (2 * (l / 2) + 1))) * 2 ^ 16
        = (((st.cursor (2 * (l / 2))
          + (load16 p (8 * i + 2 * (l / 2)) * st.cursor2 (2 * (l / 2))) % 2 ^ 16) % 2 ^ 16
          + ((st.cursor (2 * (l / 2) + 1)
          + (load16 p (8 * i + (2 * (l / 2) + 1)) * st.cursor2 (2 * (l / 2) + 1)) % 2 ^ 16)
            % 2 ^ 16) * 2 ^ 16)
          ^^^ (load16 p (8 * (i + 1) + 2 * (l / 2))
              + load16 p (8 * (i + 1) + (2 * (l / 2) + 1)) * 2 ^ 16)) % 2 ^ 32
    rw [xor_halves _ _ _ _ (Nat.mod_lt _ (by decide)) (load16_lt p _)]
    have h0 := hb (st.cursor (2 * (l / 2))
          + (load16 p (8 * i + 2 * (l / 2)) * st.cursor2 (2 * (l / 2))) % 2 ^ 16)
          (8 * (i + 1) + 2 * (l / 2))
    have h1 := hb (st.cursor (2 * (l / 2) + 1)
          + (load16 p (8 * i + (2 * (l / 2) + 1)) * st.cursor2 (2 * (l / 2) + 1)) % 2 ^ 16)
          (8 * (i + 1) + (2 * (l / 2) + 1))
    omega
  have h2 : x32 (X16.mm_load_si128 p (i + 2)) (l / 2) = load32 p (4 * (i + 2) + l / 2) := by
    have e : 2 * (4 * (i + 2) + l / 2) = 8 * (i + 2) + 2 * (l / 2) := by omega
    have e' : 2 * (4 * (i + 2) + l / 2) + 1 = 8 * (i + 2) + (2 * (l / 2) + 1) := by omega
    rw [load32_eq_load16, e', e]
    rfl
  show (if l % 2 = 0 then
        ((x32 (X16.mm_xor_si128
            (X16.mm_add_epi16 st.cursor
              (X16.mm_mullo_epi16 (X16.mm_load_si128 p i) st.cursor2))
            (X16.mm_load_si128 p (i + 1))) (l / 2)
          + x32 (X16.mm_load_si128 p (i + 2)) (l / 2)) % 2 ^ 32) % 2 ^ 16
      else
        (((x32 (X16.mm_xor_si128
            (X16.mm_add_epi16 st.cursor
              (X16.mm_mullo_epi16 (X16.mm_load_si128 p i) st.cursor2))
            (X16.mm_load_si128 p (i + 1))) (l / 2)
          + x32 (X16.mm_load_si128 p (i + 2)) (l / 2)) % 2 ^ 32) / 2 ^ 16) % 2 ^ 16)
        ^^^ (load16 p (8 * (i + 3) + l) * st.cursor2 l) % 2 ^ 16 = _
  rw [h1, h2]

theorem chunk_lanes_agree (p : ByteBuf) (i : Nat) (u v : HashState)
    (hc : ∀ l, l < 8 → u.cursor l = v.cursor l)
    (hc2 : ∀ l, l < 8 → u.cursor2 l = v.cursor2 l) :
    (∀ l, l < 8 →
        (QuickTexHashNonSSE_chunk p i u).cursor l = (QuickTexHashSSE2_chunk p i v).cursor l) ∧
      (∀ l, l < 8 →
        (QuickTexHashNonSSE_chunk p i u).cursor2 l
          = (QuickTexHashSSE2_chunk p i v).cursor2 l) := by
  constructor
  · intro l hl
    rw [QuickTexHashNonSSE_chunk_cursor p i u l hl, QuickTexHashSSE2_chunk_cursor p i v l]
    have hx : x32 (fun l => (u.cursor l + (load16 p (8 * i + l) * u.cursor2 l) % 2 ^ 16)
          % 2 ^ 16) (l / 2)
        = x32 (fun l => (v.cursor l + (load16 p (8 * i + l) * v.cursor2 l) % 2 ^ 16)
          % 2 ^ 16) (l / 2) := by
      apply x32_congr
      · show (u.cursor (2 * (l / 2)) + _ * u.cursor2 (2 * (l / 2)) % 2 ^ 16) % 2 ^ 16
          = (v.cursor (2 * (l / 2)) + _ * v.cursor2 (2 * (l / 2)) % 2 ^ 16) % 2 ^ 16
        rw [hc _ (show 2 * (l / 2) < 8 by omega), hc2 _ (show 2 * (l / 2) < 8 by omega)]
      · show (u.cursor (2 * (l / 2) + 1) + _ * u.cursor2 (2 * (l / 2) + 1) % 2 ^ 16) % 2 ^ 16
          = (v.cursor (2 * (l / 2) + 1) + _ * v.cursor2 (2 * (l / 2) + 1) % 2 ^ 16) % 2 ^ 16
        rw [hc _ (show 2 * (l / 2) + 1 < 8 by omega),
          hc2 _ (show 2 * (l / 2) + 1 < 8 by omega)]
    rw [hx, hc2 l hl]
  · intro l hl
    show forLoop 8 (fun j c2 => setX16 c2 j ((c2 j + update.getD j 0) % 2 ^ 16)) u.cursor2 l
      = (v.cursor2 l + 0x2455 % 2 ^ 16) % 2 ^ 16
    rw [forLoop_setX16 (fun j v => (v + update.getD j 0) % 2 ^ 16), if_pos hl, hc2 l hl]
    interval_cases l <;> rfl

theorem chunks_lanes_agree (p : ByteBuf) (size : Nat) :
    (∀ l, l < 8 →
        (QuickTexHashNonSSE_chunks p size).cursor l = (QuickTexHashSSE2_chunks p size).cursor l) ∧
      (∀ l, l < 8 →
        (QuickTexHashNonSSE_chunks p size).cursor2 l
          = (QuickTexHashSSE2_chunks p size).cursor2 l) := by
  unfold QuickTexHashNonSSE_chunks QuickTexHashSSE2_chunks
  apply forLoop_rel (fun (u v : HashState) =>
    (∀ l, l < 8 → u.cursor l = v.cursor l) ∧ (∀ l, l < 8 → u.cursor2 l = v.cursor2 l))
  · constructor
    · intro l _
      show 0 = if l % 2 = 0 then 0 % 2 ^ 16 else (0 / 2 ^ 16) % 2 ^ 16
      split <;> rfl
    · intro l hl
      show forLoop 8 (fun j c2 => setX16 c2 j (cursor2_initial.getD j 0)) (fun _ => 0) l
        = [0xc00b, 0x9bd9, 0x4b73, 0xb651, 0x4d9b, 0x4309, 0x0083, 0x0001].getD l 0
      rw [forLoop_setX16 (fun j _ => cursor2_initial.getD j 0), if_pos hl]
      rfl
  · intro k _ u v huv
    exact chunk_lanes_agree p (4 * k) u v huv.1 huv.2

theorem x32_add_epi32 (a b : U16x8) (j : Nat) :
    x32 (X16.mm_add_epi32 a b) j = (x32 a j + x32 b j) % 2 ^ 32 := by
  have e0 : 2 * j / 2 = j := by omega
  have e1 : (2 * j + 1) / 2 = j := by omega
  have m0 : 2 * j % 2 = 0 := by omega
  have m1 : ¬ (2 * j + 1) % 2 = 0 := by omega
  show (if 2 * j % 2 = 0 then ((x32 a (2 * j / 2) + x32 b (2 * j / 2)) % 2 ^ 32) % 2 ^ 16
        else (((x32 a (2 * j / 2) + x32 b (2 * j / 2)) % 2 ^ 32) / 2 ^ 16) % 2 ^ 16)
      + (if (2 * j + 1) % 2 = 0 then
          ((x32 a ((2 * j + 1) / 2) + x32 b ((2 * j + 1) / 2)) % 2 ^ 32) % 2 ^ 16
        else (((x32 a ((2 * j + 1) / 2) + x32 b ((2 * j + 1) / 2)) % 2 ^ 32) / 2 ^ 16)
          % 2 ^ 16) * 2 ^ 16 = _
  rw [if_pos m0, if_neg m1, e0, e1]
  omega

theorem QuickTexHashSSE2_fold_eq (st : HashState) :
    QuickTexHashSSE2_fold st
      = ((x32 st.cursor 0 + x32 st.cursor2 0) % 2 ^ 32
          + (x32 st.cursor 1 + x32 st.cursor2 1) % 2 ^ 32
          + (x32 st.cursor 2 + x32 st.cursor2 2) % 2 ^ 32
          + (x32 st.cursor 3 + x32 st.cursor2 3) % 2 ^ 32) % 2 ^ 32 := by
  have s8a : ∀ v : U16x8, x32 (X16.mm_srli_si128 v 8) 0 = x32 v 2 := fun v => rfl
  have s8b : ∀ v : U16x8, x32 (X16.mm_srli_si128 v 8) 1 = x32 v 3 := fun v => rfl
  have s4 : ∀ v : U16x8, x32 (X16.mm_srli_si128 v 4) 0 = x32 v 1 := fun v => rfl
  unfold QuickTexHashSSE2_fold X16.mm_cvtsi128_si32
  simp only [x32_add_epi32, s4, s8a, s8b]
  omega

/-- C26. `QuickTexHashNonSSE` computes the same checksum as `QuickTexHashSSE2`:
for every buffer, every pointer alignment and every size (lanes read
little-endian), both return the same 32-bit value, on the 64-byte fast path as
well as on the scalar fallback branch. -/
theorem QuickTexHashNonSSE_eq_SSE2 (checkpAddr : Nat) (checkp : ByteBuf) (size : Nat) :
    QuickTexHashNonSSE checkpAddr checkp size = QuickTexHashSSE2 checkpAddr checkp size := by
  unfold QuickTexHashNonSSE QuickTexHashSSE2
  by_cases hc : checkpAddr &&& 0xf = 0 ∧ size &&& 0x3f = 0
  · rw [if_pos hc, if_pos hc, QuickTexHashNonSSE_fold_eq, QuickTexHashSSE2_fold_eq]
    have h := chunks_lanes_agree checkp size
    have hx : ∀ j, j < 4 →
        x32 (QuickTexHashNonSSE_chunks checkp size).cursor j
            = x32 (QuickTexHashSSE2_chunks checkp size).cursor j ∧
          x32 (QuickTexHashNonSSE_chunks checkp size).cursor2 j
            = x32 (QuickTexHashSSE2_chunks checkp size).cursor2 j := fun j hj =>
      ⟨x32_congr _ _ j (h.1 _ (by omega)) (h.1 _ (by omega)),
        x32_congr _ _ j (h.2 _ (by omega)) (h.2 _ (by omega))⟩
    rw [(hx 0 (by decide)).1, (hx 0 (by decide)).2, (hx 1 (by decide)).1,
      (hx 1 (by decide)).2, (hx 2 (by decide)).1, (hx 2 (by decide)).2,
      (hx 3 (by decide)).1, (hx 3 (by decide)).2]
  · rw [if_neg hc, if_neg hc]
    rfl

end TextureDecoder
